import Mathlib

/-!
Verification of the octree repository (src/octree_classic.h, src/octree_hashmap.h,
src/point.h) against its natural-language specification.

Modelling conventions:
* `float` coordinates are modelled as exact rationals `ℚ` (the spec describes the
  idealized arithmetic; all geometric claims are about the exact midpoint rule).
  Rational arithmetic is routed through `qadd`/`qhalf` (proved equal to `+` and
  `/ 2`) because those kernel-reduce, which keeps every definition evaluable.
* Recursive mutation (`insert`, `subdivide`) is modelled as a fuel-indexed pure
  function returning `Option` state: `none` means the recursion did not finish
  within the given fuel.  All read-only walks are structurally recursive.
* `std::unordered_map<int, ...>` is modelled as an association list kept in key
  insertion order.  C++ leaves the iteration order of an `unordered_map`
  unspecified; insertion order is one concrete realisation of it, and every
  order-insensitive statement below is independent of that choice.
-/

/-- Sum of two rationals, computed through `mkRat` so that it reduces in the
kernel (the kernel gets stuck on `Rat.add`).  Proved equal to `+` below. -/
def qadd (a b : ℚ) : ℚ := mkRat (a.num * b.den + b.num * a.den) (a.den * b.den)

/-- Half of a rational, computed through `mkRat`.  Proved equal to `/ 2` below. -/
def qhalf (a : ℚ) : ℚ := mkRat a.num (2 * a.den)

/-- Midpoint `(a + b) / 2`, the `(min + max) / 2.0f` of the source. -/
def qmid (a b : ℚ) : ℚ := qhalf (qadd a b)

/-- `struct Point` of src/point.h: three coordinates. -/
structure Point where
  x : ℚ
  y : ℚ
  z : ℚ
deriving DecidableEq

/-- `class OctreeNode` of src/octree_classic.h: a bounding box (`min`, `max`),
the point buffer `points`, and the fixed array `OctreeNode* children[8]`
(each slot `nullptr` or an owned child). -/
inductive OctreeNode : Type where
  | mk (bmin bmax : Point) (pts : List Point)
      (c0 c1 c2 c3 c4 c5 c6 c7 : Option OctreeNode) : OctreeNode

def OctreeNode.bmin : OctreeNode → Point
  | .mk a _ _ _ _ _ _ _ _ _ _ => a

def OctreeNode.bmax : OctreeNode → Point
  | .mk _ a _ _ _ _ _ _ _ _ _ => a

def OctreeNode.pts : OctreeNode → List Point
  | .mk _ _ a _ _ _ _ _ _ _ _ => a

/-- Array indexing `children[i]`. -/
def OctreeNode.child : OctreeNode → Nat → Option OctreeNode
  | .mk _ _ _ a _ _ _ _ _ _ _, 0 => a
  | .mk _ _ _ _ a _ _ _ _ _ _, 1 => a
  | .mk _ _ _ _ _ a _ _ _ _ _, 2 => a
  | .mk _ _ _ _ _ _ a _ _ _ _, 3 => a
  | .mk _ _ _ _ _ _ _ a _ _ _, 4 => a
  | .mk _ _ _ _ _ _ _ _ a _ _, 5 => a
  | .mk _ _ _ _ _ _ _ _ _ a _, 6 => a
  | .mk _ _ _ _ _ _ _ _ _ _ a, 7 => a
  | _, _ => none

/-- Array assignment `children[i] = c`. -/
def OctreeNode.setChild : OctreeNode → Nat → OctreeNode → OctreeNode
  | .mk b0 b1 ps _ a1 a2 a3 a4 a5 a6 a7, 0, c => .mk b0 b1 ps (some c) a1 a2 a3 a4 a5 a6 a7
  | .mk b0 b1 ps a0 _ a2 a3 a4 a5 a6 a7, 1, c => .mk b0 b1 ps a0 (some c) a2 a3 a4 a5 a6 a7
  | .mk b0 b1 ps a0 a1 _ a3 a4 a5 a6 a7, 2, c => .mk b0 b1 ps a0 a1 (some c) a3 a4 a5 a6 a7
  | .mk b0 b1 ps a0 a1 a2 _ a4 a5 a6 a7, 3, c => .mk b0 b1 ps a0 a1 a2 (some c) a4 a5 a6 a7
  | .mk b0 b1 ps a0 a1 a2 a3 _ a5 a6 a7, 4, c => .mk b0 b1 ps a0 a1 a2 a3 (some c) a5 a6 a7
  | .mk b0 b1 ps a0 a1 a2 a3 a4 _ a6 a7, 5, c => .mk b0 b1 ps a0 a1 a2 a3 a4 (some c) a6 a7
  | .mk b0 b1 ps a0 a1 a2 a3 a4 a5 _ a7, 6, c => .mk b0 b1 ps a0 a1 a2 a3 a4 a5 (some c) a7
  | .mk b0 b1 ps a0 a1 a2 a3 a4 a5 a6 _, 7, c => .mk b0 b1 ps a0 a1 a2 a3 a4 a5 a6 (some c)
  | n, _, _ => n

/-- Replacing the `points` buffer. -/
def OctreeNode.setPts : OctreeNode → List Point → OctreeNode
  | .mk b0 b1 _ a0 a1 a2 a3 a4 a5 a6 a7, ps => .mk b0 b1 ps a0 a1 a2 a3 a4 a5 a6 a7

/-- `OctreeNode(min, max)`: a fresh node, empty buffer, all eight slots null. -/
def OctreeNode.leaf (bmin bmax : Point) : OctreeNode :=
  .mk bmin bmax [] none none none none none none none none

/-- `bool isLeaf() const { return children[0] == nullptr; }` — the classic
variant inspects slot 0 only. -/
def OctreeNode.isLeaf (n : OctreeNode) : Bool := (n.child 0).isNone

/-- `bool contains(const Point& p)` of OctreeNode (bounds read from fields). -/
def OctreeNode.containsB (bmin bmax p : Point) : Bool :=
  decide (p.x ≥ bmin.x) && decide (p.x ≤ bmax.x) &&
  decide (p.y ≥ bmin.y) && decide (p.y ≤ bmax.y) &&
  decide (p.z ≥ bmin.z) && decide (p.z ≤ bmax.z)

/-- The box `center` computed inline by `getOctant`, `subdivide` and
`calculateChildBounds`: `(min + max) / 2.0f` per coordinate. -/
def OctreeNode.centerOf (bmin bmax : Point) : Point :=
  ⟨qmid bmin.x bmax.x, qmid bmin.y bmax.y, qmid bmin.z bmax.z⟩

/-- `int getOctant(const Point& p)` of OctreeNode: bit 0 iff `p.x > c.x`,
bit 1 iff `p.y > c.y`, bit 2 iff `p.z > c.z`. -/
def OctreeNode.getOctant (bmin bmax p : Point) : Nat :=
  let c := OctreeNode.centerOf bmin bmax
  (if p.x > c.x then 1 else 0) |||
  (if p.y > c.y then 2 else 0) |||
  (if p.z > c.z then 4 else 0)

/-- `void calculateChildBounds(int octant, Point& childMin, Point& childMax)`
of OctreeNode: per axis whose bit is set in `octant`, the lower bound becomes
the center, otherwise the upper bound becomes the center. -/
def OctreeNode.calculateChildBounds (bmin bmax : Point) (octant : Nat) : Point × Point :=
  let c := OctreeNode.centerOf bmin bmax
  (⟨if octant &&& 1 ≠ 0 then c.x else bmin.x,
    if octant &&& 2 ≠ 0 then c.y else bmin.y,
    if octant &&& 4 ≠ 0 then c.z else bmin.z⟩,
   ⟨if octant &&& 1 ≠ 0 then bmax.x else c.x,
    if octant &&& 2 ≠ 0 then bmax.y else c.y,
    if octant &&& 4 ≠ 0 then bmax.z else c.z⟩)

/-- The reinsertion loop of `subdivide`: `children[getOctant(p)]->insert(p)`
for each buffered point in order.  `ins` is the insert routine used on the
children (it is `OctreeNode.insert fuel` below; threading it as a parameter
keeps the recursion structural). -/
def OctreeNode.reinsertWith (ins : OctreeNode → Point → Option OctreeNode) :
    List Point → OctreeNode → Option OctreeNode
  | [], m => some m
  | p :: ps, m =>
    let idx := OctreeNode.getOctant m.bmin m.bmax p
    match m.child idx with
    | none => none
    | some c =>
      match ins c p with
      | none => none
      | some c' => OctreeNode.reinsertWith ins ps (m.setChild idx c')

/-- `void subdivide()` of OctreeNode: create all eight children, then reinsert
every buffered point through the normal `insert` path and clear the buffer
(the buffer is cleared up front here; the reinsertion loop reads the saved
list and only ever touches the children, so this is the same state). -/
def OctreeNode.subdivideWith (ins : OctreeNode → Point → Option OctreeNode)
    (n : OctreeNode) : Option OctreeNode :=
  let fresh : Nat → Option OctreeNode := fun i =>
    some (OctreeNode.leaf (OctreeNode.calculateChildBounds n.bmin n.bmax i).1
      (OctreeNode.calculateChildBounds n.bmin n.bmax i).2)
  let n8 : OctreeNode :=
    .mk n.bmin n.bmax [] (fresh 0) (fresh 1) (fresh 2) (fresh 3)
      (fresh 4) (fresh 5) (fresh 6) (fresh 7)
  OctreeNode.reinsertWith ins n.pts n8

/-- `void insert(const Point& p)` of OctreeNode, with fuel bounding the depth
of nested `insert` calls: `none` means the call did not return within that
depth (so `none` for every fuel is non-termination).  Out-of-bounds points are
dropped (the source logs a warning and returns, leaving the node intact). -/
def OctreeNode.insert : Nat → OctreeNode → Point → Option OctreeNode
  | 0, _, _ => none
  | fuel + 1, n, p =>
    if !(OctreeNode.containsB n.bmin n.bmax p) then some n
    else if n.isLeaf then
      let n' := n.setPts (n.pts ++ [p])
      if n'.pts.length > 1 then
        OctreeNode.subdivideWith (fun c q => OctreeNode.insert fuel c q) n'
      else some n'
    else
      let idx := OctreeNode.getOctant n.bmin n.bmax p
      let c :=
        match n.child idx with
        | some c => c
        | none =>
          OctreeNode.leaf (OctreeNode.calculateChildBounds n.bmin n.bmax idx).1
            (OctreeNode.calculateChildBounds n.bmin n.bmax idx).2
      match OctreeNode.insert fuel c p with
      | none => none
      | some c' => some (n.setChild idx c')

/-- `subdivide` as called by `insert` at the given fuel. -/
def OctreeNode.subdivide (fuel : Nat) (n : OctreeNode) : Option OctreeNode :=
  OctreeNode.subdivideWith (fun c q => OctreeNode.insert fuel c q) n

mutual

/-- `void collectAllPoints(std::vector<Point>&)` of OctreeNode: this node's
buffer, then (only when `!isLeaf()`) the non-null children in slot order. -/
def OctreeNode.collectAllPoints : OctreeNode → List Point
  | .mk _ _ ps c0 c1 c2 c3 c4 c5 c6 c7 =>
    ps ++
      (if c0.isNone then []
       else
        OctreeNode.collectOpt c0 ++ OctreeNode.collectOpt c1 ++
        OctreeNode.collectOpt c2 ++ OctreeNode.collectOpt c3 ++
        OctreeNode.collectOpt c4 ++ OctreeNode.collectOpt c5 ++
        OctreeNode.collectOpt c6 ++ OctreeNode.collectOpt c7)

/-- Contribution of one child slot to `collectAllPoints`. -/
def OctreeNode.collectOpt : Option OctreeNode → List Point
  | none => []
  | some c => OctreeNode.collectAllPoints c

end

/-- `std::vector<Point> rangeQuery(queryMin, queryMax)` of OctreeNode: a
brute-force scan of `collectAllPoints` filtered by the closed query box. -/
def OctreeNode.rangeQuery (n : OctreeNode) (qmin qmax : Point) : List Point :=
  (OctreeNode.collectAllPoints n).filter fun p =>
    decide (p.x ≥ qmin.x) && decide (p.x ≤ qmax.x) &&
    decide (p.y ≥ qmin.y) && decide (p.y ≤ qmax.y) &&
    decide (p.z ≥ qmin.z) && decide (p.z ≤ qmax.z)

mutual

/-- `void getStatistics(int&, int&, int&, int&, int)` of OctreeNode: in-out
accumulators `(totalNodes, leafNodes, totalPoints, maxDepth)`; children are
visited in slot order, and only when `!isLeaf()`. -/
def OctreeNode.getStatistics : OctreeNode → ℤ × ℤ × ℤ × ℤ → ℤ → ℤ × ℤ × ℤ × ℤ
  | .mk _ _ ps c0 c1 c2 c3 c4 c5 c6 c7, (tn, ln, tp, md), depth =>
    let tn' := tn + 1
    let tp' := tp + ps.length
    let md' := max md depth
    if c0.isNone then (tn', ln + 1, tp', md')
    else
      let s0 := OctreeNode.statOpt c0 (tn', ln, tp', md') (depth + 1)
      let s1 := OctreeNode.statOpt c1 s0 (depth + 1)
      let s2 := OctreeNode.statOpt c2 s1 (depth + 1)
      let s3 := OctreeNode.statOpt c3 s2 (depth + 1)
      let s4 := OctreeNode.statOpt c4 s3 (depth + 1)
      let s5 := OctreeNode.statOpt c5 s4 (depth + 1)
      let s6 := OctreeNode.statOpt c6 s5 (depth + 1)
      OctreeNode.statOpt c7 s6 (depth + 1)

/-- Contribution of one (possibly null) child slot to `getStatistics`. -/
def OctreeNode.statOpt : Option OctreeNode → ℤ × ℤ × ℤ × ℤ → ℤ → ℤ × ℤ × ℤ × ℤ
  | none, s, _ => s
  | some c, s, depth => OctreeNode.getStatistics c s depth

end

/-- Inserting a list of points one by one (the caller's insertion loop),
each `insert` run with the given fuel. -/
def OctreeNode.insertSeq (fuel : Nat) : OctreeNode → List Point → Option OctreeNode
  | n, [] => some n
  | n, p :: ps =>
    match OctreeNode.insert fuel n p with
    | none => none
    | some n' => OctreeNode.insertSeq fuel n' ps

/-- Building a tree: a freshly constructed root followed by a sequence of
insertions. -/
def OctreeNode.build (bmin bmax : Point) (fuel : Nat) (ps : List Point) : Option OctreeNode :=
  OctreeNode.insertSeq fuel (OctreeNode.leaf bmin bmax) ps

/-- `class OctreeHashMapNode` of src/octree_hashmap.h: a bounding box, the
point buffer, and `std::unordered_map<int, unique_ptr<OctreeHashMapNode>>`
children.  The map is modelled as an association list in key insertion
order (C++ leaves the iteration order of `unordered_map` unspecified;
insertion order is one concrete realisation). -/
inductive OctreeHashMapNode : Type where
  | mk (bmin bmax : Point) (pts : List Point)
      (children : List (Nat × OctreeHashMapNode)) : OctreeHashMapNode

def OctreeHashMapNode.bmin : OctreeHashMapNode → Point
  | .mk a _ _ _ => a

def OctreeHashMapNode.bmax : OctreeHashMapNode → Point
  | .mk _ a _ _ => a

def OctreeHashMapNode.pts : OctreeHashMapNode → List Point
  | .mk _ _ a _ => a

def OctreeHashMapNode.children : OctreeHashMapNode → List (Nat × OctreeHashMapNode)
  | .mk _ _ _ a => a

def OctreeHashMapNode.setPts : OctreeHashMapNode → List Point → OctreeHashMapNode
  | .mk b0 b1 _ cs, ps => .mk b0 b1 ps cs

def OctreeHashMapNode.setChildren :
    OctreeHashMapNode → List (Nat × OctreeHashMapNode) → OctreeHashMapNode
  | .mk b0 b1 ps _, cs => .mk b0 b1 ps cs

/-- `children.find(octant)`: first entry with the given key, if any. -/
def OctreeHashMapNode.findChild :
    List (Nat × OctreeHashMapNode) → Nat → Option OctreeHashMapNode
  | [], _ => none
  | (k, c) :: rest, o => if k = o then some c else OctreeHashMapNode.findChild rest o

/-- `children[octant] = c`: replace the entry with that key, or append a new
entry (a fresh key goes to the end in this insertion-order model). -/
def OctreeHashMapNode.storeChild :
    List (Nat × OctreeHashMapNode) → Nat → OctreeHashMapNode → List (Nat × OctreeHashMapNode)
  | [], o, c => [(o, c)]
  | (k, x) :: rest, o, c =>
    if k = o then (o, c) :: rest else (k, x) :: OctreeHashMapNode.storeChild rest o c

/-- `OctreeHashMapNode(min, max)`: fresh node, empty buffer, empty map. -/
def OctreeHashMapNode.leaf (bmin bmax : Point) : OctreeHashMapNode :=
  .mk bmin bmax [] []

/-- `static const size_t MAX_POINTS_PER_LEAF = 1`. -/
def OctreeHashMapNode.MAX_POINTS_PER_LEAF : Nat := 1

/-- `bool isLeaf() const { return children.empty(); }` -/
def OctreeHashMapNode.isLeaf (n : OctreeHashMapNode) : Bool := n.children.isEmpty

/-- `bool contains(const Point& p)` of OctreeHashMapNode (same comparisons as
the classic variant). -/
def OctreeHashMapNode.containsB (bmin bmax p : Point) : Bool :=
  decide (p.x ≥ bmin.x) && decide (p.x ≤ bmax.x) &&
  decide (p.y ≥ bmin.y) && decide (p.y ≤ bmax.y) &&
  decide (p.z ≥ bmin.z) && decide (p.z ≤ bmax.z)

/-- `int getOctant(const Point& p)` of OctreeHashMapNode. -/
def OctreeHashMapNode.getOctant (bmin bmax p : Point) : Nat :=
  let c := OctreeNode.centerOf bmin bmax
  (if p.x > c.x then 1 else 0) |||
  (if p.y > c.y then 2 else 0) |||
  (if p.z > c.z then 4 else 0)

/-- `void calculateChildBounds(int octant, Point&, Point&)` of
OctreeHashMapNode (same formula as the classic variant). -/
def OctreeHashMapNode.calculateChildBounds (bmin bmax : Point) (octant : Nat) :
    Point × Point :=
  let c := OctreeNode.centerOf bmin bmax
  (⟨if octant &&& 1 ≠ 0 then c.x else bmin.x,
    if octant &&& 2 ≠ 0 then c.y else bmin.y,
    if octant &&& 4 ≠ 0 then c.z else bmin.z⟩,
   ⟨if octant &&& 1 ≠ 0 then bmax.x else c.x,
    if octant &&& 2 ≠ 0 then bmax.y else c.y,
    if octant &&& 4 ≠ 0 then bmax.z else c.z⟩)

/-- `octantPoints[octant].push_back(p)` on the association-list model of the
grouping map used by `subdivide` (new octants appended at the end, so groups
appear in order of first occurrence). -/
def OctreeHashMapNode.addToGroup :
    List (Nat × List Point) → Nat → Point → List (Nat × List Point)
  | [], o, p => [(o, [p])]
  | (k, l) :: rest, o, p =>
    if k = o then (k, l ++ [p]) :: rest
    else (k, l) :: OctreeHashMapNode.addToGroup rest o p

/-- The grouping loop of `subdivide`: distribute the buffered points over
their octants, in buffer order. -/
def OctreeHashMapNode.groupByOctant (bmin bmax : Point) :
    List Point → List (Nat × List Point) → List (Nat × List Point)
  | [], acc => acc
  | p :: ps, acc =>
    OctreeHashMapNode.groupByOctant bmin bmax ps
      (OctreeHashMapNode.addToGroup acc (OctreeHashMapNode.getOctant bmin bmax p) p)

/-- The per-child reinsertion loop of `subdivide`: insert each of the group's
points into the freshly created child (`ins` is `insert` at the current fuel). -/
def OctreeHashMapNode.insertManyWith
    (ins : OctreeHashMapNode → Point → Option OctreeHashMapNode) :
    OctreeHashMapNode → List Point → Option OctreeHashMapNode
  | c, [] => some c
  | c, p :: ps =>
    match ins c p with
    | none => none
    | some c' => OctreeHashMapNode.insertManyWith ins c' ps

/-- The child-creation loop of `subdivide`: for each octant that received at
least one point, create the child from the derived bounds and insert that
octant's points into it, in group order. -/
def OctreeHashMapNode.subdivideGroupsWith
    (ins : OctreeHashMapNode → Point → Option OctreeHashMapNode)
    (bmin bmax : Point) :
    List (Nat × List Point) → Option (List (Nat × OctreeHashMapNode))
  | [] => some []
  | (o, plist) :: rest =>
    let c0 := OctreeHashMapNode.leaf
      (OctreeHashMapNode.calculateChildBounds bmin bmax o).1
      (OctreeHashMapNode.calculateChildBounds bmin bmax o).2
    match OctreeHashMapNode.insertManyWith ins c0 plist with
    | none => none
    | some c =>
      match OctreeHashMapNode.subdivideGroupsWith ins bmin bmax rest with
      | none => none
      | some cs => some ((o, c) :: cs)

/-- `void subdivide()` of OctreeHashMapNode: group the buffered points by
octant, create only the octants that received points, reinsert through the
normal `insert` path, clear the buffer. -/
def OctreeHashMapNode.subdivideWith
    (ins : OctreeHashMapNode → Point → Option OctreeHashMapNode)
    (n : OctreeHashMapNode) : Option OctreeHashMapNode :=
  match OctreeHashMapNode.subdivideGroupsWith ins n.bmin n.bmax
    (OctreeHashMapNode.groupByOctant n.bmin n.bmax n.pts []) with
  | none => none
  | some cs => some (.mk n.bmin n.bmax [] cs)

/-- `void insert(const Point& p)` of OctreeHashMapNode, fuelled like the
classic variant. -/
def OctreeHashMapNode.insert : Nat → OctreeHashMapNode → Point → Option OctreeHashMapNode
  | 0, _, _ => none
  | fuel + 1, n, p =>
    if !(OctreeHashMapNode.containsB n.bmin n.bmax p) then some n
    else if n.isLeaf then
      let n' := n.setPts (n.pts ++ [p])
      if n'.pts.length > OctreeHashMapNode.MAX_POINTS_PER_LEAF then
        OctreeHashMapNode.subdivideWith (fun c q => OctreeHashMapNode.insert fuel c q) n'
      else some n'
    else
      let o := OctreeHashMapNode.getOctant n.bmin n.bmax p
      let c :=
        match OctreeHashMapNode.findChild n.children o with
        | some c => c
        | none =>
          OctreeHashMapNode.leaf
            (OctreeHashMapNode.calculateChildBounds n.bmin n.bmax o).1
            (OctreeHashMapNode.calculateChildBounds n.bmin n.bmax o).2
      match OctreeHashMapNode.insert fuel c p with
      | none => none
      | some c' => some (n.setChildren (OctreeHashMapNode.storeChild n.children o c'))

/-- `subdivide` as called by `insert` at the given fuel. -/
def OctreeHashMapNode.subdivide (fuel : Nat) (n : OctreeHashMapNode) :
    Option OctreeHashMapNode :=
  OctreeHashMapNode.subdivideWith (fun c q => OctreeHashMapNode.insert fuel c q) n

mutual

/-- `void collectAllPoints(std::vector<Point>&)` of OctreeHashMapNode: this
node's buffer, then the children in the map's iteration order (modelled as
key insertion order; the source iterates the `unordered_map` directly and
imposes no ordering of its own). -/
def OctreeHashMapNode.collectAllPoints : OctreeHashMapNode → List Point
  | .mk _ _ ps cs => ps ++ OctreeHashMapNode.collectChildren cs

/-- Children's contribution to `collectAllPoints`, in map iteration order. -/
def OctreeHashMapNode.collectChildren : List (Nat × OctreeHashMapNode) → List Point
  | [] => []
  | (_, c) :: rest =>
    OctreeHashMapNode.collectAllPoints c ++ OctreeHashMapNode.collectChildren rest

end

/-- `bool boxIntersects(queryMin, queryMax)` of OctreeHashMapNode: the
separating-axis test against this node's box. -/
def OctreeHashMapNode.boxIntersects (bmin bmax qmin qmax : Point) : Bool :=
  !(decide (bmax.x < qmin.x) || decide (bmin.x > qmax.x) ||
    decide (bmax.y < qmin.y) || decide (bmin.y > qmax.y) ||
    decide (bmax.z < qmin.z) || decide (bmin.z > qmax.z))

mutual

/-- `void rangeQueryRecursive(queryMin, queryMax, result)` of
OctreeHashMapNode: prune when the node box misses the query box, otherwise
emit this node's matching buffered points and recurse into the children in
map iteration order. -/
def OctreeHashMapNode.rangeQueryRecursive :
    OctreeHashMapNode → Point → Point → List Point
  | .mk bmin bmax ps cs, qmin, qmax =>
    if !(OctreeHashMapNode.boxIntersects bmin bmax qmin qmax) then []
    else
      (ps.filter fun p =>
        decide (p.x ≥ qmin.x) && decide (p.x ≤ qmax.x) &&
        decide (p.y ≥ qmin.y) && decide (p.y ≤ qmax.y) &&
        decide (p.z ≥ qmin.z) && decide (p.z ≤ qmax.z)) ++
      OctreeHashMapNode.rangeQueryChildren cs qmin qmax

/-- Children's contribution to `rangeQueryRecursive`. -/
def OctreeHashMapNode.rangeQueryChildren :
    List (Nat × OctreeHashMapNode) → Point → Point → List Point
  | [], _, _ => []
  | (_, c) :: rest, qmin, qmax =>
    OctreeHashMapNode.rangeQueryRecursive c qmin qmax ++
    OctreeHashMapNode.rangeQueryChildren rest qmin qmax

end

/-- `std::vector<Point> rangeQuery(queryMin, queryMax)` of OctreeHashMapNode. -/
def OctreeHashMapNode.rangeQuery (n : OctreeHashMapNode) (qmin qmax : Point) :
    List Point :=
  OctreeHashMapNode.rangeQueryRecursive n qmin qmax

mutual

/-- `void getStatistics(int&, int&, int&, int&, int)` of OctreeHashMapNode. -/
def OctreeHashMapNode.getStatistics :
    OctreeHashMapNode → ℤ × ℤ × ℤ × ℤ → ℤ → ℤ × ℤ × ℤ × ℤ
  | .mk _ _ ps cs, (tn, ln, tp, md), depth =>
    let tn' := tn + 1
    let tp' := tp + ps.length
    let md' := max md depth
    if cs.isEmpty then (tn', ln + 1, tp', md')
    else OctreeHashMapNode.statChildren cs (tn', ln, tp', md') (depth + 1)

/-- Children's contribution to `getStatistics`, threading the accumulators in
map iteration order. -/
def OctreeHashMapNode.statChildren :
    List (Nat × OctreeHashMapNode) → ℤ × ℤ × ℤ × ℤ → ℤ → ℤ × ℤ × ℤ × ℤ
  | [], s, _ => s
  | (_, c) :: rest, s, depth =>
    OctreeHashMapNode.statChildren rest (OctreeHashMapNode.getStatistics c s depth) depth

end

/-- Inserting a list of points one by one into a hashmap-variant tree. -/
def OctreeHashMapNode.insertSeq (fuel : Nat) :
    OctreeHashMapNode → List Point → Option OctreeHashMapNode
  | n, [] => some n
  | n, p :: ps =>
    match OctreeHashMapNode.insert fuel n p with
    | none => none
    | some n' => OctreeHashMapNode.insertSeq fuel n' ps

/-- Building a hashmap-variant tree from a fresh root. -/
def OctreeHashMapNode.build (bmin bmax : Point) (fuel : Nat) (ps : List Point) :
    Option OctreeHashMapNode :=
  OctreeHashMapNode.insertSeq fuel (OctreeHashMapNode.leaf bmin bmax) ps

/-! ### Invariants of reachable classic trees -/

mutual

/-- Well-boundedness: every point collected from the node lies in the node's
box, and every existing child carries the derived child bounds of its slot
and is itself well-bounded.  Fresh roots have it and `insert` preserves it. -/
def OctreeNode.WB : OctreeNode → Prop
  | .mk b0 b1 ps c0 c1 c2 c3 c4 c5 c6 c7 =>
    (∀ q ∈ (OctreeNode.mk b0 b1 ps c0 c1 c2 c3 c4 c5 c6 c7).collectAllPoints,
      OctreeNode.containsB b0 b1 q = true) ∧
    OctreeNode.WBopt b0 b1 0 c0 ∧ OctreeNode.WBopt b0 b1 1 c1 ∧
    OctreeNode.WBopt b0 b1 2 c2 ∧ OctreeNode.WBopt b0 b1 3 c3 ∧
    OctreeNode.WBopt b0 b1 4 c4 ∧ OctreeNode.WBopt b0 b1 5 c5 ∧
    OctreeNode.WBopt b0 b1 6 c6 ∧ OctreeNode.WBopt b0 b1 7 c7

/-- Well-boundedness of one child slot of a node with box `(b0, b1)`. -/
def OctreeNode.WBopt : Point → Point → Nat → Option OctreeNode → Prop
  | _, _, _, none => True
  | b0, b1, i, some c =>
    c.bmin = (OctreeNode.calculateChildBounds b0 b1 i).1 ∧
    c.bmax = (OctreeNode.calculateChildBounds b0 b1 i).2 ∧
    OctreeNode.WB c

end

mutual

/-- The all-or-none child invariant of reachable classic trees: every node
has either no children at all or all eight, hereditarily (`subdivide` always
creates all eight, and nothing ever removes one). -/
def OctreeNode.Balanced : OctreeNode → Prop
  | .mk _ _ _ c0 c1 c2 c3 c4 c5 c6 c7 =>
    ((c0 = none ∧ c1 = none ∧ c2 = none ∧ c3 = none ∧ c4 = none ∧
      c5 = none ∧ c6 = none ∧ c7 = none) ∨
     (c0.isSome ∧ c1.isSome ∧ c2.isSome ∧ c3.isSome ∧ c4.isSome ∧
      c5.isSome ∧ c6.isSome ∧ c7.isSome)) ∧
    OctreeNode.BalancedOpt c0 ∧ OctreeNode.BalancedOpt c1 ∧
    OctreeNode.BalancedOpt c2 ∧ OctreeNode.BalancedOpt c3 ∧
    OctreeNode.BalancedOpt c4 ∧ OctreeNode.BalancedOpt c5 ∧
    OctreeNode.BalancedOpt c6 ∧ OctreeNode.BalancedOpt c7

/-- `Balanced` on one child slot. -/
def OctreeNode.BalancedOpt : Option OctreeNode → Prop
  | none => True
  | some c => OctreeNode.Balanced c

end

/-- The contract that one `insert` call at a fixed fuel satisfies whenever it
returns: boxes are preserved, balance is preserved, and on well-bounded nodes
well-boundedness is preserved while the collected multiset grows by exactly
the inserted point when it is in bounds (and not at all otherwise). -/
def OctreeNode.InsOK (ins : OctreeNode → Point → Option OctreeNode) : Prop :=
  ∀ c p c', ins c p = some c' →
    c'.bmin = c.bmin ∧ c'.bmax = c.bmax ∧
    (OctreeNode.Balanced c → OctreeNode.Balanced c') ∧
    (OctreeNode.WB c → OctreeNode.WB c' ∧
      (↑c'.collectAllPoints : Multiset Point) =
        (if OctreeNode.containsB c.bmin c.bmax p = true then {p} else 0) +
        ↑c.collectAllPoints)

/-- The eight-fresh-children node that `subdivide` builds before reinserting
(the buffer is already cleared in the model). -/
def OctreeNode.subdivNode (b0 b1 : Point) : OctreeNode :=
  .mk b0 b1 []
    (some (OctreeNode.leaf (OctreeNode.calculateChildBounds b0 b1 0).1
      (OctreeNode.calculateChildBounds b0 b1 0).2))
    (some (OctreeNode.leaf (OctreeNode.calculateChildBounds b0 b1 1).1
      (OctreeNode.calculateChildBounds b0 b1 1).2))
    (some (OctreeNode.leaf (OctreeNode.calculateChildBounds b0 b1 2).1
      (OctreeNode.calculateChildBounds b0 b1 2).2))
    (some (OctreeNode.leaf (OctreeNode.calculateChildBounds b0 b1 3).1
      (OctreeNode.calculateChildBounds b0 b1 3).2))
    (some (OctreeNode.leaf (OctreeNode.calculateChildBounds b0 b1 4).1
      (OctreeNode.calculateChildBounds b0 b1 4).2))
    (some (OctreeNode.leaf (OctreeNode.calculateChildBounds b0 b1 5).1
      (OctreeNode.calculateChildBounds b0 b1 5).2))
    (some (OctreeNode.leaf (OctreeNode.calculateChildBounds b0 b1 6).1
      (OctreeNode.calculateChildBounds b0 b1 6).2))
    (some (OctreeNode.leaf (OctreeNode.calculateChildBounds b0 b1 7).1
      (OctreeNode.calculateChildBounds b0 b1 7).2))

/-! ### Invariants of reachable hashmap trees -/

mutual

/-- Hashmap-variant well-boundedness: collected points lie within the box,
every child entry carries the derived bounds of its octant key and is itself
well-bounded. -/
def OctreeHashMapNode.WB : OctreeHashMapNode → Prop
  | .mk b0 b1 ps cs =>
    (∀ q ∈ (OctreeHashMapNode.mk b0 b1 ps cs).collectAllPoints,
      OctreeHashMapNode.containsB b0 b1 q = true) ∧
    OctreeHashMapNode.WBchildren b0 b1 cs

/-- `WB` for a list of child entries of a node with box `(b0, b1)`. -/
def OctreeHashMapNode.WBchildren : Point → Point → List (Nat × OctreeHashMapNode) → Prop
  | _, _, [] => True
  | b0, b1, (k, c) :: rest =>
    (c.bmin = (OctreeHashMapNode.calculateChildBounds b0 b1 k).1 ∧
     c.bmax = (OctreeHashMapNode.calculateChildBounds b0 b1 k).2 ∧
     OctreeHashMapNode.WB c) ∧
    OctreeHashMapNode.WBchildren b0 b1 rest

end

/-- Contribution of an optional child to the collected points. -/
def OctreeHashMapNode.collectOptH : Option OctreeHashMapNode → List Point
  | none => []
  | some c => c.collectAllPoints

/-- Flattening of an octant-grouping accumulator, in group order. -/
def OctreeHashMapNode.groupFlat : List (Nat × List Point) → List Point
  | [] => []
  | (_, l) :: rest => l ++ OctreeHashMapNode.groupFlat rest

/-- Contract for the recursive insertion callback of the hashmap subdivision
helpers (no balance clause: the hashmap variant creates children on demand). -/
def OctreeHashMapNode.InsOK
    (ins : OctreeHashMapNode → Point → Option OctreeHashMapNode) : Prop :=
  ∀ c p c', ins c p = some c' →
    c'.bmin = c.bmin ∧ c'.bmax = c.bmax ∧
    (OctreeHashMapNode.WB c → OctreeHashMapNode.WB c' ∧
      (↑c'.collectAllPoints : Multiset Point) =
        (if OctreeHashMapNode.containsB c.bmin c.bmax p = true then {p} else 0) +
        ↑c.collectAllPoints)

mutual

/-- All nodes of a classic tree: the node itself, then the nodes of the
existing children in slot order. -/
def OctreeNode.allNodes : OctreeNode → List OctreeNode
  | .mk b0 b1 ps c0 c1 c2 c3 c4 c5 c6 c7 =>
    .mk b0 b1 ps c0 c1 c2 c3 c4 c5 c6 c7 ::
      (OctreeNode.allNodesOpt c0 ++ (OctreeNode.allNodesOpt c1 ++
        (OctreeNode.allNodesOpt c2 ++ (OctreeNode.allNodesOpt c3 ++
          (OctreeNode.allNodesOpt c4 ++ (OctreeNode.allNodesOpt c5 ++
            (OctreeNode.allNodesOpt c6 ++ OctreeNode.allNodesOpt c7)))))))

/-- Contribution of one child slot to `allNodes`. -/
def OctreeNode.allNodesOpt : Option OctreeNode → List OctreeNode
  | none => []
  | some c => OctreeNode.allNodes c

end

mutual

/-- Number of nodes of a classic tree (root plus all reachable children). -/
def OctreeNode.numNodes : OctreeNode → ℤ
  | .mk _ _ _ c0 c1 c2 c3 c4 c5 c6 c7 =>
    1 + (OctreeNode.numNodesOpt c0 + (OctreeNode.numNodesOpt c1 +
      (OctreeNode.numNodesOpt c2 + (OctreeNode.numNodesOpt c3 +
        (OctreeNode.numNodesOpt c4 + (OctreeNode.numNodesOpt c5 +
          (OctreeNode.numNodesOpt c6 + OctreeNode.numNodesOpt c7)))))))

/-- Contribution of one child slot to `numNodes`. -/
def OctreeNode.numNodesOpt : Option OctreeNode → ℤ
  | none => 0
  | some c => OctreeNode.numNodes c

end

mutual

/-- Number of leaves of a classic tree, a node counting as a leaf exactly
when `isLeaf` says so (slot 0 empty). -/
def OctreeNode.numLeaves : OctreeNode → ℤ
  | .mk _ _ _ c0 c1 c2 c3 c4 c5 c6 c7 =>
    if c0.isNone then 1
    else OctreeNode.numLeavesOpt c0 + (OctreeNode.numLeavesOpt c1 +
      (OctreeNode.numLeavesOpt c2 + (OctreeNode.numLeavesOpt c3 +
        (OctreeNode.numLeavesOpt c4 + (OctreeNode.numLeavesOpt c5 +
          (OctreeNode.numLeavesOpt c6 + OctreeNode.numLeavesOpt c7))))))

/-- Contribution of one child slot to `numLeaves`. -/
def OctreeNode.numLeavesOpt : Option OctreeNode → ℤ
  | none => 0
  | some c => OctreeNode.numLeaves c

end

mutual

/-- Total number of buffered points across a classic tree. -/
def OctreeNode.numPts : OctreeNode → ℤ
  | .mk _ _ ps c0 c1 c2 c3 c4 c5 c6 c7 =>
    (ps.length : ℤ) + (OctreeNode.numPtsOpt c0 + (OctreeNode.numPtsOpt c1 +
      (OctreeNode.numPtsOpt c2 + (OctreeNode.numPtsOpt c3 +
        (OctreeNode.numPtsOpt c4 + (OctreeNode.numPtsOpt c5 +
          (OctreeNode.numPtsOpt c6 + OctreeNode.numPtsOpt c7)))))))

/-- Contribution of one child slot to `numPts`. -/
def OctreeNode.numPtsOpt : Option OctreeNode → ℤ
  | none => 0
  | some c => OctreeNode.numPts c

end

mutual

/-- Depth of the deepest node of a classic tree whose root sits at depth `d`
(visiting children, in slot order, only when the node is not a leaf). -/
def OctreeNode.deepest : OctreeNode → ℤ → ℤ
  | .mk _ _ _ c0 c1 c2 c3 c4 c5 c6 c7, d =>
    if c0.isNone then d
    else OctreeNode.deepestOpt c7
      (OctreeNode.deepestOpt c6 (OctreeNode.deepestOpt c5
        (OctreeNode.deepestOpt c4 (OctreeNode.deepestOpt c3
          (OctreeNode.deepestOpt c2 (OctreeNode.deepestOpt c1
            (OctreeNode.deepestOpt c0 d (d + 1)) (d + 1)) (d + 1)) (d + 1))
          (d + 1)) (d + 1)) (d + 1)) (d + 1)

/-- Fold step of `deepest` over one child slot: take the running maximum
with the slot's deepest depth, if the slot is live. -/
def OctreeNode.deepestOpt : Option OctreeNode → ℤ → ℤ → ℤ
  | none, acc, _ => acc
  | some c, acc, d => max acc (OctreeNode.deepest c d)

end

mutual

/-- Number of nodes of a hashmap tree. -/
def OctreeHashMapNode.numNodes : OctreeHashMapNode → ℤ
  | .mk _ _ _ cs => 1 + OctreeHashMapNode.numNodesC cs

/-- Children's contribution to `numNodes`. -/
def OctreeHashMapNode.numNodesC : List (Nat × OctreeHashMapNode) → ℤ
  | [] => 0
  | (_, c) :: rest =>
    OctreeHashMapNode.numNodes c + OctreeHashMapNode.numNodesC rest

end

mutual

/-- Number of leaves of a hashmap tree (empty children map). -/
def OctreeHashMapNode.numLeaves : OctreeHashMapNode → ℤ
  | .mk _ _ _ cs =>
    if cs.isEmpty then 1 else OctreeHashMapNode.numLeavesC cs

/-- Children's contribution to `numLeaves`. -/
def OctreeHashMapNode.numLeavesC : List (Nat × OctreeHashMapNode) → ℤ
  | [] => 0
  | (_, c) :: rest =>
    OctreeHashMapNode.numLeaves c + OctreeHashMapNode.numLeavesC rest

end

mutual

/-- Total number of buffered points across a hashmap tree. -/
def OctreeHashMapNode.numPts : OctreeHashMapNode → ℤ
  | .mk _ _ ps cs => (ps.length : ℤ) + OctreeHashMapNode.numPtsC cs

/-- Children's contribution to `numPts`. -/
def OctreeHashMapNode.numPtsC : List (Nat × OctreeHashMapNode) → ℤ
  | [] => 0
  | (_, c) :: rest =>
    OctreeHashMapNode.numPts c + OctreeHashMapNode.numPtsC rest

end

mutual

/-- Depth of the deepest node of a hashmap tree whose root sits at depth
`d`. -/
def OctreeHashMapNode.deepest : OctreeHashMapNode → ℤ → ℤ
  | .mk _ _ _ cs, d =>
    if cs.isEmpty then d else OctreeHashMapNode.deepestC cs d (d + 1)

/-- Fold of `deepest` over the children in map order, with running maximum
`acc`. -/
def OctreeHashMapNode.deepestC : List (Nat × OctreeHashMapNode) → ℤ → ℤ → ℤ
  | [], acc, _ => acc
  | (_, c) :: rest, acc, d =>
    OctreeHashMapNode.deepestC rest (max acc (OctreeHashMapNode.deepest c d)) d

end

/-- Sequential insertion of a list of points into one classic node (the order
in which `subdivide`'s reinsertion loop feeds one particular child). -/
def OctreeNode.insertManyWith (ins : OctreeNode → Point → Option OctreeNode) :
    OctreeNode → List Point → Option OctreeNode
  | c, [] => some c
  | c, p :: ps =>
    match ins c p with
    | none => none
    | some c' => OctreeNode.insertManyWith ins c' ps

/-- The evolution of one child slot under a reinsertion loop: `none` for the
slot stays `none` only if no point is routed to it, and a live child absorbs
its routed points in order (`none` overall marks a failed nested insert). -/
def OctreeNode.chainOpt (ins : OctreeNode → Point → Option OctreeNode) :
    Option OctreeNode → List Point → Option (Option OctreeNode)
  | none, [] => some none
  | none, _ :: _ => none
  | some c, qs => (OctreeNode.insertManyWith ins c qs).map some

/-- Key lookup in an octant-grouping accumulator (first match, like
`findChild`). -/
def OctreeHashMapNode.groupFind :
    List (Nat × List Point) → Nat → Option (List Point)
  | [], _ => none
  | (k, l) :: rest, o =>
    if k = o then some l else OctreeHashMapNode.groupFind rest o

mutual

/-- The occupied regions of a classic tree: one `((bmin, bmax), pts)` entry
per node with a nonempty buffer, in slot order. -/
def OctreeNode.leafEntries : OctreeNode → List ((Point × Point) × List Point)
  | .mk b0 b1 ps c0 c1 c2 c3 c4 c5 c6 c7 =>
    (if ps.isEmpty then [] else [((b0, b1), ps)]) ++
      (OctreeNode.leafEntriesOpt c0 ++ (OctreeNode.leafEntriesOpt c1 ++
        (OctreeNode.leafEntriesOpt c2 ++ (OctreeNode.leafEntriesOpt c3 ++
          (OctreeNode.leafEntriesOpt c4 ++ (OctreeNode.leafEntriesOpt c5 ++
            (OctreeNode.leafEntriesOpt c6 ++ OctreeNode.leafEntriesOpt c7)))))))

/-- Contribution of one child slot to `leafEntries`. -/
def OctreeNode.leafEntriesOpt : Option OctreeNode → List ((Point × Point) × List Point)
  | none => []
  | some c => OctreeNode.leafEntries c

end

mutual

/-- The occupied regions of a hashmap tree, in map order. -/
def OctreeHashMapNode.leafEntries :
    OctreeHashMapNode → List ((Point × Point) × List Point)
  | .mk b0 b1 ps cs =>
    (if ps.isEmpty then [] else [((b0, b1), ps)]) ++
      OctreeHashMapNode.leafEntriesC cs

/-- Children's contribution to `leafEntries`. -/
def OctreeHashMapNode.leafEntriesC :
    List (Nat × OctreeHashMapNode) → List ((Point × Point) × List Point)
  | [] => []
  | (_, c) :: rest =>
    OctreeHashMapNode.leafEntries c ++ OctreeHashMapNode.leafEntriesC rest

end

mutual

/-- Simulation relation between a classic tree and a hashmap tree: same box,
same buffer, same leaf/non-leaf status, and slot-by-slot related children —
where a classic child that is still exactly the freshly created empty leaf of
its octant may be missing from the hashmap's children map (the hashmap only
materialises octants that receive points), and the hashmap's keys are
distinct octant indices below 8. -/
def OctreeRel : OctreeNode → OctreeHashMapNode → Prop
  | .mk b0 b1 ps c0 c1 c2 c3 c4 c5 c6 c7, .mk hb0 hb1 hps hcs =>
    b0 = hb0 ∧ b1 = hb1 ∧ ps = hps ∧
    ((c0 = none ∧ c1 = none ∧ c2 = none ∧ c3 = none ∧ c4 = none ∧
      c5 = none ∧ c6 = none ∧ c7 = none ∧ hcs = []) ∨
     (c0.isSome = true ∧ hcs ≠ [] ∧
      (∀ k ∈ hcs.map Prod.fst, k < 8) ∧ (hcs.map Prod.fst).Nodup ∧
      OctreeRelOpt b0 b1 0 c0 (OctreeHashMapNode.findChild hcs 0) ∧
      OctreeRelOpt b0 b1 1 c1 (OctreeHashMapNode.findChild hcs 1) ∧
      OctreeRelOpt b0 b1 2 c2 (OctreeHashMapNode.findChild hcs 2) ∧
      OctreeRelOpt b0 b1 3 c3 (OctreeHashMapNode.findChild hcs 3) ∧
      OctreeRelOpt b0 b1 4 c4 (OctreeHashMapNode.findChild hcs 4) ∧
      OctreeRelOpt b0 b1 5 c5 (OctreeHashMapNode.findChild hcs 5) ∧
      OctreeRelOpt b0 b1 6 c6 (OctreeHashMapNode.findChild hcs 6) ∧
      OctreeRelOpt b0 b1 7 c7 (OctreeHashMapNode.findChild hcs 7)))

/-- Slot-level simulation: both absent; classic still the untouched fresh
leaf of octant `i` while the hashmap never materialised it; or both present
and related. -/
def OctreeRelOpt : Point → Point → Nat →
    Option OctreeNode → Option OctreeHashMapNode → Prop
  | _, _, _, none, none => True
  | b0, b1, i, some c, none =>
    c = OctreeNode.leaf (OctreeNode.calculateChildBounds b0 b1 i).1
      (OctreeNode.calculateChildBounds b0 b1 i).2
  | _, _, _, none, some _ => False
  | _, _, _, some c, some hc => OctreeRel c hc

end

/-- Simulation on whole call results: both diverged (at the modelled fuel) or
both returned related trees. -/
def OctreeOptRel : Option OctreeNode → Option OctreeHashMapNode → Prop
  | none, none => True
  | some n, some h => OctreeRel n h
  | none, some _ => False
  | some _, none => False

/-- The points of `ps` routed to octant `i` of box `(b0, b1)`, in order. -/
def octFilter (b0 b1 : Point) (i : Nat) (ps : List Point) : List Point :=
  ps.filter fun p => decide (OctreeNode.getOctant b0 b1 p = i)

/-- Contribution of an optional child to `leafEntries`. -/
def OctreeHashMapNode.leafEntriesOptH :
    Option OctreeHashMapNode → List ((Point × Point) × List Point)
  | none => []
  | some c => OctreeHashMapNode.leafEntries c

theorem qadd_eq (a b : ℚ) : qadd a b = a + b := by
  have ha : ((a.den : ℚ)) ≠ 0 := by exact_mod_cast a.den_nz
  have hb : ((b.den : ℚ)) ≠ 0 := by exact_mod_cast b.den_nz
  rw [qadd, Rat.mkRat_eq_div]
  push_cast
  conv_rhs => rw [← Rat.num_div_den a, ← Rat.num_div_den b]
  rw [div_add_div _ _ ha hb]
  ring_nf

theorem qhalf_eq (a : ℚ) : qhalf a = a / 2 := by
  rw [qhalf, Rat.mkRat_eq_div]
  push_cast
  conv_rhs => rw [← Rat.num_div_den a]
  rw [div_div]
  ring_nf

theorem qmid_eq (a b : ℚ) : qmid a b = (a + b) / 2 := by
  rw [qmid, qhalf_eq, qadd_eq]

theorem qmid_le_right {a b : ℚ} (h : a ≤ b) : qmid a b ≤ b := by
  rw [qmid_eq]; linarith

theorem qmid_ge_left {a b : ℚ} (h : a ≤ b) : a ≤ qmid a b := by
  rw [qmid_eq]; linarith

/-! ### Basic facts about the two embeddings -/

theorem hm_containsB_eq : OctreeHashMapNode.containsB = OctreeNode.containsB := rfl

theorem hm_getOctant_eq : OctreeHashMapNode.getOctant = OctreeNode.getOctant := rfl

theorem hm_calculateChildBounds_eq :
    OctreeHashMapNode.calculateChildBounds = OctreeNode.calculateChildBounds := rfl

@[simp] theorem OctreeNode.bmin_mk (b0 b1 ps c0 c1 c2 c3 c4 c5 c6 c7) :
    (OctreeNode.mk b0 b1 ps c0 c1 c2 c3 c4 c5 c6 c7).bmin = b0 := rfl

@[simp] theorem OctreeNode.bmax_mk (b0 b1 ps c0 c1 c2 c3 c4 c5 c6 c7) :
    (OctreeNode.mk b0 b1 ps c0 c1 c2 c3 c4 c5 c6 c7).bmax = b1 := rfl

@[simp] theorem OctreeNode.pts_mk (b0 b1 ps c0 c1 c2 c3 c4 c5 c6 c7) :
    (OctreeNode.mk b0 b1 ps c0 c1 c2 c3 c4 c5 c6 c7).pts = ps := rfl

@[simp] theorem OctreeNode.setPts_bmin (n : OctreeNode) (l : List Point) :
    (n.setPts l).bmin = n.bmin := by cases n; rfl

@[simp] theorem OctreeNode.setPts_bmax (n : OctreeNode) (l : List Point) :
    (n.setPts l).bmax = n.bmax := by cases n; rfl

@[simp] theorem OctreeNode.setPts_pts (n : OctreeNode) (l : List Point) :
    (n.setPts l).pts = l := by cases n; rfl

@[simp] theorem OctreeNode.setPts_child (n : OctreeNode) (l : List Point) (i : Nat) :
    (n.setPts l).child i = n.child i := by
  cases n; rcases i with _|_|_|_|_|_|_|_|i <;> rfl

@[simp] theorem OctreeNode.setChild_bmin (n : OctreeNode) (i : Nat) (c : OctreeNode) :
    (n.setChild i c).bmin = n.bmin := by
  cases n; rcases i with _|_|_|_|_|_|_|_|i <;> rfl

@[simp] theorem OctreeNode.setChild_bmax (n : OctreeNode) (i : Nat) (c : OctreeNode) :
    (n.setChild i c).bmax = n.bmax := by
  cases n; rcases i with _|_|_|_|_|_|_|_|i <;> rfl

@[simp] theorem OctreeNode.setChild_pts (n : OctreeNode) (i : Nat) (c : OctreeNode) :
    (n.setChild i c).pts = n.pts := by
  cases n; rcases i with _|_|_|_|_|_|_|_|i <;> rfl

theorem OctreeNode.child_setChild_same (n : OctreeNode) (i : Nat) (c : OctreeNode)
    (h : i < 8) : (n.setChild i c).child i = some c := by
  cases n
  have h8 : i = 0 ∨ i = 1 ∨ i = 2 ∨ i = 3 ∨ i = 4 ∨ i = 5 ∨ i = 6 ∨ i = 7 := by omega
  rcases h8 with rfl|rfl|rfl|rfl|rfl|rfl|rfl|rfl <;> rfl

theorem OctreeNode.child_setChild_ne (n : OctreeNode) (i j : Nat) (c : OctreeNode)
    (hij : i ≠ j) : (n.setChild i c).child j = n.child j := by
  cases n
  rcases i with _|_|_|_|_|_|_|_|i <;>
    rcases j with _|_|_|_|_|_|_|_|j <;>
      first | rfl | exact absurd rfl hij

theorem OctreeNode.child_ge8 (n : OctreeNode) (j : Nat) (h : 8 ≤ j) :
    n.child j = none := by
  cases n
  rcases j with _|_|_|_|_|_|_|_|j
  all_goals first | omega | rfl

@[simp] theorem OctreeNode.leaf_bmin (b0 b1 : Point) :
    (OctreeNode.leaf b0 b1).bmin = b0 := rfl

@[simp] theorem OctreeNode.leaf_bmax (b0 b1 : Point) :
    (OctreeNode.leaf b0 b1).bmax = b1 := rfl

@[simp] theorem OctreeNode.leaf_pts (b0 b1 : Point) :
    (OctreeNode.leaf b0 b1).pts = [] := rfl

@[simp] theorem OctreeNode.leaf_child (b0 b1 : Point) (i : Nat) :
    (OctreeNode.leaf b0 b1).child i = none := by
  rcases i with _|_|_|_|_|_|_|_|i <;> rfl

@[simp] theorem OctreeNode.leaf_isLeaf (b0 b1 : Point) :
    (OctreeNode.leaf b0 b1).isLeaf = true := rfl

theorem OctreeNode.isLeaf_iff_child0 (n : OctreeNode) :
    n.isLeaf = (n.child 0).isNone := rfl

@[simp] theorem OctreeNode.isLeaf_mk (b0 b1 ps c0 c1 c2 c3 c4 c5 c6 c7) :
    (OctreeNode.mk b0 b1 ps c0 c1 c2 c3 c4 c5 c6 c7).isLeaf = c0.isNone := rfl

@[simp] theorem OctreeNode.collectOpt_none : OctreeNode.collectOpt none = [] := rfl

@[simp] theorem OctreeNode.collectOpt_some (c : OctreeNode) :
    OctreeNode.collectOpt (some c) = c.collectAllPoints := rfl

theorem OctreeNode.collect_mk (b0 b1 ps c0 c1 c2 c3 c4 c5 c6 c7) :
    (OctreeNode.mk b0 b1 ps c0 c1 c2 c3 c4 c5 c6 c7).collectAllPoints =
    ps ++
      (if c0.isNone then []
       else
        OctreeNode.collectOpt c0 ++ OctreeNode.collectOpt c1 ++
        OctreeNode.collectOpt c2 ++ OctreeNode.collectOpt c3 ++
        OctreeNode.collectOpt c4 ++ OctreeNode.collectOpt c5 ++
        OctreeNode.collectOpt c6 ++ OctreeNode.collectOpt c7) := by
  rw [OctreeNode.collectAllPoints]

@[simp] theorem OctreeHashMapNode.bmin_mkH (b0 b1 ps cs) :
    (OctreeHashMapNode.mk b0 b1 ps cs).bmin = b0 := rfl

@[simp] theorem OctreeHashMapNode.bmax_mkH (b0 b1 ps cs) :
    (OctreeHashMapNode.mk b0 b1 ps cs).bmax = b1 := rfl

@[simp] theorem OctreeHashMapNode.pts_mkH (b0 b1 ps cs) :
    (OctreeHashMapNode.mk b0 b1 ps cs).pts = ps := rfl

@[simp] theorem OctreeHashMapNode.children_mk (b0 b1 ps cs) :
    (OctreeHashMapNode.mk b0 b1 ps cs).children = cs := rfl

@[simp] theorem OctreeHashMapNode.setPts_bminH (n : OctreeHashMapNode) (l : List Point) :
    (n.setPts l).bmin = n.bmin := by cases n; rfl

@[simp] theorem OctreeHashMapNode.setPts_bmaxH (n : OctreeHashMapNode) (l : List Point) :
    (n.setPts l).bmax = n.bmax := by cases n; rfl

@[simp] theorem OctreeHashMapNode.setPts_ptsH (n : OctreeHashMapNode) (l : List Point) :
    (n.setPts l).pts = l := by cases n; rfl

@[simp] theorem OctreeHashMapNode.setPts_children (n : OctreeHashMapNode) (l : List Point) :
    (n.setPts l).children = n.children := by cases n; rfl

@[simp] theorem OctreeHashMapNode.setChildren_bmin (n : OctreeHashMapNode) (cs) :
    (n.setChildren cs).bmin = n.bmin := by cases n; rfl

@[simp] theorem OctreeHashMapNode.setChildren_bmax (n : OctreeHashMapNode) (cs) :
    (n.setChildren cs).bmax = n.bmax := by cases n; rfl

@[simp] theorem OctreeHashMapNode.setChildren_pts (n : OctreeHashMapNode) (cs) :
    (n.setChildren cs).pts = n.pts := by cases n; rfl

@[simp] theorem OctreeHashMapNode.setChildren_children (n : OctreeHashMapNode) (cs) :
    (n.setChildren cs).children = cs := by cases n; rfl

@[simp] theorem OctreeHashMapNode.leaf_bminH (b0 b1 : Point) :
    (OctreeHashMapNode.leaf b0 b1).bmin = b0 := rfl

@[simp] theorem OctreeHashMapNode.leaf_bmaxH (b0 b1 : Point) :
    (OctreeHashMapNode.leaf b0 b1).bmax = b1 := rfl

@[simp] theorem OctreeHashMapNode.leaf_ptsH (b0 b1 : Point) :
    (OctreeHashMapNode.leaf b0 b1).pts = [] := rfl

@[simp] theorem OctreeHashMapNode.leaf_children (b0 b1 : Point) :
    (OctreeHashMapNode.leaf b0 b1).children = [] := rfl

@[simp] theorem OctreeHashMapNode.leaf_isLeafH (b0 b1 : Point) :
    (OctreeHashMapNode.leaf b0 b1).isLeaf = true := rfl

@[simp] theorem OctreeHashMapNode.collectChildren_nil :
    OctreeHashMapNode.collectChildren [] = [] := rfl

@[simp] theorem OctreeHashMapNode.collectChildren_cons (k : Nat)
    (c : OctreeHashMapNode) (rest) :
    OctreeHashMapNode.collectChildren ((k, c) :: rest) =
    c.collectAllPoints ++ OctreeHashMapNode.collectChildren rest := rfl

theorem OctreeHashMapNode.collect_mkH (b0 b1 ps cs) :
    (OctreeHashMapNode.mk b0 b1 ps cs).collectAllPoints =
    ps ++ OctreeHashMapNode.collectChildren cs := by
  rw [OctreeHashMapNode.collectAllPoints]

/-! ### Geometry of octants and child boxes -/

theorem OctreeNode.containsB_iff (bmin bmax p : Point) :
    OctreeNode.containsB bmin bmax p = true ↔
    (bmin.x ≤ p.x ∧ p.x ≤ bmax.x ∧ bmin.y ≤ p.y ∧ p.y ≤ bmax.y ∧
     bmin.z ≤ p.z ∧ p.z ≤ bmax.z) := by
  simp [OctreeNode.containsB, ge_iff_le, and_assoc]

@[simp] theorem OctreeNode.cb_fst_x (bmin bmax : Point) (o : Nat) :
    (OctreeNode.calculateChildBounds bmin bmax o).1.x =
    if o &&& 1 ≠ 0 then (OctreeNode.centerOf bmin bmax).x else bmin.x := rfl

@[simp] theorem OctreeNode.cb_fst_y (bmin bmax : Point) (o : Nat) :
    (OctreeNode.calculateChildBounds bmin bmax o).1.y =
    if o &&& 2 ≠ 0 then (OctreeNode.centerOf bmin bmax).y else bmin.y := rfl

@[simp] theorem OctreeNode.cb_fst_z (bmin bmax : Point) (o : Nat) :
    (OctreeNode.calculateChildBounds bmin bmax o).1.z =
    if o &&& 4 ≠ 0 then (OctreeNode.centerOf bmin bmax).z else bmin.z := rfl

@[simp] theorem OctreeNode.cb_snd_x (bmin bmax : Point) (o : Nat) :
    (OctreeNode.calculateChildBounds bmin bmax o).2.x =
    if o &&& 1 ≠ 0 then bmax.x else (OctreeNode.centerOf bmin bmax).x := rfl

@[simp] theorem OctreeNode.cb_snd_y (bmin bmax : Point) (o : Nat) :
    (OctreeNode.calculateChildBounds bmin bmax o).2.y =
    if o &&& 2 ≠ 0 then bmax.y else (OctreeNode.centerOf bmin bmax).y := rfl

@[simp] theorem OctreeNode.cb_snd_z (bmin bmax : Point) (o : Nat) :
    (OctreeNode.calculateChildBounds bmin bmax o).2.z =
    if o &&& 4 ≠ 0 then bmax.z else (OctreeNode.centerOf bmin bmax).z := rfl

theorem OctreeNode.getOctant_and1 (bmin bmax p : Point) :
    (OctreeNode.getOctant bmin bmax p &&& 1 ≠ 0) ↔
    (OctreeNode.centerOf bmin bmax).x < p.x := by
  by_cases h1 : (OctreeNode.centerOf bmin bmax).x < p.x <;>
    by_cases h2 : (OctreeNode.centerOf bmin bmax).y < p.y <;>
      by_cases h3 : (OctreeNode.centerOf bmin bmax).z < p.z <;>
        simp [OctreeNode.getOctant, h1, h2, h3]

theorem OctreeNode.getOctant_and2 (bmin bmax p : Point) :
    (OctreeNode.getOctant bmin bmax p &&& 2 ≠ 0) ↔
    (OctreeNode.centerOf bmin bmax).y < p.y := by
  by_cases h1 : (OctreeNode.centerOf bmin bmax).x < p.x <;>
    by_cases h2 : (OctreeNode.centerOf bmin bmax).y < p.y <;>
      by_cases h3 : (OctreeNode.centerOf bmin bmax).z < p.z <;>
        (try simp [OctreeNode.getOctant, h1, h2, h3]) <;> (try decide)

theorem OctreeNode.getOctant_and4 (bmin bmax p : Point) :
    (OctreeNode.getOctant bmin bmax p &&& 4 ≠ 0) ↔
    (OctreeNode.centerOf bmin bmax).z < p.z := by
  by_cases h1 : (OctreeNode.centerOf bmin bmax).x < p.x <;>
    by_cases h2 : (OctreeNode.centerOf bmin bmax).y < p.y <;>
      by_cases h3 : (OctreeNode.centerOf bmin bmax).z < p.z <;>
        (try simp [OctreeNode.getOctant, h1, h2, h3]) <;> (try decide)

theorem OctreeNode.getOctant_lt8 (bmin bmax p : Point) :
    OctreeNode.getOctant bmin bmax p < 8 := by
  by_cases h1 : (OctreeNode.centerOf bmin bmax).x < p.x <;>
    by_cases h2 : (OctreeNode.centerOf bmin bmax).y < p.y <;>
      by_cases h3 : (OctreeNode.centerOf bmin bmax).z < p.z <;>
        simp [OctreeNode.getOctant, h1, h2, h3]

/-- A point inside a node's box lies inside the derived bounds of the child
octant that `getOctant` assigns to it (midpoint ties go to the lower half,
whose child box has the center as its upper bound). -/
theorem OctreeNode.contains_childBounds (bmin bmax p : Point)
    (h : OctreeNode.containsB bmin bmax p = true) :
    OctreeNode.containsB
      (OctreeNode.calculateChildBounds bmin bmax (OctreeNode.getOctant bmin bmax p)).1
      (OctreeNode.calculateChildBounds bmin bmax (OctreeNode.getOctant bmin bmax p)).2
      p = true := by
  rw [OctreeNode.containsB_iff] at h ⊢
  obtain ⟨hx0, hx1, hy0, hy1, hz0, hz1⟩ := h
  simp only [OctreeNode.cb_fst_x, OctreeNode.cb_fst_y, OctreeNode.cb_fst_z,
    OctreeNode.cb_snd_x, OctreeNode.cb_snd_y, OctreeNode.cb_snd_z]
  refine ⟨?_, ?_, ?_, ?_, ?_, ?_⟩
  · by_cases bx : OctreeNode.getOctant bmin bmax p &&& 1 ≠ 0
    · rw [if_pos bx]
      exact le_of_lt ((OctreeNode.getOctant_and1 bmin bmax p).mp bx)
    · rw [if_neg bx]; exact hx0
  · by_cases bx : OctreeNode.getOctant bmin bmax p &&& 1 ≠ 0
    · rw [if_pos bx]; exact hx1
    · rw [if_neg bx]
      exact le_of_not_lt fun hlt => bx ((OctreeNode.getOctant_and1 bmin bmax p).mpr hlt)
  · by_cases bb : OctreeNode.getOctant bmin bmax p &&& 2 ≠ 0
    · rw [if_pos bb]
      exact le_of_lt ((OctreeNode.getOctant_and2 bmin bmax p).mp bb)
    · rw [if_neg bb]; exact hy0
  · by_cases bb : OctreeNode.getOctant bmin bmax p &&& 2 ≠ 0
    · rw [if_pos bb]; exact hy1
    · rw [if_neg bb]
      exact le_of_not_lt fun hlt => bb ((OctreeNode.getOctant_and2 bmin bmax p).mpr hlt)
  · by_cases bb : OctreeNode.getOctant bmin bmax p &&& 4 ≠ 0
    · rw [if_pos bb]
      exact le_of_lt ((OctreeNode.getOctant_and4 bmin bmax p).mp bb)
    · rw [if_neg bb]; exact hz0
  · by_cases bb : OctreeNode.getOctant bmin bmax p &&& 4 ≠ 0
    · rw [if_pos bb]; exact hz1
    · rw [if_neg bb]
      exact le_of_not_lt fun hlt => bb ((OctreeNode.getOctant_and4 bmin bmax p).mpr hlt)

theorem OctreeNode.centerOf_x_between (bmin bmax : Point) (h : bmin.x ≤ bmax.x) :
    bmin.x ≤ (OctreeNode.centerOf bmin bmax).x ∧
    (OctreeNode.centerOf bmin bmax).x ≤ bmax.x :=
  ⟨qmid_ge_left h, qmid_le_right h⟩

theorem OctreeNode.centerOf_y_between (bmin bmax : Point) (h : bmin.y ≤ bmax.y) :
    bmin.y ≤ (OctreeNode.centerOf bmin bmax).y ∧
    (OctreeNode.centerOf bmin bmax).y ≤ bmax.y :=
  ⟨qmid_ge_left h, qmid_le_right h⟩

theorem OctreeNode.centerOf_z_between (bmin bmax : Point) (h : bmin.z ≤ bmax.z) :
    bmin.z ≤ (OctreeNode.centerOf bmin bmax).z ∧
    (OctreeNode.centerOf bmin bmax).z ≤ bmax.z :=
  ⟨qmid_ge_left h, qmid_le_right h⟩

/-! ### C7: octant classification -/

theorem OctreeNode.testBit0_getOctant (bmin bmax p : Point) :
    ((OctreeNode.getOctant bmin bmax p).testBit 0 = true ↔
      (OctreeNode.centerOf bmin bmax).x < p.x) := by
  by_cases h1 : (OctreeNode.centerOf bmin bmax).x < p.x <;>
    by_cases h2 : (OctreeNode.centerOf bmin bmax).y < p.y <;>
      by_cases h3 : (OctreeNode.centerOf bmin bmax).z < p.z <;>
        simp [OctreeNode.getOctant, h1, h2, h3]

theorem OctreeNode.testBit1_getOctant (bmin bmax p : Point) :
    ((OctreeNode.getOctant bmin bmax p).testBit 1 = true ↔
      (OctreeNode.centerOf bmin bmax).y < p.y) := by
  by_cases h1 : (OctreeNode.centerOf bmin bmax).x < p.x <;>
    by_cases h2 : (OctreeNode.centerOf bmin bmax).y < p.y <;>
      by_cases h3 : (OctreeNode.centerOf bmin bmax).z < p.z <;>
        (try simp [OctreeNode.getOctant, h1, h2, h3]) <;> (try decide)

theorem OctreeNode.testBit2_getOctant (bmin bmax p : Point) :
    ((OctreeNode.getOctant bmin bmax p).testBit 2 = true ↔
      (OctreeNode.centerOf bmin bmax).z < p.z) := by
  by_cases h1 : (OctreeNode.centerOf bmin bmax).x < p.x <;>
    by_cases h2 : (OctreeNode.centerOf bmin bmax).y < p.y <;>
      by_cases h3 : (OctreeNode.centerOf bmin bmax).z < p.z <;>
        (try simp [OctreeNode.getOctant, h1, h2, h3]) <;> (try decide)

/-- C7: for every box and point, `getOctant` sets bit 0 iff `p.x > c.x`,
bit 1 iff `p.y > c.y`, bit 2 iff `p.z > c.z`, where `c = (min + max) / 2`;
a point exactly on a midpoint plane is classified into the lower half on that
axis; and the two variants compute identical octants. -/
theorem claim_C7 (bmin bmax p : Point) :
    OctreeHashMapNode.getOctant bmin bmax p = OctreeNode.getOctant bmin bmax p ∧
    OctreeNode.getOctant bmin bmax p < 8 ∧
    ((OctreeNode.getOctant bmin bmax p).testBit 0 = true ↔
      (bmin.x + bmax.x) / 2 < p.x) ∧
    ((OctreeNode.getOctant bmin bmax p).testBit 1 = true ↔
      (bmin.y + bmax.y) / 2 < p.y) ∧
    ((OctreeNode.getOctant bmin bmax p).testBit 2 = true ↔
      (bmin.z + bmax.z) / 2 < p.z) ∧
    (p.x = (bmin.x + bmax.x) / 2 → (OctreeNode.getOctant bmin bmax p).testBit 0 = false) ∧
    (p.y = (bmin.y + bmax.y) / 2 → (OctreeNode.getOctant bmin bmax p).testBit 1 = false) ∧
    (p.z = (bmin.z + bmax.z) / 2 → (OctreeNode.getOctant bmin bmax p).testBit 2 = false) := by
  have ex : (OctreeNode.centerOf bmin bmax).x = (bmin.x + bmax.x) / 2 := qmid_eq _ _
  have ey : (OctreeNode.centerOf bmin bmax).y = (bmin.y + bmax.y) / 2 := qmid_eq _ _
  have ez : (OctreeNode.centerOf bmin bmax).z = (bmin.z + bmax.z) / 2 := qmid_eq _ _
  have b0 := OctreeNode.testBit0_getOctant bmin bmax p
  have b1 := OctreeNode.testBit1_getOctant bmin bmax p
  have b2 := OctreeNode.testBit2_getOctant bmin bmax p
  rw [ex] at b0
  rw [ey] at b1
  rw [ez] at b2
  refine ⟨rfl, OctreeNode.getOctant_lt8 bmin bmax p, b0, b1, b2, ?_, ?_, ?_⟩
  · intro he
    rcases Bool.eq_false_or_eq_true ((OctreeNode.getOctant bmin bmax p).testBit 0) with hb | hb
    · exact absurd (b0.mp hb) (by rw [he]; exact lt_irrefl _)
    · exact hb
  · intro he
    rcases Bool.eq_false_or_eq_true ((OctreeNode.getOctant bmin bmax p).testBit 1) with hb | hb
    · exact absurd (b1.mp hb) (by rw [he]; exact lt_irrefl _)
    · exact hb
  · intro he
    rcases Bool.eq_false_or_eq_true ((OctreeNode.getOctant bmin bmax p).testBit 2) with hb | hb
    · exact absurd (b2.mp hb) (by rw [he]; exact lt_irrefl _)
    · exact hb

/-! ### C8: the eight child boxes tile the parent -/

/-- C8 counterexample: the claim says no two child boxes overlap, but the
child boxes are closed and share midpoint faces: for the valid box
`[(0,0,0),(1,1,1)]`, both child 0 and child 1 contain the point `(1/2,0,0)`. -/
theorem claim_C8_counterexample :
    ((0 : ℚ) ≤ 1) ∧
    OctreeNode.containsB
      (OctreeNode.calculateChildBounds ⟨0, 0, 0⟩ ⟨1, 1, 1⟩ 0).1
      (OctreeNode.calculateChildBounds ⟨0, 0, 0⟩ ⟨1, 1, 1⟩ 0).2
      ⟨mkRat 1 2, 0, 0⟩ = true ∧
    OctreeNode.containsB
      (OctreeNode.calculateChildBounds ⟨0, 0, 0⟩ ⟨1, 1, 1⟩ 1).1
      (OctreeNode.calculateChildBounds ⟨0, 0, 0⟩ ⟨1, 1, 1⟩ 1).2
      ⟨mkRat 1 2, 0, 0⟩ = true ∧
    (0 : Nat) ≠ 1 :=
  ⟨by norm_num, by decide, by decide, by decide⟩

theorem octant_bits_differ :
    ∀ o1 < 8, ∀ o2 < 8, o1 ≠ o2 →
      (o1 &&& 1 ≠ o2 &&& 1) ∨ (o1 &&& 2 ≠ o2 &&& 2) ∨ (o1 &&& 4 ≠ o2 &&& 4) := by
  decide

theorem and1_cases : ∀ o < 8, o &&& 1 = 0 ∨ o &&& 1 = 1 := by decide

theorem and2_cases : ∀ o < 8, o &&& 2 = 0 ∨ o &&& 2 = 2 := by decide

theorem and4_cases : ∀ o < 8, o &&& 4 = 0 ∨ o &&& 4 = 4 := by decide

/-- C8 (amended): for a valid box, the eight child boxes cover the parent
exactly (their union is the parent box, and each parent point lies in the
child box of the octant `getOctant` assigns it), the interiors of distinct
child boxes are disjoint (as closed boxes they may share midpoint faces),
and both variants derive identical child bounds. -/
theorem claim_C8 (bmin bmax : Point)
    (hx : bmin.x ≤ bmax.x) (hy : bmin.y ≤ bmax.y) (hz : bmin.z ≤ bmax.z) :
    (∀ o, OctreeHashMapNode.calculateChildBounds bmin bmax o =
      OctreeNode.calculateChildBounds bmin bmax o) ∧
    (∀ p : Point, OctreeNode.containsB bmin bmax p = true ↔
      ∃ o, o < 8 ∧
        OctreeNode.containsB (OctreeNode.calculateChildBounds bmin bmax o).1
          (OctreeNode.calculateChildBounds bmin bmax o).2 p = true) ∧
    (∀ p : Point, OctreeNode.containsB bmin bmax p = true →
      OctreeNode.containsB
        (OctreeNode.calculateChildBounds bmin bmax (OctreeNode.getOctant bmin bmax p)).1
        (OctreeNode.calculateChildBounds bmin bmax (OctreeNode.getOctant bmin bmax p)).2
        p = true) ∧
    (∀ o1, o1 < 8 → ∀ o2, o2 < 8 → o1 ≠ o2 → ∀ p : Point,
      ((OctreeNode.calculateChildBounds bmin bmax o1).1.x < p.x ∧
        p.x < (OctreeNode.calculateChildBounds bmin bmax o1).2.x ∧
        (OctreeNode.calculateChildBounds bmin bmax o1).1.y < p.y ∧
        p.y < (OctreeNode.calculateChildBounds bmin bmax o1).2.y ∧
        (OctreeNode.calculateChildBounds bmin bmax o1).1.z < p.z ∧
        p.z < (OctreeNode.calculateChildBounds bmin bmax o1).2.z) →
      ((OctreeNode.calculateChildBounds bmin bmax o2).1.x < p.x ∧
        p.x < (OctreeNode.calculateChildBounds bmin bmax o2).2.x ∧
        (OctreeNode.calculateChildBounds bmin bmax o2).1.y < p.y ∧
        p.y < (OctreeNode.calculateChildBounds bmin bmax o2).2.y ∧
        (OctreeNode.calculateChildBounds bmin bmax o2).1.z < p.z ∧
        p.z < (OctreeNode.calculateChildBounds bmin bmax o2).2.z) →
      False) := by
  have hcx := OctreeNode.centerOf_x_between bmin bmax hx
  have hcy := OctreeNode.centerOf_y_between bmin bmax hy
  have hcz := OctreeNode.centerOf_z_between bmin bmax hz
  refine ⟨fun o => rfl, ?_, fun p => OctreeNode.contains_childBounds bmin bmax p, ?_⟩
  · intro p
    constructor
    · intro h
      exact ⟨OctreeNode.getOctant bmin bmax p, OctreeNode.getOctant_lt8 bmin bmax p,
        OctreeNode.contains_childBounds bmin bmax p h⟩
    · rintro ⟨o, -, h⟩
      rw [OctreeNode.containsB_iff] at h ⊢
      simp only [OctreeNode.cb_fst_x, OctreeNode.cb_fst_y, OctreeNode.cb_fst_z,
        OctreeNode.cb_snd_x, OctreeNode.cb_snd_y, OctreeNode.cb_snd_z] at h
      obtain ⟨h1, h2, h3, h4, h5, h6⟩ := h
      refine ⟨?_, ?_, ?_, ?_, ?_, ?_⟩
      · by_cases b : o &&& 1 ≠ 0
        · rw [if_pos b] at h1; linarith [hcx.1]
        · rw [if_neg b] at h1; exact h1
      · by_cases b : o &&& 1 ≠ 0
        · rw [if_pos b] at h2; exact h2
        · rw [if_neg b] at h2; linarith [hcx.2]
      · by_cases b : o &&& 2 ≠ 0
        · rw [if_pos b] at h3; linarith [hcy.1]
        · rw [if_neg b] at h3; exact h3
      · by_cases b : o &&& 2 ≠ 0
        · rw [if_pos b] at h4; exact h4
        · rw [if_neg b] at h4; linarith [hcy.2]
      · by_cases b : o &&& 4 ≠ 0
        · rw [if_pos b] at h5; linarith [hcz.1]
        · rw [if_neg b] at h5; exact h5
      · by_cases b : o &&& 4 ≠ 0
        · rw [if_pos b] at h6; exact h6
        · rw [if_neg b] at h6; linarith [hcz.2]
  · intro o1 ho1 o2 ho2 hne p hin1 hin2
    simp only [OctreeNode.cb_fst_x, OctreeNode.cb_fst_y, OctreeNode.cb_fst_z,
      OctreeNode.cb_snd_x, OctreeNode.cb_snd_y, OctreeNode.cb_snd_z] at hin1 hin2
    obtain ⟨a1, a2, a3, a4, a5, a6⟩ := hin1
    obtain ⟨c1, c2, c3, c4, c5, c6⟩ := hin2
    rcases octant_bits_differ o1 ho1 o2 ho2 hne with hb | hb | hb
    · by_cases b1 : o1 &&& 1 ≠ 0 <;> by_cases b2 : o2 &&& 1 ≠ 0
      · rcases and1_cases o1 ho1 with v1 | v1
        · exact b1 v1
        · rcases and1_cases o2 ho2 with v2 | v2
          · exact b2 v2
          · exact hb (v1.trans v2.symm)
      · rw [if_pos b1] at a1
        rw [if_neg b2] at c2
        exact absurd c2 (not_lt_of_gt a1)
      · rw [if_neg b1] at a2
        rw [if_pos b2] at c1
        exact absurd a2 (not_lt_of_gt c1)
      · rw [not_ne_iff] at b1 b2
        exact hb (b1.trans b2.symm)
    · by_cases b1 : o1 &&& 2 ≠ 0 <;> by_cases b2 : o2 &&& 2 ≠ 0
      · rcases and2_cases o1 ho1 with v1 | v1
        · exact b1 v1
        · rcases and2_cases o2 ho2 with v2 | v2
          · exact b2 v2
          · exact hb (v1.trans v2.symm)
      · rw [if_pos b1] at a3
        rw [if_neg b2] at c4
        exact absurd c4 (not_lt_of_gt a3)
      · rw [if_neg b1] at a4
        rw [if_pos b2] at c3
        exact absurd a4 (not_lt_of_gt c3)
      · rw [not_ne_iff] at b1 b2
        exact hb (b1.trans b2.symm)
    · by_cases b1 : o1 &&& 4 ≠ 0 <;> by_cases b2 : o2 &&& 4 ≠ 0
      · rcases and4_cases o1 ho1 with v1 | v1
        · exact b1 v1
        · rcases and4_cases o2 ho2 with v2 | v2
          · exact b2 v2
          · exact hb (v1.trans v2.symm)
      · rw [if_pos b1] at a5
        rw [if_neg b2] at c6
        exact absurd c6 (not_lt_of_gt a5)
      · rw [if_neg b1] at a6
        rw [if_pos b2] at c5
        exact absurd a6 (not_lt_of_gt c5)
      · rw [not_ne_iff] at b1 b2
        exact hb (b1.trans b2.symm)

/-- Witness for C8 at the concrete valid box `[(0,0,0),(1,1,1)]`: the covering
direction produces an octant whose child box holds `(1/2,0,0)`. -/
theorem claim_C8_witness :
    ((0 : ℚ) ≤ 1) ∧
    (∃ o, o < 8 ∧
      OctreeNode.containsB (OctreeNode.calculateChildBounds ⟨0, 0, 0⟩ ⟨1, 1, 1⟩ o).1
        (OctreeNode.calculateChildBounds ⟨0, 0, 0⟩ ⟨1, 1, 1⟩ o).2
        ⟨mkRat 1 2, 0, 0⟩ = true) :=
  ⟨by norm_num,
    ((claim_C8 ⟨0, 0, 0⟩ ⟨1, 1, 1⟩ (by norm_num) (by norm_num)
      (by norm_num)).2.1 ⟨mkRat 1 2, 0, 0⟩).mp (by decide)⟩

/-! ### C9: out-of-bounds insertion is a harmless no-op -/

theorem OctreeNode.insert_notContains (fuel : Nat) (n : OctreeNode) (p : Point)
    (h : OctreeNode.containsB n.bmin n.bmax p = false) :
    OctreeNode.insert (fuel + 1) n p = some n := by
  simp [OctreeNode.insert, h]

theorem OctreeHashMapNode.insert_notContainsH (fuel : Nat) (n : OctreeHashMapNode)
    (p : Point) (h : OctreeHashMapNode.containsB n.bmin n.bmax p = false) :
    OctreeHashMapNode.insert (fuel + 1) n p = some n := by
  simp [OctreeHashMapNode.insert, h]

theorem OctreeNode.insertSeq_oob (fuel : Nat) (ps : List Point) (n : OctreeNode)
    (h : ∀ p ∈ ps, OctreeNode.containsB n.bmin n.bmax p = false) :
    OctreeNode.insertSeq (fuel + 1) n ps = some n := by
  induction ps with
  | nil => rfl
  | cons p ps ih =>
    rw [OctreeNode.insertSeq, OctreeNode.insert_notContains fuel n p (h p (by simp))]
    exact ih fun q hq => h q (List.mem_cons_of_mem _ hq)

theorem OctreeHashMapNode.insertSeq_oobH (fuel : Nat) (ps : List Point)
    (n : OctreeHashMapNode)
    (h : ∀ p ∈ ps, OctreeHashMapNode.containsB n.bmin n.bmax p = false) :
    OctreeHashMapNode.insertSeq (fuel + 1) n ps = some n := by
  induction ps with
  | nil => rfl
  | cons p ps ih =>
    rw [OctreeHashMapNode.insertSeq,
      OctreeHashMapNode.insert_notContainsH fuel n p (h p (by simp))]
    exact ih fun q hq => h q (List.mem_cons_of_mem _ hq)

theorem OctreeNode.insertSeq_oob_append (fuel : Nat) (ps rest : List Point)
    (n : OctreeNode)
    (h : ∀ p ∈ ps, OctreeNode.containsB n.bmin n.bmax p = false) :
    OctreeNode.insertSeq (fuel + 1) n (ps ++ rest) =
      OctreeNode.insertSeq (fuel + 1) n rest := by
  induction ps with
  | nil => rfl
  | cons p ps ih =>
    simp only [List.cons_append, OctreeNode.insertSeq,
      OctreeNode.insert_notContains fuel n p (h p (by simp))]
    exact ih fun q hq => h q (List.mem_cons_of_mem _ hq)

theorem OctreeHashMapNode.insertSeq_oob_appendH (fuel : Nat) (ps rest : List Point)
    (n : OctreeHashMapNode)
    (h : ∀ p ∈ ps, OctreeHashMapNode.containsB n.bmin n.bmax p = false) :
    OctreeHashMapNode.insertSeq (fuel + 1) n (ps ++ rest) =
      OctreeHashMapNode.insertSeq (fuel + 1) n rest := by
  induction ps with
  | nil => rfl
  | cons p ps ih =>
    simp only [List.cons_append, OctreeHashMapNode.insertSeq,
      OctreeHashMapNode.insert_notContainsH fuel n p (h p (by simp))]
    exact ih fun q hq => h q (List.mem_cons_of_mem _ hq)

/-- C9: inserting an out-of-bounds point returns normally (no exception is
modelled: `insert` yields `some` with the node unchanged, the source merely
prints a warning first), so the whole tree state is untouched and later
insertions are unaffected; a fresh root fed only out-of-bounds points stays
the fresh leaf, collects nothing, and reports zero stored points. -/
theorem claim_C9 :
    (∀ (fuel : Nat) (n : OctreeNode) (p : Point),
      OctreeNode.containsB n.bmin n.bmax p = false →
      OctreeNode.insert (fuel + 1) n p = some n) ∧
    (∀ (fuel : Nat) (n : OctreeHashMapNode) (p : Point),
      OctreeHashMapNode.containsB n.bmin n.bmax p = false →
      OctreeHashMapNode.insert (fuel + 1) n p = some n) ∧
    (∀ (bmin bmax : Point) (fuel : Nat) (ps rest : List Point),
      (∀ p ∈ ps, OctreeNode.containsB bmin bmax p = false) →
      OctreeNode.build bmin bmax (fuel + 1) (ps ++ rest) =
        OctreeNode.build bmin bmax (fuel + 1) rest ∧
      OctreeNode.build bmin bmax (fuel + 1) ps = some (OctreeNode.leaf bmin bmax) ∧
      (OctreeNode.leaf bmin bmax).collectAllPoints = [] ∧
      (OctreeNode.leaf bmin bmax).getStatistics (0, 0, 0, 0) 0 = (1, 1, 0, 0)) ∧
    (∀ (bmin bmax : Point) (fuel : Nat) (ps rest : List Point),
      (∀ p ∈ ps, OctreeHashMapNode.containsB bmin bmax p = false) →
      OctreeHashMapNode.build bmin bmax (fuel + 1) (ps ++ rest) =
        OctreeHashMapNode.build bmin bmax (fuel + 1) rest ∧
      OctreeHashMapNode.build bmin bmax (fuel + 1) ps =
        some (OctreeHashMapNode.leaf bmin bmax) ∧
      (OctreeHashMapNode.leaf bmin bmax).collectAllPoints = [] ∧
      (OctreeHashMapNode.leaf bmin bmax).getStatistics (0, 0, 0, 0) 0 = (1, 1, 0, 0)) := by
  refine ⟨OctreeNode.insert_notContains, OctreeHashMapNode.insert_notContainsH, ?_, ?_⟩
  · intro bmin bmax fuel ps rest h
    have hseq : OctreeNode.insertSeq (fuel + 1) (OctreeNode.leaf bmin bmax) ps =
        some (OctreeNode.leaf bmin bmax) :=
      OctreeNode.insertSeq_oob fuel ps _ (by simpa using h)
    refine ⟨?_, hseq, rfl, ?_⟩
    · rw [OctreeNode.build, OctreeNode.build]
      exact OctreeNode.insertSeq_oob_append fuel ps rest _ (by simpa using h)
    · simp [OctreeNode.getStatistics, OctreeNode.leaf]
  · intro bmin bmax fuel ps rest h
    have hseq : OctreeHashMapNode.insertSeq (fuel + 1) (OctreeHashMapNode.leaf bmin bmax) ps =
        some (OctreeHashMapNode.leaf bmin bmax) :=
      OctreeHashMapNode.insertSeq_oobH fuel ps _ (by simpa using h)
    refine ⟨?_, hseq, rfl, ?_⟩
    · rw [OctreeHashMapNode.build, OctreeHashMapNode.build]
      exact OctreeHashMapNode.insertSeq_oob_appendH fuel ps rest _ (by simpa using h)
    · simp [OctreeHashMapNode.getStatistics, OctreeHashMapNode.leaf]

/-- Witness for C9: the spec scenario — the point `(100,100,100)` inserted
into the box `[(-10,-10,-10),(10,10,10)]` is dropped and the tree reports
nothing. -/
theorem claim_C9_witness :
    (∀ p ∈ [(⟨100, 100, 100⟩ : Point)],
      OctreeNode.containsB ⟨-10, -10, -10⟩ ⟨10, 10, 10⟩ p = false) ∧
    OctreeNode.build ⟨-10, -10, -10⟩ ⟨10, 10, 10⟩ 3 [⟨100, 100, 100⟩] =
      some (OctreeNode.leaf ⟨-10, -10, -10⟩ ⟨10, 10, 10⟩) ∧
    (OctreeNode.leaf (⟨-10, -10, -10⟩ : Point) ⟨10, 10, 10⟩).collectAllPoints = [] ∧
    (OctreeNode.leaf (⟨-10, -10, -10⟩ : Point) ⟨10, 10, 10⟩).getStatistics
      (0, 0, 0, 0) 0 = (1, 1, 0, 0) := by
  have h := (claim_C9.2.2.1 ⟨-10, -10, -10⟩ ⟨10, 10, 10⟩ 2 [⟨100, 100, 100⟩] []
    (by decide))
  exact ⟨by decide, h.2.1, h.2.2.1, h.2.2.2⟩

/-! ### C4: insert does not terminate on duplicate points -/

/-- Slot `i` of a node whose eight slots hold the fresh children that
`subdivide` creates. -/
theorem OctreeNode.child_subdiv (bmin bmax : Point) (ps : List Point) (i : Nat)
    (h : i < 8) :
    (OctreeNode.mk bmin bmax ps
      (some (OctreeNode.leaf (OctreeNode.calculateChildBounds bmin bmax 0).1
        (OctreeNode.calculateChildBounds bmin bmax 0).2))
      (some (OctreeNode.leaf (OctreeNode.calculateChildBounds bmin bmax 1).1
        (OctreeNode.calculateChildBounds bmin bmax 1).2))
      (some (OctreeNode.leaf (OctreeNode.calculateChildBounds bmin bmax 2).1
        (OctreeNode.calculateChildBounds bmin bmax 2).2))
      (some (OctreeNode.leaf (OctreeNode.calculateChildBounds bmin bmax 3).1
        (OctreeNode.calculateChildBounds bmin bmax 3).2))
      (some (OctreeNode.leaf (OctreeNode.calculateChildBounds bmin bmax 4).1
        (OctreeNode.calculateChildBounds bmin bmax 4).2))
      (some (OctreeNode.leaf (OctreeNode.calculateChildBounds bmin bmax 5).1
        (OctreeNode.calculateChildBounds bmin bmax 5).2))
      (some (OctreeNode.leaf (OctreeNode.calculateChildBounds bmin bmax 6).1
        (OctreeNode.calculateChildBounds bmin bmax 6).2))
      (some (OctreeNode.leaf (OctreeNode.calculateChildBounds bmin bmax 7).1
        (OctreeNode.calculateChildBounds bmin bmax 7).2))).child i =
    some (OctreeNode.leaf (OctreeNode.calculateChildBounds bmin bmax i).1
      (OctreeNode.calculateChildBounds bmin bmax i).2) := by
  have h8 : i = 0 ∨ i = 1 ∨ i = 2 ∨ i = 3 ∨ i = 4 ∨ i = 5 ∨ i = 6 ∨ i = 7 := by omega
  rcases h8 with rfl|rfl|rfl|rfl|rfl|rfl|rfl|rfl <;> rfl

/-- Inserting one in-bounds point into a fresh classic node either exhausts
the fuel or yields the single-point leaf. -/
theorem OctreeNode.insert_fresh_cases (g : Nat) (b0 b1 p : Point)
    (h : OctreeNode.containsB b0 b1 p = true) :
    OctreeNode.insert g (OctreeNode.leaf b0 b1) p = none ∨
    OctreeNode.insert g (OctreeNode.leaf b0 b1) p =
      some (OctreeNode.mk b0 b1 [p] none none none none none none none none) := by
  cases g with
  | zero => exact Or.inl rfl
  | succ g =>
    right
    simp [OctreeNode.insert, h, OctreeNode.leaf, OctreeNode.isLeaf,
      OctreeNode.setPts, OctreeNode.child]

/-- The divergence at the heart of C4, classic variant: a leaf that already
buffers `p` sent `p` again loops forever — at every fuel the fuelled `insert`
fails to finish.  (`subdivide` routes both copies of `p` into the same child,
which is again such a leaf.) -/
theorem OctreeNode.insert_dup_none (p : Point) :
    ∀ (fuel : Nat) (bmin bmax : Point), OctreeNode.containsB bmin bmax p = true →
      OctreeNode.insert fuel
        (OctreeNode.mk bmin bmax [p] none none none none none none none none) p =
      none := by
  intro fuel
  induction fuel using Nat.strong_induction_on with
  | _ fuel ih =>
    match fuel with
    | 0 => intro bmin bmax _; rfl
    | fuel + 1 =>
      intro bmin bmax h
      have hidx8 := OctreeNode.getOctant_lt8 bmin bmax p
      have hchild := OctreeNode.contains_childBounds bmin bmax p h
      have hdup := ih fuel (Nat.lt_succ_self fuel) _ _ hchild
      rw [OctreeNode.insert]
      rcases OctreeNode.insert_fresh_cases fuel
          (OctreeNode.calculateChildBounds bmin bmax
            (OctreeNode.getOctant bmin bmax p)).1
          (OctreeNode.calculateChildBounds bmin bmax
            (OctreeNode.getOctant bmin bmax p)).2 p hchild with hc | hc <;>
        simp [h, OctreeNode.setPts, OctreeNode.subdivideWith, OctreeNode.reinsertWith,
          OctreeNode.child_subdiv bmin bmax [] (OctreeNode.getOctant bmin bmax p) hidx8,
          hc, hdup, hidx8, OctreeNode.child_setChild_same]

/-- Inserting one in-bounds point into a fresh hashmap node either exhausts
the fuel or yields the single-point leaf. -/
theorem OctreeHashMapNode.insert_fresh_casesH (g : Nat) (b0 b1 p : Point)
    (h : OctreeHashMapNode.containsB b0 b1 p = true) :
    OctreeHashMapNode.insert g (OctreeHashMapNode.leaf b0 b1) p = none ∨
    OctreeHashMapNode.insert g (OctreeHashMapNode.leaf b0 b1) p =
      some (OctreeHashMapNode.mk b0 b1 [p] []) := by
  cases g with
  | zero => exact Or.inl rfl
  | succ g =>
    right
    simp [OctreeHashMapNode.insert, h, OctreeHashMapNode.leaf,
      OctreeHashMapNode.isLeaf, OctreeHashMapNode.setPts,
      OctreeHashMapNode.MAX_POINTS_PER_LEAF]

/-- The divergence at the heart of C4, hashmap variant. -/
theorem OctreeHashMapNode.insert_dup_noneH (p : Point) :
    ∀ (fuel : Nat) (bmin bmax : Point), OctreeHashMapNode.containsB bmin bmax p = true →
      OctreeHashMapNode.insert fuel (OctreeHashMapNode.mk bmin bmax [p] []) p =
      none := by
  intro fuel
  induction fuel using Nat.strong_induction_on with
  | _ fuel ih =>
    match fuel with
    | 0 => intro bmin bmax _; rfl
    | fuel + 1 =>
      intro bmin bmax h
      have hchild : OctreeHashMapNode.containsB
          (OctreeHashMapNode.calculateChildBounds bmin bmax
            (OctreeHashMapNode.getOctant bmin bmax p)).1
          (OctreeHashMapNode.calculateChildBounds bmin bmax
            (OctreeHashMapNode.getOctant bmin bmax p)).2 p = true :=
        OctreeNode.contains_childBounds bmin bmax p h
      have hdup := ih fuel (Nat.lt_succ_self fuel) _ _ hchild
      rw [OctreeHashMapNode.insert]
      rcases OctreeHashMapNode.insert_fresh_casesH fuel
          (OctreeHashMapNode.calculateChildBounds bmin bmax
            (OctreeHashMapNode.getOctant bmin bmax p)).1
          (OctreeHashMapNode.calculateChildBounds bmin bmax
            (OctreeHashMapNode.getOctant bmin bmax p)).2 p hchild with hc | hc <;>
        simp [h, OctreeHashMapNode.isLeaf, OctreeHashMapNode.setPts,
          OctreeHashMapNode.MAX_POINTS_PER_LEAF, OctreeHashMapNode.subdivideWith,
          OctreeHashMapNode.groupByOctant, OctreeHashMapNode.addToGroup,
          OctreeHashMapNode.subdivideGroupsWith, OctreeHashMapNode.insertManyWith,
          hc, hdup]

/-- C4 (code bug): `insert` does not always terminate.  Inserting the same
in-bounds point twice (threshold 1) makes the second `insert` recurse
forever in both variants: the fuelled model returns `none` at every fuel,
while the very first insertion into the fresh root succeeds and produces
exactly the looping state. -/
theorem claim_C4_diverges :
    (∀ fuel : Nat, OctreeNode.insert fuel
      (OctreeNode.mk ⟨0, 0, 0⟩ ⟨10, 10, 10⟩ [⟨1, 1, 1⟩]
        none none none none none none none none) ⟨1, 1, 1⟩ = none) ∧
    (∀ fuel : Nat, OctreeHashMapNode.insert fuel
      (OctreeHashMapNode.mk ⟨0, 0, 0⟩ ⟨10, 10, 10⟩ [⟨1, 1, 1⟩] []) ⟨1, 1, 1⟩ = none) ∧
    OctreeNode.insert 1 (OctreeNode.leaf ⟨0, 0, 0⟩ ⟨10, 10, 10⟩) ⟨1, 1, 1⟩ =
      some (OctreeNode.mk ⟨0, 0, 0⟩ ⟨10, 10, 10⟩ [⟨1, 1, 1⟩]
        none none none none none none none none) ∧
    OctreeHashMapNode.insert 1 (OctreeHashMapNode.leaf ⟨0, 0, 0⟩ ⟨10, 10, 10⟩) ⟨1, 1, 1⟩ =
      some (OctreeHashMapNode.mk ⟨0, 0, 0⟩ ⟨10, 10, 10⟩ [⟨1, 1, 1⟩] []) :=
  ⟨fun fuel => OctreeNode.insert_dup_none ⟨1, 1, 1⟩ fuel _ _ (by decide),
   fun fuel => OctreeHashMapNode.insert_dup_noneH ⟨1, 1, 1⟩ fuel _ _ (by decide),
   rfl, rfl⟩

/-! ### C5: child emission order of collectAllPoints -/

/-- C5 (code bug): the hashmap variant's `collectAllPoints` follows the
map's own iteration order (modelled as key insertion order), not ascending
octant index.  Inserting `(3,3,3)` (octant 7) and then `(-3,-3,-3)`
(octant 0) creates the octant-7 child first, so the hashmap variant emits
`(3,3,3)` before `(-3,-3,-3)`, while ascending octant order — which the
classic variant does follow on the same insertions — emits `(-3,-3,-3)`
first. -/
theorem claim_C5_mapOrder :
    OctreeHashMapNode.getOctant ⟨-10, -10, -10⟩ ⟨10, 10, 10⟩ ⟨3, 3, 3⟩ = 7 ∧
    OctreeHashMapNode.getOctant ⟨-10, -10, -10⟩ ⟨10, 10, 10⟩ ⟨-3, -3, -3⟩ = 0 ∧
    (OctreeHashMapNode.build ⟨-10, -10, -10⟩ ⟨10, 10, 10⟩ 5
      [⟨3, 3, 3⟩, ⟨-3, -3, -3⟩]).map OctreeHashMapNode.collectAllPoints =
      some [⟨3, 3, 3⟩, ⟨-3, -3, -3⟩] ∧
    (OctreeNode.build ⟨-10, -10, -10⟩ ⟨10, 10, 10⟩ 5
      [⟨3, 3, 3⟩, ⟨-3, -3, -3⟩]).map OctreeNode.collectAllPoints =
      some [⟨-3, -3, -3⟩, ⟨3, 3, 3⟩] ∧
    ([(⟨3, 3, 3⟩ : Point), ⟨-3, -3, -3⟩] ≠ [⟨-3, -3, -3⟩, ⟨3, 3, 3⟩]) :=
  ⟨by decide, by decide, by decide, by decide, by decide⟩

@[simp] theorem OctreeNode.WBopt_none (b0 b1 : Point) (i : Nat) :
    OctreeNode.WBopt b0 b1 i none := trivial

@[simp] theorem OctreeNode.BalancedOpt_none : OctreeNode.BalancedOpt none := trivial

theorem OctreeNode.WBopt_some (b0 b1 : Point) (i : Nat) (c : OctreeNode) :
    OctreeNode.WBopt b0 b1 i (some c) ↔
    (c.bmin = (OctreeNode.calculateChildBounds b0 b1 i).1 ∧
     c.bmax = (OctreeNode.calculateChildBounds b0 b1 i).2 ∧
     OctreeNode.WB c) := Iff.rfl

theorem OctreeNode.BalancedOpt_some (c : OctreeNode) :
    OctreeNode.BalancedOpt (some c) ↔ OctreeNode.Balanced c := Iff.rfl

theorem OctreeNode.WB_leaf (b0 b1 : Point) : OctreeNode.WB (OctreeNode.leaf b0 b1) := by
  rw [OctreeNode.leaf, OctreeNode.WB]
  refine ⟨?_, trivial, trivial, trivial, trivial, trivial, trivial, trivial, trivial⟩
  intro q hq
  simp [OctreeNode.collect_mk] at hq

theorem OctreeNode.Balanced_leaf (b0 b1 : Point) :
    OctreeNode.Balanced (OctreeNode.leaf b0 b1) := by
  rw [OctreeNode.leaf, OctreeNode.Balanced]
  exact ⟨Or.inl ⟨rfl, rfl, rfl, rfl, rfl, rfl, rfl, rfl⟩, trivial, trivial,
    trivial, trivial, trivial, trivial, trivial, trivial⟩

/-- Reading one child slot of a well-bounded node. -/
theorem OctreeNode.WB_child {n : OctreeNode} {i : Nat} {c : OctreeNode}
    (h : OctreeNode.WB n) (hc : n.child i = some c) :
    c.bmin = (OctreeNode.calculateChildBounds n.bmin n.bmax i).1 ∧
    c.bmax = (OctreeNode.calculateChildBounds n.bmin n.bmax i).2 ∧
    OctreeNode.WB c := by
  cases n with
  | mk b0 b1 ps c0 c1 c2 c3 c4 c5 c6 c7 =>
    rw [OctreeNode.WB] at h
    rcases i with _|_|_|_|_|_|_|_|i <;>
      simp only [OctreeNode.child] at hc <;>
      first
        | exact Option.noConfusion hc
        | (subst hc; exact (h.2.1 : _))
        | (subst hc; exact (h.2.2.1 : _))
        | (subst hc; exact (h.2.2.2.1 : _))
        | (subst hc; exact (h.2.2.2.2.1 : _))
        | (subst hc; exact (h.2.2.2.2.2.1 : _))
        | (subst hc; exact (h.2.2.2.2.2.2.1 : _))
        | (subst hc; exact (h.2.2.2.2.2.2.2.1 : _))
        | (subst hc; exact (h.2.2.2.2.2.2.2.2 : _))

/-- Reading one child slot of a balanced node. -/
theorem OctreeNode.Balanced_child {n : OctreeNode} {i : Nat} {c : OctreeNode}
    (h : OctreeNode.Balanced n) (hc : n.child i = some c) :
    OctreeNode.Balanced c := by
  cases n with
  | mk b0 b1 ps c0 c1 c2 c3 c4 c5 c6 c7 =>
    rw [OctreeNode.Balanced] at h
    rcases i with _|_|_|_|_|_|_|_|i <;>
      simp only [OctreeNode.child] at hc <;>
      first
        | exact Option.noConfusion hc
        | (subst hc; exact (h.2.1 : _))
        | (subst hc; exact (h.2.2.1 : _))
        | (subst hc; exact (h.2.2.2.1 : _))
        | (subst hc; exact (h.2.2.2.2.1 : _))
        | (subst hc; exact (h.2.2.2.2.2.1 : _))
        | (subst hc; exact (h.2.2.2.2.2.2.1 : _))
        | (subst hc; exact (h.2.2.2.2.2.2.2.1 : _))
        | (subst hc; exact (h.2.2.2.2.2.2.2.2 : _))

/-- In a balanced internal node every slot under 8 is occupied. -/
theorem OctreeNode.Balanced_all_some {n : OctreeNode}
    (h : OctreeNode.Balanced n) (hl : n.isLeaf = false) :
    ∀ i, i < 8 → (n.child i).isSome := by
  cases n with
  | mk b0 b1 ps c0 c1 c2 c3 c4 c5 c6 c7 =>
    rw [OctreeNode.Balanced] at h
    rcases h.1 with hnone | hsome
    · exfalso
      simp [OctreeNode.isLeaf_mk, hnone.1] at hl
    · intro i hi
      have h8 : i = 0 ∨ i = 1 ∨ i = 2 ∨ i = 3 ∨ i = 4 ∨ i = 5 ∨ i = 6 ∨ i = 7 := by
        omega
      rcases h8 with rfl|rfl|rfl|rfl|rfl|rfl|rfl|rfl <;>
        simp only [OctreeNode.child] <;> tauto

theorem OctreeNode.isLeaf_setChild (n : OctreeNode) (i : Nat) (c : OctreeNode)
    (hl : n.isLeaf = false) : (n.setChild i c).isLeaf = false := by
  cases n with
  | mk b0 b1 ps c0 c1 c2 c3 c4 c5 c6 c7 =>
    rcases i with _|_|_|_|_|_|_|_|i <;>
      simp_all [OctreeNode.setChild, OctreeNode.isLeaf_mk]

/-- Replacing child slot `i` trades the old slot contents for the new child
in the collected multiset (non-leaf nodes collect all eight slots). -/
theorem OctreeNode.collect_setChild_ms (n : OctreeNode) (i : Nat) (hi : i < 8)
    (c' : OctreeNode) (hl : n.isLeaf = false) :
    (↑((n.setChild i c').collectAllPoints) : Multiset Point) +
      ↑(OctreeNode.collectOpt (n.child i)) =
    ↑n.collectAllPoints + ↑c'.collectAllPoints := by
  cases n with
  | mk b0 b1 ps c0 c1 c2 c3 c4 c5 c6 c7 =>
    have hc0 : c0.isNone = false := by simpa [OctreeNode.isLeaf_mk] using hl
    have h8 : i = 0 ∨ i = 1 ∨ i = 2 ∨ i = 3 ∨ i = 4 ∨ i = 5 ∨ i = 6 ∨ i = 7 := by
      omega
    rcases h8 with rfl|rfl|rfl|rfl|rfl|rfl|rfl|rfl <;>
      simp only [OctreeNode.setChild, OctreeNode.child, OctreeNode.collect_mk,
        hc0, Bool.false_eq_true, if_false, Option.isNone_some,
        OctreeNode.collectOpt_some, ← Multiset.coe_add] <;>
      abel

/-- A point collected from an existing child slot is collected from the
(non-leaf) node. -/
theorem OctreeNode.mem_collect_child {n : OctreeNode} {i : Nat} {c : OctreeNode}
    {q : Point} (hl : n.isLeaf = false) (hc : n.child i = some c)
    (hq : q ∈ c.collectAllPoints) : q ∈ n.collectAllPoints := by
  cases n with
  | mk b0 b1 ps c0 c1 c2 c3 c4 c5 c6 c7 =>
    have hc0 : c0.isNone = false := by simpa [OctreeNode.isLeaf_mk] using hl
    rcases i with _|_|_|_|_|_|_|_|i <;>
      simp only [OctreeNode.child] at hc <;>
      first
        | exact Option.noConfusion hc
        | (subst hc
           simp [OctreeNode.collect_mk, hc0, hq])

theorem OctreeNode.WB_head {n : OctreeNode} (h : OctreeNode.WB n) :
    ∀ q ∈ n.collectAllPoints, OctreeNode.containsB n.bmin n.bmax q = true := by
  cases n with
  | mk b0 b1 ps c0 c1 c2 c3 c4 c5 c6 c7 =>
    rw [OctreeNode.WB] at h
    exact h.1

theorem OctreeNode.WB_setChild {n : OctreeNode} {i : Nat} {c' : OctreeNode}
    (hwb : OctreeNode.WB n) (hl : n.isLeaf = false) (hi : i < 8)
    (hb0 : c'.bmin = (OctreeNode.calculateChildBounds n.bmin n.bmax i).1)
    (hb1 : c'.bmax = (OctreeNode.calculateChildBounds n.bmin n.bmax i).2)
    (hwc : OctreeNode.WB c')
    (hIn : ∀ q ∈ c'.collectAllPoints, OctreeNode.containsB n.bmin n.bmax q = true) :
    OctreeNode.WB (n.setChild i c') := by
  have hmem : ∀ q ∈ (n.setChild i c').collectAllPoints,
      OctreeNode.containsB n.bmin n.bmax q = true := by
    intro q hq
    have h2 := OctreeNode.collect_setChild_ms n i hi c' hl
    have h3 : q ∈ (↑((n.setChild i c').collectAllPoints) : Multiset Point) +
        ↑(OctreeNode.collectOpt (n.child i)) :=
      Multiset.mem_add.mpr (Or.inl (Multiset.mem_coe.mpr hq))
    rw [h2] at h3
    rcases Multiset.mem_add.mp h3 with hq' | hq'
    · exact OctreeNode.WB_head hwb q (Multiset.mem_coe.mp hq')
    · exact hIn q (Multiset.mem_coe.mp hq')
  cases n with
  | mk b0 b1 ps c0 c1 c2 c3 c4 c5 c6 c7 =>
    rw [OctreeNode.WB] at hwb
    obtain ⟨-, w0, w1, w2, w3, w4, w5, w6, w7⟩ := hwb
    have h8 : i = 0 ∨ i = 1 ∨ i = 2 ∨ i = 3 ∨ i = 4 ∨ i = 5 ∨ i = 6 ∨ i = 7 := by
      omega
    rcases h8 with rfl|rfl|rfl|rfl|rfl|rfl|rfl|rfl <;>
      first
        | exact ⟨hmem, ⟨hb0, hb1, hwc⟩, w1, w2, w3, w4, w5, w6, w7⟩
        | exact ⟨hmem, w0, ⟨hb0, hb1, hwc⟩, w2, w3, w4, w5, w6, w7⟩
        | exact ⟨hmem, w0, w1, ⟨hb0, hb1, hwc⟩, w3, w4, w5, w6, w7⟩
        | exact ⟨hmem, w0, w1, w2, ⟨hb0, hb1, hwc⟩, w4, w5, w6, w7⟩
        | exact ⟨hmem, w0, w1, w2, w3, ⟨hb0, hb1, hwc⟩, w5, w6, w7⟩
        | exact ⟨hmem, w0, w1, w2, w3, w4, ⟨hb0, hb1, hwc⟩, w6, w7⟩
        | exact ⟨hmem, w0, w1, w2, w3, w4, w5, ⟨hb0, hb1, hwc⟩, w7⟩
        | exact ⟨hmem, w0, w1, w2, w3, w4, w5, w6, ⟨hb0, hb1, hwc⟩⟩

theorem OctreeNode.Balanced_setChild {n : OctreeNode} {i : Nat} {c' : OctreeNode}
    (hb : OctreeNode.Balanced n) (hl : n.isLeaf = false) (hi : i < 8)
    (hbc : OctreeNode.Balanced c') :
    OctreeNode.Balanced (n.setChild i c') := by
  cases n with
  | mk b0 b1 ps c0 c1 c2 c3 c4 c5 c6 c7 =>
    rw [OctreeNode.Balanced] at hb
    obtain ⟨hor, s0, s1, s2, s3, s4, s5, s6, s7⟩ := hb
    rcases hor with hnone | hsome
    · exfalso
      simp [OctreeNode.isLeaf_mk, hnone.1] at hl
    · obtain ⟨t0, t1, t2, t3, t4, t5, t6, t7⟩ := hsome
      have h8 : i = 0 ∨ i = 1 ∨ i = 2 ∨ i = 3 ∨ i = 4 ∨ i = 5 ∨ i = 6 ∨ i = 7 := by
        omega
      rcases h8 with rfl|rfl|rfl|rfl|rfl|rfl|rfl|rfl <;>
        first
          | exact ⟨Or.inr ⟨rfl, t1, t2, t3, t4, t5, t6, t7⟩, hbc, s1, s2, s3, s4, s5, s6, s7⟩
          | exact ⟨Or.inr ⟨t0, rfl, t2, t3, t4, t5, t6, t7⟩, s0, hbc, s2, s3, s4, s5, s6, s7⟩
          | exact ⟨Or.inr ⟨t0, t1, rfl, t3, t4, t5, t6, t7⟩, s0, s1, hbc, s3, s4, s5, s6, s7⟩
          | exact ⟨Or.inr ⟨t0, t1, t2, rfl, t4, t5, t6, t7⟩, s0, s1, s2, hbc, s4, s5, s6, s7⟩
          | exact ⟨Or.inr ⟨t0, t1, t2, t3, rfl, t5, t6, t7⟩, s0, s1, s2, s3, hbc, s5, s6, s7⟩
          | exact ⟨Or.inr ⟨t0, t1, t2, t3, t4, rfl, t6, t7⟩, s0, s1, s2, s3, s4, hbc, s6, s7⟩
          | exact ⟨Or.inr ⟨t0, t1, t2, t3, t4, t5, rfl, t7⟩, s0, s1, s2, s3, s4, s5, hbc, s7⟩
          | exact ⟨Or.inr ⟨t0, t1, t2, t3, t4, t5, t6, rfl⟩, s0, s1, s2, s3, s4, s5, s6, hbc⟩

theorem OctreeNode.collect_of_isLeaf {n : OctreeNode} (hl : n.isLeaf = true) :
    n.collectAllPoints = n.pts := by
  cases n with
  | mk b0 b1 ps c0 c1 c2 c3 c4 c5 c6 c7 =>
    have hc0 : c0.isNone = true := hl
    simp [OctreeNode.collect_mk, hc0]

theorem OctreeNode.reinsertWith_master (ins : OctreeNode → Point → Option OctreeNode)
    (hins : OctreeNode.InsOK ins) :
    ∀ (ps : List Point) (m m' : OctreeNode),
      OctreeNode.reinsertWith ins ps m = some m' →
      m.isLeaf = false →
      m'.bmin = m.bmin ∧ m'.bmax = m.bmax ∧ m'.pts = m.pts ∧
      (OctreeNode.Balanced m → OctreeNode.Balanced m') ∧
      (OctreeNode.WB m →
        (∀ q ∈ ps, OctreeNode.containsB m.bmin m.bmax q = true) →
        OctreeNode.WB m' ∧
        (↑m'.collectAllPoints : Multiset Point) = ↑ps + ↑m.collectAllPoints) := by
  intro ps
  induction ps with
  | nil =>
    intro m m' h hl
    rw [OctreeNode.reinsertWith] at h
    injection h with h
    subst h
    exact ⟨rfl, rfl, rfl, fun hb => hb, fun hwb _ => ⟨hwb, by simp⟩⟩
  | cons p ps ih =>
    intro m m' h hl
    rw [OctreeNode.reinsertWith] at h
    cases hc : m.child (OctreeNode.getOctant m.bmin m.bmax p) with
    | none => rw [hc] at h; exact Option.noConfusion h
    | some c =>
      rw [hc] at h
      dsimp only at h
      cases hrec : ins c p with
      | none => rw [hrec] at h; exact Option.noConfusion h
      | some c1 =>
        rw [hrec] at h
        dsimp only at h
        have hidx8 : OctreeNode.getOctant m.bmin m.bmax p < 8 :=
          OctreeNode.getOctant_lt8 m.bmin m.bmax p
        obtain ⟨e0, e1, hbpres, hwpres⟩ := hins c p c1 hrec
        have hm1leaf : (m.setChild (OctreeNode.getOctant m.bmin m.bmax p) c1).isLeaf
            = false := OctreeNode.isLeaf_setChild m _ c1 hl
        obtain ⟨f0, f1, f2, fbal, fwb⟩ := ih _ m' h hm1leaf
        refine ⟨by simp [f0], by simp [f1], by simp [f2], ?_, ?_⟩
        · intro hbal
          exact fbal (OctreeNode.Balanced_setChild hbal hl hidx8
            (hbpres (OctreeNode.Balanced_child hbal hc)))
        · intro hwb hq
          obtain ⟨g0, g1, hwc⟩ := OctreeNode.WB_child hwb hc
          have hcont : OctreeNode.containsB c.bmin c.bmax p = true := by
            rw [g0, g1]
            exact OctreeNode.contains_childBounds m.bmin m.bmax p (hq p (by simp))
          obtain ⟨hwb1, hms1⟩ := hwpres hwc
          rw [hcont, if_pos rfl] at hms1
          have hIn : ∀ q ∈ c1.collectAllPoints,
              OctreeNode.containsB m.bmin m.bmax q = true := by
            intro q hq1
            have : q ∈ ({p} + ↑c.collectAllPoints : Multiset Point) := by
              rw [← hms1]; exact Multiset.mem_coe.mpr hq1
            rcases Multiset.mem_add.mp this with hq2 | hq2
            · rw [Multiset.mem_singleton.mp hq2]
              exact hq p (by simp)
            · exact OctreeNode.WB_head hwb q
                (OctreeNode.mem_collect_child hl hc (Multiset.mem_coe.mp hq2))
          have hm1wb : OctreeNode.WB
              (m.setChild (OctreeNode.getOctant m.bmin m.bmax p) c1) :=
            OctreeNode.WB_setChild hwb hl hidx8 (by rw [e0, g0]) (by rw [e1, g1])
              hwb1 hIn
          have hq' : ∀ q ∈ ps, OctreeNode.containsB
              (m.setChild (OctreeNode.getOctant m.bmin m.bmax p) c1).bmin
              (m.setChild (OctreeNode.getOctant m.bmin m.bmax p) c1).bmax q = true := by
            simp only [OctreeNode.setChild_bmin, OctreeNode.setChild_bmax]
            exact fun q hq2 => hq q (List.mem_cons_of_mem _ hq2)
          obtain ⟨hwbm', hms'⟩ := fwb hm1wb hq'
          refine ⟨hwbm', ?_⟩
          have hswap := OctreeNode.collect_setChild_ms m
            (OctreeNode.getOctant m.bmin m.bmax p) hidx8 c1 hl
          rw [hc] at hswap
          simp only [OctreeNode.collectOpt_some] at hswap
          have hm1c : (↑(m.setChild (OctreeNode.getOctant m.bmin m.bmax p)
              c1).collectAllPoints : Multiset Point) =
              {p} + ↑m.collectAllPoints := by
            have : (↑((m.setChild (OctreeNode.getOctant m.bmin m.bmax p)
                c1).collectAllPoints) : Multiset Point) + ↑c.collectAllPoints =
                ({p} + ↑m.collectAllPoints) + ↑c.collectAllPoints := by
              rw [hswap, hms1]
              abel
            exact add_right_cancel this
          rw [hms', hm1c, ← Multiset.cons_coe, ← Multiset.singleton_add]
          abel

theorem OctreeNode.subdivideWith_eq (ins : OctreeNode → Point → Option OctreeNode)
    (n : OctreeNode) :
    OctreeNode.subdivideWith ins n =
    OctreeNode.reinsertWith ins n.pts (OctreeNode.subdivNode n.bmin n.bmax) := rfl

@[simp] theorem OctreeNode.collect_leaf (b0 b1 : Point) :
    (OctreeNode.leaf b0 b1).collectAllPoints = [] := rfl

@[simp] theorem OctreeNode.collect_subdivNode (b0 b1 : Point) :
    (OctreeNode.subdivNode b0 b1).collectAllPoints = [] := rfl

theorem OctreeNode.WB_subdivNode (b0 b1 : Point) :
    OctreeNode.WB (OctreeNode.subdivNode b0 b1) := by
  rw [OctreeNode.subdivNode, OctreeNode.WB]
  refine ⟨?_, ?_, ?_, ?_, ?_, ?_, ?_, ?_, ?_⟩
  · intro q hq
    simp [OctreeNode.collect_mk] at hq
  all_goals exact ⟨rfl, rfl, OctreeNode.WB_leaf _ _⟩

theorem OctreeNode.Balanced_subdivNode (b0 b1 : Point) :
    OctreeNode.Balanced (OctreeNode.subdivNode b0 b1) := by
  rw [OctreeNode.subdivNode, OctreeNode.Balanced]
  refine ⟨Or.inr ⟨rfl, rfl, rfl, rfl, rfl, rfl, rfl, rfl⟩, ?_, ?_, ?_, ?_, ?_, ?_, ?_, ?_⟩
  all_goals rw [OctreeNode.BalancedOpt_some]
  all_goals exact OctreeNode.Balanced_leaf _ _

theorem OctreeNode.subdivideWith_master (ins : OctreeNode → Point → Option OctreeNode)
    (hins : OctreeNode.InsOK ins) (n n' : OctreeNode)
    (h : OctreeNode.subdivideWith ins n = some n') :
    n'.bmin = n.bmin ∧ n'.bmax = n.bmax ∧ n'.pts = [] ∧ OctreeNode.Balanced n' ∧
    ((∀ q ∈ n.pts, OctreeNode.containsB n.bmin n.bmax q = true) →
      OctreeNode.WB n' ∧ (↑n'.collectAllPoints : Multiset Point) = ↑n.pts) := by
  rw [OctreeNode.subdivideWith_eq] at h
  obtain ⟨f0, f1, f2, fbal, fwb⟩ :=
    OctreeNode.reinsertWith_master ins hins n.pts _ n' h rfl
  refine ⟨f0, f1, f2, fbal (OctreeNode.Balanced_subdivNode _ _), ?_⟩
  intro hpts
  obtain ⟨hwb, hms⟩ := fwb (OctreeNode.WB_subdivNode _ _) hpts
  refine ⟨hwb, ?_⟩
  rw [hms]
  simp

theorem OctreeNode.insert_master :
    ∀ (fuel : Nat) (n : OctreeNode) (p : Point) (n' : OctreeNode),
      OctreeNode.insert fuel n p = some n' →
      n'.bmin = n.bmin ∧ n'.bmax = n.bmax ∧
      (OctreeNode.Balanced n → OctreeNode.Balanced n') ∧
      (OctreeNode.WB n → OctreeNode.WB n' ∧
        (↑n'.collectAllPoints : Multiset Point) =
          (if OctreeNode.containsB n.bmin n.bmax p = true then {p} else 0) +
          ↑n.collectAllPoints) := by
  intro fuel
  induction fuel using Nat.strong_induction_on with
  | _ fuel ih =>
    match fuel with
    | 0 => intro n p n' h; exact Option.noConfusion h
    | fuel + 1 =>
      intro n p n' h
      have hins : OctreeNode.InsOK (fun c q => OctreeNode.insert fuel c q) :=
        fun c q c' hc => ih fuel (Nat.lt_succ_self fuel) c q c' hc
      rw [OctreeNode.insert] at h
      by_cases hcont : OctreeNode.containsB n.bmin n.bmax p = true
      · rw [hcont] at h
        dsimp only [Bool.not_true] at h
        rw [if_neg (by simp)] at h
        by_cases hl : n.isLeaf = true
        · rw [if_pos hl] at h
          by_cases hov : (n.setPts (n.pts ++ [p])).pts.length > 1
          · rw [if_pos hov] at h
            obtain ⟨f0, f1, f2, fbal, fwb⟩ :=
              OctreeNode.subdivideWith_master _ hins _ n' h
            simp only [OctreeNode.setPts_bmin, OctreeNode.setPts_bmax,
              OctreeNode.setPts_pts] at f0 f1 fbal fwb
            refine ⟨f0, f1, fun _ => fbal, ?_⟩
            intro hwb
            have hpts : ∀ q ∈ n.pts ++ [p],
                OctreeNode.containsB n.bmin n.bmax q = true := by
              intro q hq
              rcases List.mem_append.mp hq with hq' | hq'
              · exact OctreeNode.WB_head hwb q
                  (by rw [OctreeNode.collect_of_isLeaf hl]; exact hq')
              · rw [List.mem_singleton.mp hq']
                exact hcont
            obtain ⟨hwb', hms⟩ := fwb hpts
            refine ⟨hwb', ?_⟩
            rw [OctreeNode.collect_of_isLeaf hl, hcont, if_pos rfl, hms,
              ← Multiset.coe_singleton, ← Multiset.coe_add]
            exact add_comm _ _
          · rw [if_neg hov] at h
            injection h with h
            subst h
            cases n with
            | mk b0 b1 ps c0 c1 c2 c3 c4 c5 c6 c7 =>
              have hc0 : c0 = none := by
                have : c0.isNone = true := hl
                exact Option.isNone_iff_eq_none.mp this
              subst hc0
              refine ⟨rfl, rfl, fun hb => hb, ?_⟩
              intro hwb
              constructor
              · rw [OctreeNode.setPts, OctreeNode.WB]
                rw [OctreeNode.WB] at hwb
                refine ⟨?_, hwb.2.1, hwb.2.2.1, hwb.2.2.2.1, hwb.2.2.2.2.1,
                  hwb.2.2.2.2.2.1, hwb.2.2.2.2.2.2.1, hwb.2.2.2.2.2.2.2.1,
                  hwb.2.2.2.2.2.2.2.2⟩
                intro q hq
                simp only [OctreeNode.collect_mk, Option.isNone_none, if_true,
                  List.append_nil, List.mem_append, List.mem_singleton] at hq
                rcases hq with hq | hq
                · refine hwb.1 q ?_
                  simp only [OctreeNode.collect_mk, Option.isNone_none, if_true,
                    List.append_nil]
                  exact hq
                · rw [hq]; exact hcont
              · rw [hcont, if_pos rfl]
                simp only [OctreeNode.setPts, OctreeNode.collect_mk,
                  OctreeNode.pts_mk, Option.isNone_none, if_true, List.append_nil]
                rw [← Multiset.coe_singleton, ← Multiset.coe_add]
                exact add_comm _ _
        · have hl' : n.isLeaf = false := by simpa using hl
          rw [if_neg (by simp [hl'])] at h
          try dsimp only at h
          have hidx8 : OctreeNode.getOctant n.bmin n.bmax p < 8 :=
            OctreeNode.getOctant_lt8 n.bmin n.bmax p
          cases hc : n.child (OctreeNode.getOctant n.bmin n.bmax p) with
          | some c =>
            rw [hc] at h
            dsimp only at h
            cases hrec : OctreeNode.insert fuel c p with
            | none => rw [hrec] at h; exact Option.noConfusion h
            | some c1 =>
              rw [hrec] at h
              dsimp only at h
              injection h with h
              subst h
              obtain ⟨e0, e1, hbpres, hwpres⟩ := ih fuel (Nat.lt_succ_self fuel) c p c1 hrec
              refine ⟨by simp, by simp, ?_, ?_⟩
              · intro hbal
                exact OctreeNode.Balanced_setChild hbal hl' hidx8
                  (hbpres (OctreeNode.Balanced_child hbal hc))
              · intro hwb
                obtain ⟨g0, g1, hwc⟩ := OctreeNode.WB_child hwb hc
                have hcontc : OctreeNode.containsB c.bmin c.bmax p = true := by
                  rw [g0, g1]
                  exact OctreeNode.contains_childBounds n.bmin n.bmax p hcont
                obtain ⟨hwb1, hms1⟩ := hwpres hwc
                rw [hcontc, if_pos rfl] at hms1
                have hIn : ∀ q ∈ c1.collectAllPoints,
                    OctreeNode.containsB n.bmin n.bmax q = true := by
                  intro q hq1
                  have hmem : q ∈ ({p} + ↑c.collectAllPoints : Multiset Point) := by
                    rw [← hms1]; exact Multiset.mem_coe.mpr hq1
                  rcases Multiset.mem_add.mp hmem with hq2 | hq2
                  · rw [Multiset.mem_singleton.mp hq2]; exact hcont
                  · exact OctreeNode.WB_head hwb q
                      (OctreeNode.mem_collect_child hl' hc (Multiset.mem_coe.mp hq2))
                refine ⟨OctreeNode.WB_setChild hwb hl' hidx8 (by rw [e0, g0])
                  (by rw [e1, g1]) hwb1 hIn, ?_⟩
                have hswap := OctreeNode.collect_setChild_ms n
                  (OctreeNode.getOctant n.bmin n.bmax p) hidx8 c1 hl'
                rw [hc] at hswap
                simp only [OctreeNode.collectOpt_some] at hswap
                rw [hcont, if_pos rfl]
                have : (↑((n.setChild (OctreeNode.getOctant n.bmin n.bmax p)
                    c1).collectAllPoints) : Multiset Point) + ↑c.collectAllPoints =
                    ({p} + ↑n.collectAllPoints) + ↑c.collectAllPoints := by
                  rw [hswap, hms1]; abel
                exact add_right_cancel this
          | none =>
            rw [hc] at h
            dsimp only at h
            cases hrec : OctreeNode.insert fuel
                (OctreeNode.leaf
                  (OctreeNode.calculateChildBounds n.bmin n.bmax
                    (OctreeNode.getOctant n.bmin n.bmax p)).1
                  (OctreeNode.calculateChildBounds n.bmin n.bmax
                    (OctreeNode.getOctant n.bmin n.bmax p)).2) p with
            | none => rw [hrec] at h; exact Option.noConfusion h
            | some c1 =>
              rw [hrec] at h
              dsimp only at h
              injection h with h
              subst h
              obtain ⟨e0, e1, hbpres, hwpres⟩ :=
                ih fuel (Nat.lt_succ_self fuel) _ p c1 hrec
              have hcontc : OctreeNode.containsB
                  (OctreeNode.calculateChildBounds n.bmin n.bmax
                    (OctreeNode.getOctant n.bmin n.bmax p)).1
                  (OctreeNode.calculateChildBounds n.bmin n.bmax
                    (OctreeNode.getOctant n.bmin n.bmax p)).2 p = true :=
                OctreeNode.contains_childBounds n.bmin n.bmax p hcont
              obtain ⟨hwb1, hms1⟩ := hwpres (OctreeNode.WB_leaf _ _)
              rw [OctreeNode.leaf_bmin, OctreeNode.leaf_bmax] at hms1
              rw [hcontc, if_pos rfl] at hms1
              simp only [OctreeNode.collect_leaf, Multiset.coe_nil, add_zero] at hms1
              refine ⟨by simp, by simp, ?_, ?_⟩
              · intro hbal
                have := OctreeNode.Balanced_all_some hbal hl'
                  (OctreeNode.getOctant n.bmin n.bmax p) hidx8
                rw [hc] at this
                simp at this
              · intro hwb
                have hIn : ∀ q ∈ c1.collectAllPoints,
                    OctreeNode.containsB n.bmin n.bmax q = true := by
                  intro q hq1
                  have hmem : q ∈ ({p} : Multiset Point) := by
                    rw [← hms1]; exact Multiset.mem_coe.mpr hq1
                  rw [Multiset.mem_singleton.mp hmem]
                  exact hcont
                refine ⟨OctreeNode.WB_setChild hwb hl' hidx8
                  (by rw [e0, OctreeNode.leaf_bmin])
                  (by rw [e1, OctreeNode.leaf_bmax]) hwb1 hIn, ?_⟩
                have hswap := OctreeNode.collect_setChild_ms n
                  (OctreeNode.getOctant n.bmin n.bmax p) hidx8 c1 hl'
                rw [hc] at hswap
                simp only [OctreeNode.collectOpt_none, Multiset.coe_nil,
                  add_zero] at hswap
                rw [hcont, if_pos rfl, hswap, hms1]
                abel
      · have hcontf : OctreeNode.containsB n.bmin n.bmax p = false := by
          simpa using hcont
        rw [hcontf] at h
        rw [if_pos (show (!false) = true by decide)] at h
        injection h with h
        subst h
        exact ⟨rfl, rfl, fun hb => hb, fun hwb => ⟨hwb, by rw [hcontf]; simp⟩⟩

theorem OctreeNode.insertSeq_master (fuel : Nat) :
    ∀ (ps : List Point) (n t : OctreeNode),
      OctreeNode.insertSeq fuel n ps = some t →
      t.bmin = n.bmin ∧ t.bmax = n.bmax ∧
      (OctreeNode.Balanced n → OctreeNode.Balanced t) ∧
      (OctreeNode.WB n → OctreeNode.WB t ∧
        (↑t.collectAllPoints : Multiset Point) =
          ↑(ps.filter fun p => OctreeNode.containsB n.bmin n.bmax p) +
          ↑n.collectAllPoints) := by
  intro ps
  induction ps with
  | nil =>
    intro n t h
    injection h with h
    subst h
    exact ⟨rfl, rfl, fun hb => hb, fun hwb => ⟨hwb, by simp⟩⟩
  | cons p ps ih =>
    intro n t h
    rw [OctreeNode.insertSeq] at h
    cases hrec : OctreeNode.insert fuel n p with
    | none => rw [hrec] at h; exact Option.noConfusion h
    | some n1 =>
      rw [hrec] at h
      dsimp only at h
      obtain ⟨e0, e1, hbp, hwp⟩ := OctreeNode.insert_master fuel n p n1 hrec
      obtain ⟨f0, f1, fb, fw⟩ := ih n1 t h
      refine ⟨f0.trans e0, f1.trans e1, fun hb => fb (hbp hb), ?_⟩
      intro hwb
      obtain ⟨hwb1, hms1⟩ := hwp hwb
      obtain ⟨hwbt, hmst⟩ := fw hwb1
      rw [e0, e1] at hmst
      refine ⟨hwbt, ?_⟩
      rw [hmst, hms1]
      by_cases hcont : OctreeNode.containsB n.bmin n.bmax p = true
      · rw [hcont, if_pos rfl, List.filter_cons_of_pos hcont,
          ← Multiset.cons_coe, ← Multiset.singleton_add]
        abel
      · have hcf : (OctreeNode.containsB n.bmin n.bmax p = true) = False := by
          simp [hcont]
        rw [List.filter_cons_of_neg (by simp [hcf])]
        rw [if_neg (by simp [hcf])]
        abel

theorem OctreeNode.build_master (bmin bmax : Point) (fuel : Nat) (ps : List Point)
    (t : OctreeNode) (h : OctreeNode.build bmin bmax fuel ps = some t) :
    t.bmin = bmin ∧ t.bmax = bmax ∧ OctreeNode.Balanced t ∧ OctreeNode.WB t ∧
    (↑t.collectAllPoints : Multiset Point) =
      ↑(ps.filter fun p => OctreeNode.containsB bmin bmax p) := by
  obtain ⟨f0, f1, fb, fw⟩ := OctreeNode.insertSeq_master fuel ps _ t h
  simp only [OctreeNode.leaf_bmin, OctreeNode.leaf_bmax] at f0 f1 fw
  obtain ⟨hwb, hms⟩ := fw (OctreeNode.WB_leaf _ _)
  refine ⟨f0, f1, fb (OctreeNode.Balanced_leaf _ _), hwb, ?_⟩
  rw [hms]
  simp

@[simp] theorem OctreeHashMapNode.collectOptH_none :
    OctreeHashMapNode.collectOptH none = [] := rfl

@[simp] theorem OctreeHashMapNode.collectOptH_some (c : OctreeHashMapNode) :
    OctreeHashMapNode.collectOptH (some c) = c.collectAllPoints := rfl

theorem OctreeHashMapNode.WB_headH {n : OctreeHashMapNode}
    (h : OctreeHashMapNode.WB n) :
    ∀ q ∈ n.collectAllPoints, OctreeHashMapNode.containsB n.bmin n.bmax q = true := by
  cases n with
  | mk b0 b1 ps cs =>
    rw [OctreeHashMapNode.WB] at h
    exact h.1

theorem OctreeHashMapNode.WB_children {n : OctreeHashMapNode}
    (h : OctreeHashMapNode.WB n) :
    OctreeHashMapNode.WBchildren n.bmin n.bmax n.children := by
  cases n with
  | mk b0 b1 ps cs =>
    rw [OctreeHashMapNode.WB] at h
    exact h.2

theorem OctreeHashMapNode.WB_leafH (b0 b1 : Point) :
    OctreeHashMapNode.WB (OctreeHashMapNode.leaf b0 b1) := by
  rw [OctreeHashMapNode.leaf, OctreeHashMapNode.WB]
  refine ⟨?_, trivial⟩
  intro q hq
  simp [OctreeHashMapNode.collect_mkH] at hq

theorem OctreeHashMapNode.WBchildren_findChild {b0 b1 : Point}
    {cs : List (Nat × OctreeHashMapNode)} {o : Nat} {c : OctreeHashMapNode}
    (h : OctreeHashMapNode.WBchildren b0 b1 cs)
    (hc : OctreeHashMapNode.findChild cs o = some c) :
    c.bmin = (OctreeHashMapNode.calculateChildBounds b0 b1 o).1 ∧
    c.bmax = (OctreeHashMapNode.calculateChildBounds b0 b1 o).2 ∧
    OctreeHashMapNode.WB c := by
  induction cs with
  | nil => exact Option.noConfusion hc
  | cons e rest ih =>
    obtain ⟨k, x⟩ := e
    rw [OctreeHashMapNode.WBchildren] at h
    rw [OctreeHashMapNode.findChild] at hc
    by_cases hk : k = o
    · rw [if_pos hk] at hc
      injection hc with hc
      subst hc
      subst hk
      exact h.1
    · rw [if_neg hk] at hc
      exact ih h.2 hc

theorem OctreeHashMapNode.mem_collectChildren_of_findChild
    {cs : List (Nat × OctreeHashMapNode)} {o : Nat} {c : OctreeHashMapNode}
    {q : Point} (hc : OctreeHashMapNode.findChild cs o = some c)
    (hq : q ∈ c.collectAllPoints) :
    q ∈ OctreeHashMapNode.collectChildren cs := by
  induction cs with
  | nil => exact Option.noConfusion hc
  | cons e rest ih =>
    obtain ⟨k, x⟩ := e
    rw [OctreeHashMapNode.findChild] at hc
    rw [OctreeHashMapNode.collectChildren_cons]
    by_cases hk : k = o
    · rw [if_pos hk] at hc
      injection hc with hc
      subst hc
      exact List.mem_append_left _ hq
    · rw [if_neg hk] at hc
      exact List.mem_append_right _ (ih hc)

theorem OctreeHashMapNode.collect_storeChild_ms
    (cs : List (Nat × OctreeHashMapNode)) (o : Nat) (c' : OctreeHashMapNode) :
    (↑(OctreeHashMapNode.collectChildren (OctreeHashMapNode.storeChild cs o c')) :
        Multiset Point) +
      ↑(OctreeHashMapNode.collectOptH (OctreeHashMapNode.findChild cs o)) =
    ↑(OctreeHashMapNode.collectChildren cs) + ↑c'.collectAllPoints := by
  induction cs with
  | nil =>
    simp [OctreeHashMapNode.storeChild, OctreeHashMapNode.findChild,
      OctreeHashMapNode.collectChildren]
  | cons e rest ih =>
    obtain ⟨k, x⟩ := e
    rw [OctreeHashMapNode.storeChild, OctreeHashMapNode.findChild]
    by_cases hk : k = o
    · rw [if_pos hk, if_pos hk]
      simp only [OctreeHashMapNode.collectChildren_cons,
        OctreeHashMapNode.collectOptH_some, ← Multiset.coe_add]
      abel
    · rw [if_neg hk, if_neg hk]
      simp only [OctreeHashMapNode.collectChildren_cons, ← Multiset.coe_add]
      rw [add_assoc, ih, ← add_assoc]

theorem OctreeHashMapNode.WBchildren_storeChild {b0 b1 : Point}
    {cs : List (Nat × OctreeHashMapNode)} {o : Nat} {c' : OctreeHashMapNode}
    (h : OctreeHashMapNode.WBchildren b0 b1 cs)
    (hb0 : c'.bmin = (OctreeHashMapNode.calculateChildBounds b0 b1 o).1)
    (hb1 : c'.bmax = (OctreeHashMapNode.calculateChildBounds b0 b1 o).2)
    (hwc : OctreeHashMapNode.WB c') :
    OctreeHashMapNode.WBchildren b0 b1 (OctreeHashMapNode.storeChild cs o c') := by
  induction cs with
  | nil =>
    rw [OctreeHashMapNode.storeChild, OctreeHashMapNode.WBchildren]
    exact ⟨⟨hb0, hb1, hwc⟩, trivial⟩
  | cons e rest ih =>
    obtain ⟨k, x⟩ := e
    rw [OctreeHashMapNode.WBchildren] at h
    rw [OctreeHashMapNode.storeChild]
    by_cases hk : k = o
    · rw [if_pos hk]
      rw [OctreeHashMapNode.WBchildren]
      exact ⟨⟨hb0, hb1, hwc⟩, h.2⟩
    · rw [if_neg hk]
      rw [OctreeHashMapNode.WBchildren]
      exact ⟨h.1, ih h.2⟩

theorem OctreeHashMapNode.storeChild_ne_nil
    (cs : List (Nat × OctreeHashMapNode)) (o : Nat) (c' : OctreeHashMapNode) :
    OctreeHashMapNode.storeChild cs o c' ≠ [] := by
  cases cs with
  | nil => simp [OctreeHashMapNode.storeChild]
  | cons e rest =>
    obtain ⟨k, x⟩ := e
    rw [OctreeHashMapNode.storeChild]
    by_cases hk : k = o
    · rw [if_pos hk]; simp
    · rw [if_neg hk]; simp

@[simp] theorem OctreeHashMapNode.groupFlat_nil :
    OctreeHashMapNode.groupFlat [] = [] := rfl

@[simp] theorem OctreeHashMapNode.groupFlat_cons (o : Nat) (l : List Point)
    (rest : List (Nat × List Point)) :
    OctreeHashMapNode.groupFlat ((o, l) :: rest) =
      l ++ OctreeHashMapNode.groupFlat rest := rfl

theorem OctreeHashMapNode.addToGroup_flat_ms
    (acc : List (Nat × List Point)) (o : Nat) (p : Point) :
    (↑(OctreeHashMapNode.groupFlat (OctreeHashMapNode.addToGroup acc o p)) :
        Multiset Point) =
      ↑(OctreeHashMapNode.groupFlat acc) + {p} := by
  induction acc with
  | nil => simp [OctreeHashMapNode.addToGroup]
  | cons e rest ih =>
    obtain ⟨k, l⟩ := e
    rw [OctreeHashMapNode.addToGroup]
    by_cases hk : k = o
    · rw [if_pos hk]
      simp only [OctreeHashMapNode.groupFlat_cons, ← Multiset.coe_add,
        Multiset.coe_singleton]
      abel
    · rw [if_neg hk]
      simp only [OctreeHashMapNode.groupFlat_cons, ← Multiset.coe_add, ih]
      abel

theorem OctreeHashMapNode.groupByOctant_flat_ms (b0 b1 : Point) :
    ∀ (ps : List Point) (acc : List (Nat × List Point)),
      (↑(OctreeHashMapNode.groupFlat (OctreeHashMapNode.groupByOctant b0 b1 ps acc)) :
          Multiset Point) =
        ↑ps + ↑(OctreeHashMapNode.groupFlat acc) := by
  intro ps
  induction ps with
  | nil => intro acc; simp [OctreeHashMapNode.groupByOctant]
  | cons p ps ih =>
    intro acc
    rw [OctreeHashMapNode.groupByOctant, ih,
      OctreeHashMapNode.addToGroup_flat_ms, ← Multiset.cons_coe,
      ← Multiset.singleton_add]
    abel

theorem OctreeHashMapNode.addToGroup_octants {b0 b1 : Point}
    {acc : List (Nat × List Point)} {o : Nat} {p : Point}
    (h : ∀ e ∈ acc, ∀ q ∈ e.2, OctreeHashMapNode.getOctant b0 b1 q = e.1)
    (hp : OctreeHashMapNode.getOctant b0 b1 p = o) :
    ∀ e ∈ OctreeHashMapNode.addToGroup acc o p, ∀ q ∈ e.2,
      OctreeHashMapNode.getOctant b0 b1 q = e.1 := by
  induction acc with
  | nil =>
    intro e he q hq
    simp only [OctreeHashMapNode.addToGroup, List.mem_singleton] at he
    subst he
    simp only [List.mem_singleton] at hq
    subst hq
    exact hp
  | cons f rest ih =>
    obtain ⟨k, l⟩ := f
    intro e he q hq
    rw [OctreeHashMapNode.addToGroup] at he
    by_cases hk : k = o
    · rw [if_pos hk] at he
      rcases List.mem_cons.mp he with he | he
      · subst he
        simp only [List.mem_append, List.mem_singleton] at hq
        rcases hq with hq | hq
        · exact h (k, l) (List.mem_cons_self _ _) q hq
        · subst hq; rw [hp, hk]
      · exact h e (List.mem_cons_of_mem _ he) q hq
    · rw [if_neg hk] at he
      rcases List.mem_cons.mp he with he | he
      · subst he
        exact h (k, l) (List.mem_cons_self _ _) q hq
      · exact ih (fun f hf => h f (List.mem_cons_of_mem _ hf)) e he q hq

theorem OctreeHashMapNode.groupByOctant_octants (b0 b1 : Point) :
    ∀ (ps : List Point) (acc : List (Nat × List Point)),
      (∀ e ∈ acc, ∀ q ∈ e.2, OctreeHashMapNode.getOctant b0 b1 q = e.1) →
      ∀ e ∈ OctreeHashMapNode.groupByOctant b0 b1 ps acc, ∀ q ∈ e.2,
        OctreeHashMapNode.getOctant b0 b1 q = e.1 := by
  intro ps
  induction ps with
  | nil => intro acc h; exact h
  | cons p ps ih =>
    intro acc h
    rw [OctreeHashMapNode.groupByOctant]
    exact ih _ (OctreeHashMapNode.addToGroup_octants h rfl)

theorem OctreeHashMapNode.insertManyWith_master
    (ins : OctreeHashMapNode → Point → Option OctreeHashMapNode)
    (hins : OctreeHashMapNode.InsOK ins) :
    ∀ (ps : List Point) (c c' : OctreeHashMapNode),
      OctreeHashMapNode.insertManyWith ins c ps = some c' →
      c'.bmin = c.bmin ∧ c'.bmax = c.bmax ∧
      (OctreeHashMapNode.WB c →
        (∀ q ∈ ps, OctreeHashMapNode.containsB c.bmin c.bmax q = true) →
        OctreeHashMapNode.WB c' ∧
        (↑c'.collectAllPoints : Multiset Point) = ↑ps + ↑c.collectAllPoints) := by
  intro ps
  induction ps with
  | nil =>
    intro c c' h
    injection h with h
    subst h
    exact ⟨rfl, rfl, fun hwb _ => ⟨hwb, by simp⟩⟩
  | cons p ps ih =>
    intro c c' h
    rw [OctreeHashMapNode.insertManyWith] at h
    cases hc1 : ins c p with
    | none => rw [hc1] at h; exact Option.noConfusion h
    | some c1 =>
      rw [hc1] at h
      dsimp only at h
      obtain ⟨e0, e1, hw1⟩ := hins c p c1 hc1
      obtain ⟨f0, f1, fw⟩ := ih c1 c' h
      refine ⟨f0.trans e0, f1.trans e1, ?_⟩
      intro hwb hq
      obtain ⟨hwb1, hms1⟩ := hw1 hwb
      rw [if_pos (hq p (List.mem_cons_self _ _))] at hms1
      obtain ⟨hwb', hms'⟩ := fw hwb1 (by
        intro q hqm
        rw [e0, e1]
        exact hq q (List.mem_cons_of_mem _ hqm))
      refine ⟨hwb', ?_⟩
      rw [hms', hms1, ← Multiset.cons_coe, ← Multiset.singleton_add]
      abel

theorem OctreeHashMapNode.mem_groupFlat {groups : List (Nat × List Point)}
    {e : Nat × List Point} {q : Point} (he : e ∈ groups) (hq : q ∈ e.2) :
    q ∈ OctreeHashMapNode.groupFlat groups := by
  induction groups with
  | nil => exact absurd he (List.not_mem_nil e)
  | cons f rest ih =>
    obtain ⟨k, l⟩ := f
    rw [OctreeHashMapNode.groupFlat_cons]
    rcases List.mem_cons.mp he with he' | he'
    · subst he'
      exact List.mem_append_left _ hq
    · exact List.mem_append_right _ (ih he')

theorem OctreeHashMapNode.children_of_isLeaf {n : OctreeHashMapNode}
    (h : n.isLeaf = true) : n.children = [] := by
  cases n with
  | mk b0 b1 ps cs =>
    rw [OctreeHashMapNode.isLeaf] at h
    simpa using h

theorem OctreeHashMapNode.collect_of_isLeafH {n : OctreeHashMapNode}
    (h : n.isLeaf = true) : n.collectAllPoints = n.pts := by
  cases n with
  | mk b0 b1 ps cs =>
    have := OctreeHashMapNode.children_of_isLeaf h
    simp only [OctreeHashMapNode.children_mk] at this
    subst this
    simp [OctreeHashMapNode.collect_mkH]

@[simp] theorem OctreeHashMapNode.collect_setPts (n : OctreeHashMapNode)
    (l : List Point) :
    (n.setPts l).collectAllPoints =
      l ++ OctreeHashMapNode.collectChildren n.children := by
  cases n with
  | mk b0 b1 ps cs => rfl

theorem OctreeHashMapNode.contains_childBoundsH (bmin bmax p : Point)
    (h : OctreeHashMapNode.containsB bmin bmax p = true) :
    OctreeHashMapNode.containsB
      (OctreeHashMapNode.calculateChildBounds bmin bmax
        (OctreeHashMapNode.getOctant bmin bmax p)).1
      (OctreeHashMapNode.calculateChildBounds bmin bmax
        (OctreeHashMapNode.getOctant bmin bmax p)).2 p = true :=
  OctreeNode.contains_childBounds bmin bmax p h

theorem OctreeHashMapNode.subdivideGroupsWith_master
    (ins : OctreeHashMapNode → Point → Option OctreeHashMapNode)
    (hins : OctreeHashMapNode.InsOK ins) (b0 b1 : Point) :
    ∀ (groups : List (Nat × List Point)) (cs : List (Nat × OctreeHashMapNode)),
      OctreeHashMapNode.subdivideGroupsWith ins b0 b1 groups = some cs →
      (∀ e ∈ groups, ∀ q ∈ e.2, OctreeHashMapNode.getOctant b0 b1 q = e.1) →
      (∀ e ∈ groups, ∀ q ∈ e.2, OctreeHashMapNode.containsB b0 b1 q = true) →
      OctreeHashMapNode.WBchildren b0 b1 cs ∧
      (↑(OctreeHashMapNode.collectChildren cs) : Multiset Point) =
        ↑(OctreeHashMapNode.groupFlat groups) := by
  intro groups
  induction groups with
  | nil =>
    intro cs h _ _
    rw [OctreeHashMapNode.subdivideGroupsWith] at h
    injection h with h
    subst h
    exact ⟨trivial, by simp⟩
  | cons e rest ih =>
    obtain ⟨o, plist⟩ := e
    intro cs h hoct hcont
    rw [OctreeHashMapNode.subdivideGroupsWith] at h
    try dsimp only at h
    cases hc : OctreeHashMapNode.insertManyWith ins
        (OctreeHashMapNode.leaf
          (OctreeHashMapNode.calculateChildBounds b0 b1 o).1
          (OctreeHashMapNode.calculateChildBounds b0 b1 o).2) plist with
    | none => rw [hc] at h; exact Option.noConfusion h
    | some c =>
      rw [hc] at h
      dsimp only at h
      cases hrest : OctreeHashMapNode.subdivideGroupsWith ins b0 b1 rest with
      | none => rw [hrest] at h; exact Option.noConfusion h
      | some cs' =>
        rw [hrest] at h
        dsimp only at h
        injection h with h
        subst h
        obtain ⟨e0, e1, ew⟩ :=
          OctreeHashMapNode.insertManyWith_master ins hins plist _ c hc
        simp only [OctreeHashMapNode.leaf_bminH, OctreeHashMapNode.leaf_bmaxH]
          at e0 e1 ew
        have hplist : ∀ q ∈ plist,
            OctreeHashMapNode.containsB
              (OctreeHashMapNode.calculateChildBounds b0 b1 o).1
              (OctreeHashMapNode.calculateChildBounds b0 b1 o).2 q = true := by
          intro q hq
          have hge := hoct (o, plist) (List.mem_cons_self _ _) q hq
          have hcb := OctreeHashMapNode.contains_childBoundsH b0 b1 q
            (hcont (o, plist) (List.mem_cons_self _ _) q hq)
          rw [hge] at hcb
          exact hcb
        obtain ⟨hwc, hmsc⟩ := ew (OctreeHashMapNode.WB_leafH _ _) hplist
        simp only [OctreeHashMapNode.collect_mkH, OctreeHashMapNode.leaf,
          OctreeHashMapNode.collectChildren_nil, List.append_nil,
          Multiset.coe_nil, add_zero] at hmsc
        obtain ⟨hwrest, hmsrest⟩ := ih cs' hrest
          (fun f hf => hoct f (List.mem_cons_of_mem _ hf))
          (fun f hf => hcont f (List.mem_cons_of_mem _ hf))
        refine ⟨?_, ?_⟩
        · rw [OctreeHashMapNode.WBchildren]
          exact ⟨⟨e0, e1, hwc⟩, hwrest⟩
        · rw [OctreeHashMapNode.collectChildren_cons,
            OctreeHashMapNode.groupFlat_cons, ← Multiset.coe_add,
            ← Multiset.coe_add, hmsc, hmsrest]

theorem OctreeHashMapNode.subdivideWith_masterH
    (ins : OctreeHashMapNode → Point → Option OctreeHashMapNode)
    (hins : OctreeHashMapNode.InsOK ins) (n n' : OctreeHashMapNode)
    (h : OctreeHashMapNode.subdivideWith ins n = some n') :
    n'.bmin = n.bmin ∧ n'.bmax = n.bmax ∧ n'.pts = [] ∧
    ((∀ q ∈ n.pts, OctreeHashMapNode.containsB n.bmin n.bmax q = true) →
      OctreeHashMapNode.WB n' ∧
      (↑n'.collectAllPoints : Multiset Point) = ↑n.pts) := by
  rw [OctreeHashMapNode.subdivideWith] at h
  cases hg : OctreeHashMapNode.subdivideGroupsWith ins n.bmin n.bmax
      (OctreeHashMapNode.groupByOctant n.bmin n.bmax n.pts []) with
  | none => rw [hg] at h; exact Option.noConfusion h
  | some cs =>
    rw [hg] at h
    dsimp only at h
    injection h with h
    subst h
    refine ⟨by simp, by simp, by simp, ?_⟩
    intro hpts
    have hflat : (↑(OctreeHashMapNode.groupFlat
        (OctreeHashMapNode.groupByOctant n.bmin n.bmax n.pts [])) :
          Multiset Point) = ↑n.pts := by
      rw [OctreeHashMapNode.groupByOctant_flat_ms]
      simp
    have hmemflat : ∀ q ∈ OctreeHashMapNode.groupFlat
        (OctreeHashMapNode.groupByOctant n.bmin n.bmax n.pts []), q ∈ n.pts := by
      intro q hq
      have : q ∈ (↑n.pts : Multiset Point) := by
        rw [← hflat]
        exact Multiset.mem_coe.mpr hq
      exact Multiset.mem_coe.mp this
    obtain ⟨hwb, hms⟩ := OctreeHashMapNode.subdivideGroupsWith_master ins hins
      n.bmin n.bmax _ cs hg
      (OctreeHashMapNode.groupByOctant_octants n.bmin n.bmax n.pts []
        (by intro e he; exact absurd he (List.not_mem_nil e)))
      (by
        intro e he q hq
        exact hpts q (hmemflat q (OctreeHashMapNode.mem_groupFlat he hq)))
    rw [hflat] at hms
    constructor
    · rw [OctreeHashMapNode.WB]
      refine ⟨?_, hwb⟩
      intro q hq
      simp only [OctreeHashMapNode.collect_mkH, List.nil_append] at hq
      have : q ∈ (↑n.pts : Multiset Point) := by
        rw [← hms]
        exact Multiset.mem_coe.mpr hq
      exact hpts q (Multiset.mem_coe.mp this)
    · simp only [OctreeHashMapNode.collect_mkH, List.nil_append]
      exact hms

@[simp] theorem OctreeHashMapNode.collect_setChildren (n : OctreeHashMapNode)
    (cs : List (Nat × OctreeHashMapNode)) :
    (n.setChildren cs).collectAllPoints =
      n.pts ++ OctreeHashMapNode.collectChildren cs := by
  cases n with
  | mk b0 b1 ps cs0 => rfl

theorem OctreeHashMapNode.WB_setPts {n : OctreeHashMapNode} {l : List Point}
    (hwb : OctreeHashMapNode.WB n)
    (hl : ∀ q ∈ l, OctreeHashMapNode.containsB n.bmin n.bmax q = true) :
    OctreeHashMapNode.WB (n.setPts l) := by
  cases n with
  | mk b0 b1 ps cs =>
    rw [OctreeHashMapNode.WB] at hwb
    rw [OctreeHashMapNode.setPts, OctreeHashMapNode.WB]
    refine ⟨?_, hwb.2⟩
    intro q hq
    rw [OctreeHashMapNode.collect_mkH] at hq
    rcases List.mem_append.mp hq with hq | hq
    · exact hl q hq
    · exact hwb.1 q (by
        rw [OctreeHashMapNode.collect_mkH]
        exact List.mem_append_right _ hq)

theorem OctreeHashMapNode.mem_collectChildren_storeChild
    {cs : List (Nat × OctreeHashMapNode)} {o : Nat} {c' : OctreeHashMapNode}
    {q : Point}
    (hq : q ∈ OctreeHashMapNode.collectChildren
      (OctreeHashMapNode.storeChild cs o c')) :
    q ∈ OctreeHashMapNode.collectChildren cs ∨ q ∈ c'.collectAllPoints := by
  have hms := OctreeHashMapNode.collect_storeChild_ms cs o c'
  have h1 : q ∈ (↑(OctreeHashMapNode.collectChildren
      (OctreeHashMapNode.storeChild cs o c')) : Multiset Point) +
      ↑(OctreeHashMapNode.collectOptH (OctreeHashMapNode.findChild cs o)) :=
    Multiset.mem_add.mpr (Or.inl (Multiset.mem_coe.mpr hq))
  rw [hms] at h1
  rcases Multiset.mem_add.mp h1 with h2 | h2
  · exact Or.inl (Multiset.mem_coe.mp h2)
  · exact Or.inr (Multiset.mem_coe.mp h2)

theorem OctreeHashMapNode.WB_storeChild {n : OctreeHashMapNode} {o : Nat}
    {c' : OctreeHashMapNode}
    (hwb : OctreeHashMapNode.WB n)
    (hb0 : c'.bmin = (OctreeHashMapNode.calculateChildBounds n.bmin n.bmax o).1)
    (hb1 : c'.bmax = (OctreeHashMapNode.calculateChildBounds n.bmin n.bmax o).2)
    (hwc : OctreeHashMapNode.WB c')
    (hIn : ∀ q ∈ c'.collectAllPoints,
      OctreeHashMapNode.containsB n.bmin n.bmax q = true) :
    OctreeHashMapNode.WB
      (n.setChildren (OctreeHashMapNode.storeChild n.children o c')) := by
  cases n with
  | mk b0 b1 ps cs =>
    rw [OctreeHashMapNode.WB] at hwb
    rw [OctreeHashMapNode.children_mk, OctreeHashMapNode.setChildren,
      OctreeHashMapNode.WB]
    refine ⟨?_, OctreeHashMapNode.WBchildren_storeChild hwb.2 hb0 hb1 hwc⟩
    intro q hq
    rw [OctreeHashMapNode.collect_mkH] at hq
    rcases List.mem_append.mp hq with hq | hq
    · exact hwb.1 q (by
        rw [OctreeHashMapNode.collect_mkH]
        exact List.mem_append_left _ hq)
    · rcases OctreeHashMapNode.mem_collectChildren_storeChild hq with h2 | h2
      · exact hwb.1 q (by
          rw [OctreeHashMapNode.collect_mkH]
          exact List.mem_append_right _ h2)
      · exact hIn q h2

theorem OctreeHashMapNode.insert_masterH :
    ∀ (fuel : Nat) (n : OctreeHashMapNode) (p : Point) (n' : OctreeHashMapNode),
      OctreeHashMapNode.insert fuel n p = some n' →
      n'.bmin = n.bmin ∧ n'.bmax = n.bmax ∧
      (OctreeHashMapNode.WB n → OctreeHashMapNode.WB n' ∧
        (↑n'.collectAllPoints : Multiset Point) =
          (if OctreeHashMapNode.containsB n.bmin n.bmax p = true
            then {p} else 0) +
          ↑n.collectAllPoints) := by
  intro fuel
  induction fuel using Nat.strong_induction_on with
  | _ fuel ih =>
    match fuel with
    | 0 => intro n p n' h; exact Option.noConfusion h
    | fuel + 1 =>
      intro n p n' h
      have hins : OctreeHashMapNode.InsOK
          (fun c q => OctreeHashMapNode.insert fuel c q) :=
        fun c q c' hc => ih fuel (Nat.lt_succ_self fuel) c q c' hc
      rw [OctreeHashMapNode.insert] at h
      by_cases hcont : OctreeHashMapNode.containsB n.bmin n.bmax p = true
      · rw [hcont] at h
        dsimp only [Bool.not_true] at h
        rw [if_neg (by simp)] at h
        by_cases hl : n.isLeaf = true
        · rw [if_pos hl] at h
          by_cases hov : (n.setPts (n.pts ++ [p])).pts.length >
              OctreeHashMapNode.MAX_POINTS_PER_LEAF
          · rw [if_pos hov] at h
            obtain ⟨f0, f1, f2, fwb⟩ :=
              OctreeHashMapNode.subdivideWith_masterH _ hins _ n' h
            simp only [OctreeHashMapNode.setPts_bminH, OctreeHashMapNode.setPts_bmaxH,
              OctreeHashMapNode.setPts_ptsH] at f0 f1 fwb
            refine ⟨f0, f1, ?_⟩
            intro hwb
            have hpts : ∀ q ∈ n.pts ++ [p],
                OctreeHashMapNode.containsB n.bmin n.bmax q = true := by
              intro q hq
              rcases List.mem_append.mp hq with hq' | hq'
              · exact OctreeHashMapNode.WB_headH hwb q
                  (by rw [OctreeHashMapNode.collect_of_isLeafH hl]; exact hq')
              · rw [List.mem_singleton.mp hq']
                exact hcont
            obtain ⟨hwb', hms⟩ := fwb hpts
            refine ⟨hwb', ?_⟩
            rw [OctreeHashMapNode.collect_of_isLeafH hl, hcont, if_pos rfl, hms,
              ← Multiset.coe_singleton, ← Multiset.coe_add]
            exact add_comm _ _
          · rw [if_neg hov] at h
            injection h with h
            subst h
            refine ⟨by simp, by simp, ?_⟩
            intro hwb
            constructor
            · refine OctreeHashMapNode.WB_setPts hwb ?_
              intro q hq
              rcases List.mem_append.mp hq with hq' | hq'
              · exact OctreeHashMapNode.WB_headH hwb q
                  (by rw [OctreeHashMapNode.collect_of_isLeafH hl]; exact hq')
              · rw [List.mem_singleton.mp hq']
                exact hcont
            · rw [hcont, if_pos rfl]
              rw [OctreeHashMapNode.collect_setPts,
                OctreeHashMapNode.children_of_isLeaf hl,
                OctreeHashMapNode.collectChildren_nil, List.append_nil,
                OctreeHashMapNode.collect_of_isLeafH hl,
                ← Multiset.coe_singleton, ← Multiset.coe_add]
              exact add_comm _ _
        · have hl' : n.isLeaf = false := by simpa using hl
          rw [if_neg (by simp [hl'])] at h
          try dsimp only at h
          cases hfc : OctreeHashMapNode.findChild n.children
              (OctreeHashMapNode.getOctant n.bmin n.bmax p) with
          | some c =>
            rw [hfc] at h
            dsimp only at h
            cases hrec : OctreeHashMapNode.insert fuel c p with
            | none => rw [hrec] at h; exact Option.noConfusion h
            | some c1 =>
              rw [hrec] at h
              dsimp only at h
              injection h with h
              subst h
              obtain ⟨e0, e1, hwpres⟩ := ih fuel (Nat.lt_succ_self fuel) c p c1 hrec
              refine ⟨by simp, by simp, ?_⟩
              intro hwb
              obtain ⟨g0, g1, hwc⟩ :=
                OctreeHashMapNode.WBchildren_findChild
                  (OctreeHashMapNode.WB_children hwb) hfc
              have hcontc : OctreeHashMapNode.containsB c.bmin c.bmax p = true := by
                rw [g0, g1]
                have := OctreeHashMapNode.contains_childBoundsH n.bmin n.bmax p hcont
                exact this
              obtain ⟨hwb1, hms1⟩ := hwpres hwc
              rw [hcontc, if_pos rfl] at hms1
              have hIn : ∀ q ∈ c1.collectAllPoints,
                  OctreeHashMapNode.containsB n.bmin n.bmax q = true := by
                intro q hq1
                have hmem : q ∈ ({p} + ↑c.collectAllPoints : Multiset Point) := by
                  rw [← hms1]; exact Multiset.mem_coe.mpr hq1
                rcases Multiset.mem_add.mp hmem with hq2 | hq2
                · rw [Multiset.mem_singleton.mp hq2]; exact hcont
                · refine OctreeHashMapNode.WB_headH hwb q ?_
                  cases n with
                  | mk b0 b1 ps cs =>
                    rw [OctreeHashMapNode.collect_mkH]
                    refine List.mem_append_right _ ?_
                    exact OctreeHashMapNode.mem_collectChildren_of_findChild hfc
                      (Multiset.mem_coe.mp hq2)
              refine ⟨OctreeHashMapNode.WB_storeChild hwb (by rw [e0, g0])
                (by rw [e1, g1]) hwb1 hIn, ?_⟩
              have hstore := OctreeHashMapNode.collect_storeChild_ms n.children
                (OctreeHashMapNode.getOctant n.bmin n.bmax p) c1
              rw [hfc] at hstore
              simp only [OctreeHashMapNode.collectOptH_some] at hstore
              have hkey : (↑(OctreeHashMapNode.collectChildren
                  (OctreeHashMapNode.storeChild n.children
                    (OctreeHashMapNode.getOctant n.bmin n.bmax p) c1)) :
                    Multiset Point) =
                  ↑(OctreeHashMapNode.collectChildren n.children) + {p} := by
                have h2 : (↑(OctreeHashMapNode.collectChildren
                    (OctreeHashMapNode.storeChild n.children
                      (OctreeHashMapNode.getOctant n.bmin n.bmax p) c1)) :
                      Multiset Point) + ↑c.collectAllPoints =
                    (↑(OctreeHashMapNode.collectChildren n.children) + {p}) +
                      ↑c.collectAllPoints := by
                  rw [hstore, hms1]; abel
                exact add_right_cancel h2
              rw [hcont, if_pos rfl, OctreeHashMapNode.collect_setChildren]
              cases hn : n with
              | mk b0 b1 ps cs =>
                rw [hn] at hkey
                simp only [OctreeHashMapNode.children_mk, OctreeHashMapNode.pts_mkH,
                  OctreeHashMapNode.collect_mkH] at hkey ⊢
                rw [← Multiset.coe_add, ← Multiset.coe_add, hkey]
                abel
          | none =>
            rw [hfc] at h
            dsimp only at h
            cases hrec : OctreeHashMapNode.insert fuel
                (OctreeHashMapNode.leaf
                  (OctreeHashMapNode.calculateChildBounds n.bmin n.bmax
                    (OctreeHashMapNode.getOctant n.bmin n.bmax p)).1
                  (OctreeHashMapNode.calculateChildBounds n.bmin n.bmax
                    (OctreeHashMapNode.getOctant n.bmin n.bmax p)).2) p with
            | none => rw [hrec] at h; exact Option.noConfusion h
            | some c1 =>
              rw [hrec] at h
              dsimp only at h
              injection h with h
              subst h
              obtain ⟨e0, e1, hwpres⟩ :=
                ih fuel (Nat.lt_succ_self fuel) _ p c1 hrec
              have hcontc := OctreeHashMapNode.contains_childBoundsH n.bmin n.bmax
                p hcont
              refine ⟨by simp, by simp, ?_⟩
              intro hwb
              obtain ⟨hwb1, hms1⟩ := hwpres (OctreeHashMapNode.WB_leafH _ _)
              rw [OctreeHashMapNode.leaf_bminH, OctreeHashMapNode.leaf_bmaxH] at hms1
              rw [hcontc, if_pos rfl] at hms1
              simp only [OctreeHashMapNode.leaf, OctreeHashMapNode.collect_mkH,
                OctreeHashMapNode.collectChildren_nil, List.append_nil,
                Multiset.coe_nil, add_zero] at hms1
              have hIn : ∀ q ∈ c1.collectAllPoints,
                  OctreeHashMapNode.containsB n.bmin n.bmax q = true := by
                intro q hq1
                have hmem : q ∈ ({p} : Multiset Point) := by
                  rw [← hms1]; exact Multiset.mem_coe.mpr hq1
                rw [Multiset.mem_singleton.mp hmem]
                exact hcont
              refine ⟨OctreeHashMapNode.WB_storeChild hwb
                (by rw [e0, OctreeHashMapNode.leaf_bminH])
                (by rw [e1, OctreeHashMapNode.leaf_bmaxH]) hwb1 hIn, ?_⟩
              have hstore := OctreeHashMapNode.collect_storeChild_ms n.children
                (OctreeHashMapNode.getOctant n.bmin n.bmax p) c1
              rw [hfc] at hstore
              simp only [OctreeHashMapNode.collectOptH_none, Multiset.coe_nil,
                add_zero] at hstore
              rw [hms1] at hstore
              rw [hcont, if_pos rfl, OctreeHashMapNode.collect_setChildren]
              cases hn : n with
              | mk b0 b1 ps cs =>
                rw [hn] at hstore
                simp only [OctreeHashMapNode.children_mk, OctreeHashMapNode.pts_mkH,
                  OctreeHashMapNode.collect_mkH] at hstore ⊢
                rw [← Multiset.coe_add, ← Multiset.coe_add, hstore]
                abel
      · have hcontf : OctreeHashMapNode.containsB n.bmin n.bmax p = false := by
          simpa using hcont
        rw [hcontf] at h
        rw [if_pos (show (!false) = true by decide)] at h
        injection h with h
        subst h
        exact ⟨rfl, rfl, fun hwb => ⟨hwb, by rw [hcontf]; simp⟩⟩

theorem OctreeHashMapNode.insertSeq_masterH (fuel : Nat) :
    ∀ (ps : List Point) (n t : OctreeHashMapNode),
      OctreeHashMapNode.insertSeq fuel n ps = some t →
      t.bmin = n.bmin ∧ t.bmax = n.bmax ∧
      (OctreeHashMapNode.WB n → OctreeHashMapNode.WB t ∧
        (↑t.collectAllPoints : Multiset Point) =
          ↑(ps.filter fun p => OctreeHashMapNode.containsB n.bmin n.bmax p) +
          ↑n.collectAllPoints) := by
  intro ps
  induction ps with
  | nil =>
    intro n t h
    injection h with h
    subst h
    exact ⟨rfl, rfl, fun hwb => ⟨hwb, by simp⟩⟩
  | cons p ps ih =>
    intro n t h
    rw [OctreeHashMapNode.insertSeq] at h
    cases hrec : OctreeHashMapNode.insert fuel n p with
    | none => rw [hrec] at h; exact Option.noConfusion h
    | some n1 =>
      rw [hrec] at h
      dsimp only at h
      obtain ⟨e0, e1, hwp⟩ := OctreeHashMapNode.insert_masterH fuel n p n1 hrec
      obtain ⟨f0, f1, fw⟩ := ih n1 t h
      refine ⟨f0.trans e0, f1.trans e1, ?_⟩
      intro hwb
      obtain ⟨hwb1, hms1⟩ := hwp hwb
      obtain ⟨hwbt, hmst⟩ := fw hwb1
      rw [e0, e1] at hmst
      refine ⟨hwbt, ?_⟩
      rw [hmst, hms1]
      by_cases hcont : OctreeHashMapNode.containsB n.bmin n.bmax p = true
      · rw [hcont, if_pos rfl, List.filter_cons_of_pos hcont,
          ← Multiset.cons_coe, ← Multiset.singleton_add]
        abel
      · have hcf : (OctreeHashMapNode.containsB n.bmin n.bmax p = true) = False := by
          simp [hcont]
        rw [List.filter_cons_of_neg (by simp [hcf])]
        rw [if_neg (by simp [hcf])]
        abel

theorem OctreeHashMapNode.build_masterH (bmin bmax : Point) (fuel : Nat)
    (ps : List Point) (t : OctreeHashMapNode)
    (h : OctreeHashMapNode.build bmin bmax fuel ps = some t) :
    t.bmin = bmin ∧ t.bmax = bmax ∧ OctreeHashMapNode.WB t ∧
    (↑t.collectAllPoints : Multiset Point) =
      ↑(ps.filter fun p => OctreeHashMapNode.containsB bmin bmax p) := by
  obtain ⟨f0, f1, fw⟩ := OctreeHashMapNode.insertSeq_masterH fuel ps _ t h
  simp only [OctreeHashMapNode.leaf_bminH, OctreeHashMapNode.leaf_bmaxH] at f0 f1 fw
  obtain ⟨hwb, hms⟩ := fw (OctreeHashMapNode.WB_leafH _ _)
  refine ⟨f0, f1, hwb, ?_⟩
  rw [hms]
  simp [OctreeHashMapNode.leaf, OctreeHashMapNode.collect_mkH]

/-- C1: for every finite sequence of points inserted into a freshly constructed
root (either variant, whenever the fuelled insertion run completes), the
multiset of points returned by `collectAllPoints` equals the multiset of those
inserted points that lay inside the root's bounding box, and no out-of-bounds
point appears in the result. -/
theorem claim_C1 (bmin bmax : Point) (fuel : Nat) (ps : List Point) :
    (∀ t, OctreeNode.build bmin bmax fuel ps = some t →
      (↑t.collectAllPoints : Multiset Point) =
        ↑(ps.filter fun p => OctreeNode.containsB bmin bmax p) ∧
      ∀ p ∈ t.collectAllPoints, OctreeNode.containsB bmin bmax p = true) ∧
    (∀ t, OctreeHashMapNode.build bmin bmax fuel ps = some t →
      (↑t.collectAllPoints : Multiset Point) =
        ↑(ps.filter fun p => OctreeHashMapNode.containsB bmin bmax p) ∧
      ∀ p ∈ t.collectAllPoints, OctreeHashMapNode.containsB bmin bmax p = true) := by
  constructor
  · intro t ht
    obtain ⟨-, -, -, -, hms⟩ := OctreeNode.build_master bmin bmax fuel ps t ht
    refine ⟨hms, ?_⟩
    intro p hp
    have : p ∈ (↑(ps.filter fun p => OctreeNode.containsB bmin bmax p) :
        Multiset Point) := by
      rw [← hms]; exact Multiset.mem_coe.mpr hp
    exact (List.mem_filter.mp (Multiset.mem_coe.mp this)).2
  · intro t ht
    obtain ⟨-, -, -, hms⟩ := OctreeHashMapNode.build_masterH bmin bmax fuel ps t ht
    refine ⟨hms, ?_⟩
    intro p hp
    have : p ∈ (↑(ps.filter fun p => OctreeHashMapNode.containsB bmin bmax p) :
        Multiset Point) := by
      rw [← hms]; exact Multiset.mem_coe.mpr hp
    exact (List.mem_filter.mp (Multiset.mem_coe.mp this)).2

/-- Witness for C1: a concrete build with one out-of-bounds point among two
in-bounds points that force a subdivision. -/
theorem claim_C1_witness :
    (↑((OctreeNode.build ⟨-10, -10, -10⟩ ⟨10, 10, 10⟩ 6
        [⟨1, 1, 1⟩, ⟨100, 100, 100⟩, ⟨-3, 2, -5⟩]).get (by decide)).collectAllPoints :
      Multiset Point) =
      ↑([⟨1, 1, 1⟩, ⟨100, 100, 100⟩, ⟨-3, 2, -5⟩].filter fun p =>
        OctreeNode.containsB ⟨-10, -10, -10⟩ ⟨10, 10, 10⟩ p) ∧
    (↑((OctreeHashMapNode.build ⟨-10, -10, -10⟩ ⟨10, 10, 10⟩ 6
        [⟨1, 1, 1⟩, ⟨100, 100, 100⟩, ⟨-3, 2, -5⟩]).get (by decide)).collectAllPoints :
      Multiset Point) =
      ↑([⟨1, 1, 1⟩, ⟨100, 100, 100⟩, ⟨-3, 2, -5⟩].filter fun p =>
        OctreeHashMapNode.containsB ⟨-10, -10, -10⟩ ⟨10, 10, 10⟩ p) :=
  ⟨((claim_C1 ⟨-10, -10, -10⟩ ⟨10, 10, 10⟩ 6
      [⟨1, 1, 1⟩, ⟨100, 100, 100⟩, ⟨-3, 2, -5⟩]).1 _ (Option.some_get _).symm).1,
   ((claim_C1 ⟨-10, -10, -10⟩ ⟨10, 10, 10⟩ 6
      [⟨1, 1, 1⟩, ⟨100, 100, 100⟩, ⟨-3, 2, -5⟩]).2 _ (Option.some_get _).symm).1⟩

theorem OctreeHashMapNode.boxIntersects_of_contains {b0 b1 qmin qmax p : Point}
    (hc : OctreeHashMapNode.containsB b0 b1 p = true)
    (hq : OctreeHashMapNode.containsB qmin qmax p = true) :
    OctreeHashMapNode.boxIntersects b0 b1 qmin qmax = true := by
  rw [hm_containsB_eq, OctreeNode.containsB_iff] at hc hq
  obtain ⟨c1, c2, c3, c4, c5, c6⟩ := hc
  obtain ⟨q1, q2, q3, q4, q5, q6⟩ := hq
  rw [OctreeHashMapNode.boxIntersects]
  simp only [Bool.not_eq_true', Bool.or_eq_false_iff, decide_eq_false_iff_not,
    not_lt, gt_iff_lt]
  refine ⟨⟨⟨⟨⟨?_, ?_⟩, ?_⟩, ?_⟩, ?_⟩, ?_⟩ <;> linarith

mutual

theorem OctreeHashMapNode.rq_eq :
    ∀ (n : OctreeHashMapNode), OctreeHashMapNode.WB n → ∀ qmin qmax : Point,
      OctreeHashMapNode.rangeQueryRecursive n qmin qmax =
        n.collectAllPoints.filter fun p =>
          OctreeHashMapNode.containsB qmin qmax p
  | .mk b0 b1 ps cs, hwb, qmin, qmax => by
    rw [OctreeHashMapNode.WB] at hwb
    rw [OctreeHashMapNode.rangeQueryRecursive]
    by_cases hbi : OctreeHashMapNode.boxIntersects b0 b1 qmin qmax = true
    · rw [if_neg (by simp [hbi])]
      rw [OctreeHashMapNode.collect_mkH, List.filter_append,
        OctreeHashMapNode.rqChildren_eq b0 b1 cs hwb.2 qmin qmax]
      rfl
    · have hbi' : OctreeHashMapNode.boxIntersects b0 b1 qmin qmax = false := by
        simpa using hbi
      rw [if_pos (by simp [hbi'])]
      symm
      rw [List.filter_eq_nil_iff]
      intro p hp hq
      exact absurd
        (OctreeHashMapNode.boxIntersects_of_contains (hwb.1 p hp) hq)
        (by simp [hbi'])

theorem OctreeHashMapNode.rqChildren_eq :
    ∀ (b0 b1 : Point) (cs : List (Nat × OctreeHashMapNode)),
      OctreeHashMapNode.WBchildren b0 b1 cs → ∀ qmin qmax : Point,
      OctreeHashMapNode.rangeQueryChildren cs qmin qmax =
        (OctreeHashMapNode.collectChildren cs).filter fun p =>
          OctreeHashMapNode.containsB qmin qmax p
  | _, _, [], _, _, _ => rfl
  | b0, b1, (k, c) :: rest, hwb, qmin, qmax => by
    rw [OctreeHashMapNode.WBchildren] at hwb
    rw [OctreeHashMapNode.rangeQueryChildren,
      OctreeHashMapNode.collectChildren_cons, List.filter_append,
      OctreeHashMapNode.rq_eq c hwb.1.2.2 qmin qmax,
      OctreeHashMapNode.rqChildren_eq b0 b1 rest hwb.2 qmin qmax]

end

/-- C2: on every built tree (either variant), `rangeQuery` agrees with the
brute-force filter of all stored points, and a point is in the result iff it
was inserted in bounds and lies in the closed query box on every axis. -/
theorem claim_C2 (bmin bmax qmin qmax : Point) (fuel : Nat) (ps : List Point) :
    (∀ t, OctreeNode.build bmin bmax fuel ps = some t →
      OctreeNode.rangeQuery t qmin qmax =
        (t.collectAllPoints.filter fun p =>
          OctreeNode.containsB qmin qmax p) ∧
      ∀ p, p ∈ OctreeNode.rangeQuery t qmin qmax ↔
        ((p ∈ ps ∧ OctreeNode.containsB bmin bmax p = true) ∧
         (qmin.x ≤ p.x ∧ p.x ≤ qmax.x ∧ qmin.y ≤ p.y ∧ p.y ≤ qmax.y ∧
          qmin.z ≤ p.z ∧ p.z ≤ qmax.z))) ∧
    (∀ t, OctreeHashMapNode.build bmin bmax fuel ps = some t →
      OctreeHashMapNode.rangeQuery t qmin qmax =
        (t.collectAllPoints.filter fun p =>
          OctreeHashMapNode.containsB qmin qmax p) ∧
      ∀ p, p ∈ OctreeHashMapNode.rangeQuery t qmin qmax ↔
        ((p ∈ ps ∧ OctreeHashMapNode.containsB bmin bmax p = true) ∧
         (qmin.x ≤ p.x ∧ p.x ≤ qmax.x ∧ qmin.y ≤ p.y ∧ p.y ≤ qmax.y ∧
          qmin.z ≤ p.z ∧ p.z ≤ qmax.z))) := by
  constructor
  · intro t ht
    obtain ⟨-, -, -, -, hms⟩ := OctreeNode.build_master bmin bmax fuel ps t ht
    have hperm := Multiset.coe_eq_coe.mp hms
    refine ⟨rfl, ?_⟩
    intro p
    have h1 : p ∈ OctreeNode.rangeQuery t qmin qmax ↔
        p ∈ t.collectAllPoints ∧ OctreeNode.containsB qmin qmax p = true :=
      List.mem_filter
    rw [h1, hperm.mem_iff, List.mem_filter,
      OctreeNode.containsB_iff qmin qmax p]
  · intro t ht
    obtain ⟨-, -, hwb, hms⟩ :=
      OctreeHashMapNode.build_masterH bmin bmax fuel ps t ht
    have hperm := Multiset.coe_eq_coe.mp hms
    have hrq : OctreeHashMapNode.rangeQuery t qmin qmax =
        t.collectAllPoints.filter fun p =>
          OctreeHashMapNode.containsB qmin qmax p :=
      OctreeHashMapNode.rq_eq t hwb qmin qmax
    refine ⟨hrq, ?_⟩
    intro p
    rw [show OctreeHashMapNode.rangeQuery t qmin qmax =
        OctreeHashMapNode.rangeQueryRecursive t qmin qmax from rfl] at hrq
    have h1 : p ∈ OctreeHashMapNode.rangeQuery t qmin qmax ↔
        p ∈ t.collectAllPoints ∧
          OctreeHashMapNode.containsB qmin qmax p = true := by
      rw [show OctreeHashMapNode.rangeQuery t qmin qmax =
          OctreeHashMapNode.rangeQueryRecursive t qmin qmax from rfl, hrq]
      exact List.mem_filter
    rw [h1, hperm.mem_iff, List.mem_filter, hm_containsB_eq,
      OctreeNode.containsB_iff qmin qmax p]

/-- Witness for C2: a concrete built tree with one in-query point, one
out-of-query point and one out-of-bounds point, queried with the box
`[(-1,-1,-1),(1,1,1)]`. -/
theorem claim_C2_witness :
    ((⟨0, 0, 0⟩ : Point) ∈ OctreeNode.rangeQuery
      ((OctreeNode.build ⟨-10, -10, -10⟩ ⟨10, 10, 10⟩ 6
        [⟨0, 0, 0⟩, ⟨5, 5, 5⟩, ⟨100, 100, 100⟩]).get (by decide))
      ⟨-1, -1, -1⟩ ⟨1, 1, 1⟩ ↔
      (((⟨0, 0, 0⟩ : Point) ∈
          [(⟨0, 0, 0⟩ : Point), ⟨5, 5, 5⟩, ⟨100, 100, 100⟩] ∧
        OctreeNode.containsB ⟨-10, -10, -10⟩ ⟨10, 10, 10⟩ ⟨0, 0, 0⟩ = true) ∧
       ((⟨-1, -1, -1⟩ : Point).x ≤ (⟨0, 0, 0⟩ : Point).x ∧
        (⟨0, 0, 0⟩ : Point).x ≤ (⟨1, 1, 1⟩ : Point).x ∧
        (⟨-1, -1, -1⟩ : Point).y ≤ (⟨0, 0, 0⟩ : Point).y ∧
        (⟨0, 0, 0⟩ : Point).y ≤ (⟨1, 1, 1⟩ : Point).y ∧
        (⟨-1, -1, -1⟩ : Point).z ≤ (⟨0, 0, 0⟩ : Point).z ∧
        (⟨0, 0, 0⟩ : Point).z ≤ (⟨1, 1, 1⟩ : Point).z))) ∧
    ((⟨0, 0, 0⟩ : Point) ∈ OctreeHashMapNode.rangeQuery
      ((OctreeHashMapNode.build ⟨-10, -10, -10⟩ ⟨10, 10, 10⟩ 6
        [⟨0, 0, 0⟩, ⟨5, 5, 5⟩, ⟨100, 100, 100⟩]).get (by decide))
      ⟨-1, -1, -1⟩ ⟨1, 1, 1⟩ ↔
      (((⟨0, 0, 0⟩ : Point) ∈
          [(⟨0, 0, 0⟩ : Point), ⟨5, 5, 5⟩, ⟨100, 100, 100⟩] ∧
        OctreeHashMapNode.containsB ⟨-10, -10, -10⟩ ⟨10, 10, 10⟩ ⟨0, 0, 0⟩ =
          true) ∧
       ((⟨-1, -1, -1⟩ : Point).x ≤ (⟨0, 0, 0⟩ : Point).x ∧
        (⟨0, 0, 0⟩ : Point).x ≤ (⟨1, 1, 1⟩ : Point).x ∧
        (⟨-1, -1, -1⟩ : Point).y ≤ (⟨0, 0, 0⟩ : Point).y ∧
        (⟨0, 0, 0⟩ : Point).y ≤ (⟨1, 1, 1⟩ : Point).y ∧
        (⟨-1, -1, -1⟩ : Point).z ≤ (⟨0, 0, 0⟩ : Point).z ∧
        (⟨0, 0, 0⟩ : Point).z ≤ (⟨1, 1, 1⟩ : Point).z))) :=
  ⟨((claim_C2 ⟨-10, -10, -10⟩ ⟨10, 10, 10⟩ ⟨-1, -1, -1⟩ ⟨1, 1, 1⟩ 6
      [⟨0, 0, 0⟩, ⟨5, 5, 5⟩, ⟨100, 100, 100⟩]).1 _
      (Option.some_get _).symm).2 ⟨0, 0, 0⟩,
   ((claim_C2 ⟨-10, -10, -10⟩ ⟨10, 10, 10⟩ ⟨-1, -1, -1⟩ ⟨1, 1, 1⟩ 6
      [⟨0, 0, 0⟩, ⟨5, 5, 5⟩, ⟨100, 100, 100⟩]).2 _
      (Option.some_get _).symm).2 ⟨0, 0, 0⟩⟩

theorem OctreeNode.self_mem_allNodes (n : OctreeNode) :
    n ∈ OctreeNode.allNodes n := by
  cases n with
  | mk b0 b1 ps c0 c1 c2 c3 c4 c5 c6 c7 =>
    rw [OctreeNode.allNodes]
    exact List.mem_cons_self _ _

mutual

theorem OctreeNode.Balanced_allNodes :
    ∀ (n : OctreeNode), OctreeNode.Balanced n →
      ∀ m ∈ OctreeNode.allNodes n, OctreeNode.Balanced m
  | .mk b0 b1 ps c0 c1 c2 c3 c4 c5 c6 c7, hbal, m, hm => by
    rw [OctreeNode.allNodes] at hm
    rcases List.mem_cons.mp hm with hm | hm
    · subst hm; exact hbal
    · rw [OctreeNode.Balanced] at hbal
      obtain ⟨-, h0, h1, h2, h3, h4, h5, h6, h7⟩ := hbal
      simp only [List.mem_append] at hm
      rcases hm with hm | hm | hm | hm | hm | hm | hm | hm
      · exact OctreeNode.BalancedOpt_allNodes c0 h0 m hm
      · exact OctreeNode.BalancedOpt_allNodes c1 h1 m hm
      · exact OctreeNode.BalancedOpt_allNodes c2 h2 m hm
      · exact OctreeNode.BalancedOpt_allNodes c3 h3 m hm
      · exact OctreeNode.BalancedOpt_allNodes c4 h4 m hm
      · exact OctreeNode.BalancedOpt_allNodes c5 h5 m hm
      · exact OctreeNode.BalancedOpt_allNodes c6 h6 m hm
      · exact OctreeNode.BalancedOpt_allNodes c7 h7 m hm

theorem OctreeNode.BalancedOpt_allNodes :
    ∀ (c : Option OctreeNode), OctreeNode.BalancedOpt c →
      ∀ m ∈ OctreeNode.allNodesOpt c, OctreeNode.Balanced m
  | none, _, m, hm => by
    rw [OctreeNode.allNodesOpt] at hm
    exact absurd hm (List.not_mem_nil m)
  | some c, hbal, m, hm => by
    rw [OctreeNode.allNodesOpt] at hm
    exact OctreeNode.Balanced_allNodes c hbal m hm

end

theorem OctreeNode.isLeaf_iff_of_Balanced {m : OctreeNode}
    (hbal : OctreeNode.Balanced m) :
    m.isLeaf = true ↔ ∀ i < 8, m.child i = none := by
  cases m with
  | mk b0 b1 ps c0 c1 c2 c3 c4 c5 c6 c7 =>
    rw [OctreeNode.Balanced] at hbal
    constructor
    · intro hl
      rcases hbal.1 with hnone | hsome
      · obtain ⟨e0, e1, e2, e3, e4, e5, e6, e7⟩ := hnone
        subst e0; subst e1; subst e2; subst e3
        subst e4; subst e5; subst e6; subst e7
        intro i hi
        interval_cases i <;> rfl
      · exfalso
        have h0 : c0.isNone = true := hl
        rcases Option.isSome_iff_exists.mp hsome.1 with ⟨c, hc⟩
        rw [hc] at h0
        simp at h0
    · intro hall
      have h0 := hall 0 (by norm_num)
      have h0' : c0 = none := h0
      subst h0'
      rfl

/-- C6: on every node of a built classic tree, `isLeaf` (which inspects slot 0
only) is true iff all 8 child slots are empty; in the hashmap variant `isLeaf`
is true iff the children map is empty, on every state. -/
theorem claim_C6 (bmin bmax : Point) (fuel : Nat) (ps : List Point) :
    (∀ t, OctreeNode.build bmin bmax fuel ps = some t →
      ∀ m ∈ OctreeNode.allNodes t,
        (m.isLeaf = true ↔ ∀ i < 8, m.child i = none)) ∧
    ∀ n : OctreeHashMapNode, (n.isLeaf = true ↔ n.children = []) := by
  constructor
  · intro t ht m hm
    have hbal := (OctreeNode.build_master bmin bmax fuel ps t ht).2.2.1
    exact OctreeNode.isLeaf_iff_of_Balanced
      (OctreeNode.Balanced_allNodes t hbal m hm)
  · intro n
    cases n with
    | mk b0 b1 ps cs =>
      rw [OctreeHashMapNode.isLeaf, OctreeHashMapNode.children_mk]
      exact List.isEmpty_iff

/-- Witness for C6: the root of a concrete built classic tree that has
subdivided (so its slots are all live), and a concrete hashmap node. -/
theorem claim_C6_witness :
    (((OctreeNode.build ⟨-10, -10, -10⟩ ⟨10, 10, 10⟩ 6
        [⟨1, 1, 1⟩, ⟨-3, 2, -5⟩]).get (by decide)).isLeaf = true ↔
      ∀ i < 8, ((OctreeNode.build ⟨-10, -10, -10⟩ ⟨10, 10, 10⟩ 6
        [⟨1, 1, 1⟩, ⟨-3, 2, -5⟩]).get (by decide)).child i = none) ∧
    ((OctreeHashMapNode.leaf ⟨0, 0, 0⟩ ⟨1, 1, 1⟩).isLeaf = true ↔
      (OctreeHashMapNode.leaf ⟨0, 0, 0⟩ ⟨1, 1, 1⟩).children = []) :=
  ⟨(claim_C6 ⟨-10, -10, -10⟩ ⟨10, 10, 10⟩ 6 [⟨1, 1, 1⟩, ⟨-3, 2, -5⟩]).1 _
      (Option.some_get _).symm _ (OctreeNode.self_mem_allNodes _),
   (claim_C6 ⟨-10, -10, -10⟩ ⟨10, 10, 10⟩ 6 [⟨1, 1, 1⟩, ⟨-3, 2, -5⟩]).2 _⟩

theorem OctreeNode.deepestOpt_max (c : Option OctreeNode) (m acc d : ℤ) :
    OctreeNode.deepestOpt c (max m acc) d = max m (OctreeNode.deepestOpt c acc d) := by
  cases c with
  | none => rfl
  | some v =>
    rw [OctreeNode.deepestOpt, OctreeNode.deepestOpt, max_assoc]

mutual

theorem OctreeNode.getStatistics_char :
    ∀ (n : OctreeNode), OctreeNode.Balanced n → ∀ (t l p m d : ℤ),
      OctreeNode.getStatistics n (t, l, p, m) d =
        (t + OctreeNode.numNodes n, l + OctreeNode.numLeaves n,
         p + OctreeNode.numPts n, max m (OctreeNode.deepest n d))
  | .mk b0 b1 ps c0 c1 c2 c3 c4 c5 c6 c7, hbal, t, l, p, m, d => by
    rw [OctreeNode.Balanced] at hbal
    obtain ⟨hshape, h0, h1, h2, h3, h4, h5, h6, h7⟩ := hbal
    rw [OctreeNode.getStatistics, OctreeNode.numNodes, OctreeNode.numLeaves,
      OctreeNode.numPts, OctreeNode.deepest]
    by_cases hc0 : c0.isNone = true
    · rcases hshape with hnone | hsome
      · obtain ⟨e0, e1, e2, e3, e4, e5, e6, e7⟩ := hnone
        subst e0; subst e1; subst e2; subst e3
        subst e4; subst e5; subst e6; subst e7
        simp only [Option.isNone_none]
        rw [if_pos trivial, if_pos trivial, if_pos trivial]
        simp only [OctreeNode.numNodesOpt, OctreeNode.numPtsOpt]
        refine congrArg₂ _ (by ring) (congrArg₂ _ rfl (congrArg₂ _ (by ring) rfl))
      · exfalso
        rcases Option.isSome_iff_exists.mp hsome.1 with ⟨v, hv⟩
        rw [hv] at hc0
        simp at hc0
    · have hc0' : c0.isNone = false := by
        cases hh : c0.isNone with
        | false => rfl
        | true => exact absurd hh hc0
      rw [if_neg (by simp [hc0']), if_neg (by simp [hc0']),
        if_neg (by simp [hc0'])]
      dsimp only
      rw [OctreeNode.statOpt_char c0 h0, OctreeNode.statOpt_char c1 h1,
        OctreeNode.statOpt_char c2 h2, OctreeNode.statOpt_char c3 h3,
        OctreeNode.statOpt_char c4 h4, OctreeNode.statOpt_char c5 h5,
        OctreeNode.statOpt_char c6 h6, OctreeNode.statOpt_char c7 h7]
      refine congrArg₂ _ (by ring) (congrArg₂ _ (by ring) (congrArg₂ _ (by ring) ?_))
      simp only [OctreeNode.deepestOpt_max]

theorem OctreeNode.statOpt_char :
    ∀ (c : Option OctreeNode), OctreeNode.BalancedOpt c → ∀ (t l p m d : ℤ),
      OctreeNode.statOpt c (t, l, p, m) d =
        (t + OctreeNode.numNodesOpt c, l + OctreeNode.numLeavesOpt c,
         p + OctreeNode.numPtsOpt c, OctreeNode.deepestOpt c m d)
  | none, _, t, l, p, m, d => by
    rw [OctreeNode.statOpt, OctreeNode.numNodesOpt, OctreeNode.numLeavesOpt,
      OctreeNode.numPtsOpt, OctreeNode.deepestOpt]
    simp
  | some c, hbal, t, l, p, m, d => by
    rw [OctreeNode.statOpt, OctreeNode.numNodesOpt, OctreeNode.numLeavesOpt,
      OctreeNode.numPtsOpt, OctreeNode.deepestOpt]
    exact OctreeNode.getStatistics_char c hbal t l p m d

end

theorem OctreeHashMapNode.deepestC_max :
    ∀ (cs : List (Nat × OctreeHashMapNode)) (m acc d : ℤ),
      OctreeHashMapNode.deepestC cs (max m acc) d =
        max m (OctreeHashMapNode.deepestC cs acc d)
  | [], _, _, _ => rfl
  | (k, c) :: rest, m, acc, d => by
    rw [OctreeHashMapNode.deepestC, OctreeHashMapNode.deepestC, max_assoc]
    exact OctreeHashMapNode.deepestC_max rest m _ d

mutual

theorem OctreeHashMapNode.getStatistics_charH :
    ∀ (n : OctreeHashMapNode) (t l p m d : ℤ),
      OctreeHashMapNode.getStatistics n (t, l, p, m) d =
        (t + OctreeHashMapNode.numNodes n, l + OctreeHashMapNode.numLeaves n,
         p + OctreeHashMapNode.numPts n, max m (OctreeHashMapNode.deepest n d))
  | .mk b0 b1 ps cs, t, l, p, m, d => by
    rw [OctreeHashMapNode.getStatistics, OctreeHashMapNode.numNodes,
      OctreeHashMapNode.numLeaves, OctreeHashMapNode.numPts,
      OctreeHashMapNode.deepest]
    cases cs with
    | nil =>
      simp only [List.isEmpty_nil]
      rw [if_pos trivial, if_pos trivial, if_pos trivial]
      rw [OctreeHashMapNode.numNodesC]
      refine congrArg₂ _ (by ring) (congrArg₂ _ rfl ?_)
      rw [OctreeHashMapNode.numPtsC]
      exact congrArg₂ _ (by ring) rfl
    | cons e rest =>
      simp only [List.isEmpty_cons]
      rw [if_neg (by simp), if_neg (by simp), if_neg (by simp)]
      try dsimp only
      rw [OctreeHashMapNode.statChildren_char (e :: rest)
        (t + 1) l (p + ps.length) (max m d) (d + 1)]
      refine congrArg₂ _ (by ring) (congrArg₂ _ rfl (congrArg₂ _ (by ring) ?_))
      rw [OctreeHashMapNode.deepestC_max]

theorem OctreeHashMapNode.statChildren_char :
    ∀ (cs : List (Nat × OctreeHashMapNode)) (t l p m d : ℤ),
      OctreeHashMapNode.statChildren cs (t, l, p, m) d =
        (t + OctreeHashMapNode.numNodesC cs, l + OctreeHashMapNode.numLeavesC cs,
         p + OctreeHashMapNode.numPtsC cs, OctreeHashMapNode.deepestC cs m d)
  | [], t, l, p, m, d => by
    rw [OctreeHashMapNode.statChildren, OctreeHashMapNode.numNodesC,
      OctreeHashMapNode.numLeavesC, OctreeHashMapNode.numPtsC,
      OctreeHashMapNode.deepestC]
    simp
  | (k, c) :: rest, t, l, p, m, d => by
    rw [OctreeHashMapNode.statChildren,
      OctreeHashMapNode.getStatistics_charH c t l p m d,
      OctreeHashMapNode.statChildren_char rest _ _ _ _ d,
      OctreeHashMapNode.numNodesC, OctreeHashMapNode.numLeavesC,
      OctreeHashMapNode.numPtsC, OctreeHashMapNode.deepestC]
    exact congrArg₂ _ (by ring) (congrArg₂ _ (by ring) (congrArg₂ _ (by ring) rfl))

end

/-- C10: `getStatistics` accumulates into its four caller-supplied in-out
counters without resetting them: starting from `(t0, l0, p0, d0)` at depth
`dep`, it ends at `t0 + nodes`, `l0 + leaves`, `p0 + buffered points` and
`max d0 (deepest depth)` — on every built classic tree and on every hashmap
node; the documented statistics are obtained exactly when all four start at
zero. -/
theorem claim_C10 (t0 l0 p0 d0 dep : ℤ) (bmin bmax : Point) (fuel : Nat)
    (ps : List Point) :
    (∀ t, OctreeNode.build bmin bmax fuel ps = some t →
      OctreeNode.getStatistics t (t0, l0, p0, d0) dep =
        (t0 + OctreeNode.numNodes t, l0 + OctreeNode.numLeaves t,
         p0 + OctreeNode.numPts t, max d0 (OctreeNode.deepest t dep))) ∧
    (∀ n : OctreeHashMapNode,
      OctreeHashMapNode.getStatistics n (t0, l0, p0, d0) dep =
        (t0 + OctreeHashMapNode.numNodes n, l0 + OctreeHashMapNode.numLeaves n,
         p0 + OctreeHashMapNode.numPts n,
         max d0 (OctreeHashMapNode.deepest n dep))) := by
  constructor
  · intro t ht
    exact OctreeNode.getStatistics_char t
      (OctreeNode.build_master bmin bmax fuel ps t ht).2.2.1 t0 l0 p0 d0 dep
  · intro n
    exact OctreeHashMapNode.getStatistics_charH n t0 l0 p0 d0 dep

/-- Witness for C10: nonzero initial counters `(5, 7, 11, 2)` and start
depth 3 on a concrete built classic tree and on a concrete hashmap node. -/
theorem claim_C10_witness :
    OctreeNode.getStatistics
      ((OctreeNode.build ⟨-10, -10, -10⟩ ⟨10, 10, 10⟩ 6
        [⟨1, 1, 1⟩, ⟨-3, 2, -5⟩]).get (by decide)) (5, 7, 11, 2) 3 =
      (5 + OctreeNode.numNodes ((OctreeNode.build ⟨-10, -10, -10⟩ ⟨10, 10, 10⟩ 6
          [⟨1, 1, 1⟩, ⟨-3, 2, -5⟩]).get (by decide)),
       7 + OctreeNode.numLeaves ((OctreeNode.build ⟨-10, -10, -10⟩ ⟨10, 10, 10⟩ 6
          [⟨1, 1, 1⟩, ⟨-3, 2, -5⟩]).get (by decide)),
       11 + OctreeNode.numPts ((OctreeNode.build ⟨-10, -10, -10⟩ ⟨10, 10, 10⟩ 6
          [⟨1, 1, 1⟩, ⟨-3, 2, -5⟩]).get (by decide)),
       max 2 (OctreeNode.deepest ((OctreeNode.build ⟨-10, -10, -10⟩
          ⟨10, 10, 10⟩ 6 [⟨1, 1, 1⟩, ⟨-3, 2, -5⟩]).get (by decide)) 3)) ∧
    OctreeHashMapNode.getStatistics
      (OctreeHashMapNode.leaf ⟨0, 0, 0⟩ ⟨1, 1, 1⟩) (5, 7, 11, 2) 3 =
      (5 + OctreeHashMapNode.numNodes (OctreeHashMapNode.leaf ⟨0, 0, 0⟩ ⟨1, 1, 1⟩),
       7 + OctreeHashMapNode.numLeaves (OctreeHashMapNode.leaf ⟨0, 0, 0⟩ ⟨1, 1, 1⟩),
       11 + OctreeHashMapNode.numPts (OctreeHashMapNode.leaf ⟨0, 0, 0⟩ ⟨1, 1, 1⟩),
       max 2 (OctreeHashMapNode.deepest
         (OctreeHashMapNode.leaf ⟨0, 0, 0⟩ ⟨1, 1, 1⟩) 3)) :=
  ⟨(claim_C10 5 7 11 2 3 ⟨-10, -10, -10⟩ ⟨10, 10, 10⟩ 6
      [⟨1, 1, 1⟩, ⟨-3, 2, -5⟩]).1 _ (Option.some_get _).symm,
   (claim_C10 5 7 11 2 3 ⟨-10, -10, -10⟩ ⟨10, 10, 10⟩ 6
      [⟨1, 1, 1⟩, ⟨-3, 2, -5⟩]).2 _⟩

theorem OctreeRel_leaf (a b : Point) :
    OctreeRel (OctreeNode.leaf a b) (OctreeHashMapNode.leaf a b) := by
  rw [OctreeNode.leaf, OctreeHashMapNode.leaf, OctreeRel]
  exact ⟨rfl, rfl, rfl,
    Or.inl ⟨rfl, rfl, rfl, rfl, rfl, rfl, rfl, rfl, rfl⟩⟩

theorem OctreeHashMapNode.findChild_storeChild_same :
    ∀ (cs : List (Nat × OctreeHashMapNode)) (o : Nat) (c : OctreeHashMapNode),
      OctreeHashMapNode.findChild (OctreeHashMapNode.storeChild cs o c) o =
        some c
  | [], o, c => by simp [OctreeHashMapNode.storeChild, OctreeHashMapNode.findChild]
  | (k, x) :: rest, o, c => by
    by_cases hk : k = o
    · subst hk
      simp [OctreeHashMapNode.storeChild, OctreeHashMapNode.findChild]
    · rw [OctreeHashMapNode.storeChild, if_neg hk, OctreeHashMapNode.findChild,
        if_neg hk]
      exact OctreeHashMapNode.findChild_storeChild_same rest o c

theorem OctreeHashMapNode.findChild_storeChild_ne :
    ∀ (cs : List (Nat × OctreeHashMapNode)) (o i : Nat) (c : OctreeHashMapNode),
      i ≠ o →
      OctreeHashMapNode.findChild (OctreeHashMapNode.storeChild cs o c) i =
        OctreeHashMapNode.findChild cs i
  | [], o, i, c, hio => by
    rw [OctreeHashMapNode.storeChild, OctreeHashMapNode.findChild,
      OctreeHashMapNode.findChild, if_neg (fun h => hio h.symm),
      OctreeHashMapNode.findChild]
  | (k, x) :: rest, o, i, c, hio => by
    by_cases hk : k = o
    · subst hk
      rw [OctreeHashMapNode.storeChild, if_pos rfl, OctreeHashMapNode.findChild,
        if_neg (fun h => hio h.symm), OctreeHashMapNode.findChild,
        if_neg (fun h => hio h.symm)]
    · rw [OctreeHashMapNode.storeChild, if_neg hk, OctreeHashMapNode.findChild,
        OctreeHashMapNode.findChild]
      by_cases hki : k = i
      · rw [if_pos hki, if_pos hki]
      · rw [if_neg hki, if_neg hki]
        exact OctreeHashMapNode.findChild_storeChild_ne rest o i c hio

theorem OctreeHashMapNode.mem_keys_storeChild :
    ∀ (cs : List (Nat × OctreeHashMapNode)) (o i : Nat) (c : OctreeHashMapNode),
      i ∈ (OctreeHashMapNode.storeChild cs o c).map Prod.fst →
      i ∈ cs.map Prod.fst ∨ i = o
  | [], o, i, c, h => by
    rw [OctreeHashMapNode.storeChild, List.map_cons, List.map_nil,
      List.mem_singleton] at h
    exact Or.inr h
  | (k, x) :: rest, o, i, c, h => by
    rw [OctreeHashMapNode.storeChild] at h
    by_cases hk : k = o
    · rw [if_pos hk, List.map_cons, List.mem_cons] at h
      rcases h with h | h
      · exact Or.inr h
      · exact Or.inl (by rw [List.map_cons, List.mem_cons]; exact Or.inr h)
    · rw [if_neg hk, List.map_cons, List.mem_cons] at h
      rcases h with h | h
      · exact Or.inl (by rw [List.map_cons, List.mem_cons]; exact Or.inl h)
      · rcases OctreeHashMapNode.mem_keys_storeChild rest o i c h with h2 | h2
        · exact Or.inl (by rw [List.map_cons, List.mem_cons]; exact Or.inr h2)
        · exact Or.inr h2

theorem OctreeHashMapNode.keys_storeChild_lt
    {cs : List (Nat × OctreeHashMapNode)} {o : Nat} {c : OctreeHashMapNode}
    (hcs : ∀ k ∈ cs.map Prod.fst, k < 8) (ho : o < 8) :
    ∀ k ∈ (OctreeHashMapNode.storeChild cs o c).map Prod.fst, k < 8 := by
  intro k hk
  rcases OctreeHashMapNode.mem_keys_storeChild cs o k c hk with h | h
  · exact hcs k h
  · rw [h]; exact ho

theorem OctreeHashMapNode.keys_storeChild_nodup :
    ∀ (cs : List (Nat × OctreeHashMapNode)) (o : Nat) (c : OctreeHashMapNode),
      (cs.map Prod.fst).Nodup →
      ((OctreeHashMapNode.storeChild cs o c).map Prod.fst).Nodup
  | [], o, c, _ => by rw [OctreeHashMapNode.storeChild]; simp
  | (k, x) :: rest, o, c, hnd => by
    rw [List.map_cons, List.nodup_cons] at hnd
    rw [OctreeHashMapNode.storeChild]
    by_cases hk : k = o
    · subst hk
      rw [if_pos rfl, List.map_cons, List.nodup_cons]
      exact hnd
    · rw [if_neg hk, List.map_cons, List.nodup_cons]
      refine ⟨fun hmem => ?_,
        OctreeHashMapNode.keys_storeChild_nodup rest o c hnd.2⟩
      rcases OctreeHashMapNode.mem_keys_storeChild rest o k c hmem with h | h
      · exact hnd.1 h
      · exact hk h

@[simp] theorem octFilter_nil (b0 b1 : Point) (i : Nat) :
    octFilter b0 b1 i [] = [] := rfl

theorem octFilter_cons_pos {b0 b1 : Point} {i : Nat} {p : Point}
    (ps : List Point) (h : OctreeNode.getOctant b0 b1 p = i) :
    octFilter b0 b1 i (p :: ps) = p :: octFilter b0 b1 i ps := by
  rw [octFilter, List.filter_cons_of_pos (by simpa using h)]
  rfl

theorem octFilter_cons_neg {b0 b1 : Point} {i : Nat} {p : Point}
    (ps : List Point) (h : OctreeNode.getOctant b0 b1 p ≠ i) :
    octFilter b0 b1 i (p :: ps) = octFilter b0 b1 i ps := by
  rw [octFilter, List.filter_cons_of_neg (by simpa using h)]
  rfl

theorem OctreeHashMapNode.addToGroup_find_same :
    ∀ (acc : List (Nat × List Point)) (o : Nat) (p : Point),
      OctreeHashMapNode.groupFind (OctreeHashMapNode.addToGroup acc o p) o =
        some ((OctreeHashMapNode.groupFind acc o).getD [] ++ [p])
  | [], o, p => by
    simp [OctreeHashMapNode.addToGroup, OctreeHashMapNode.groupFind]
  | (k, l) :: rest, o, p => by
    rw [OctreeHashMapNode.addToGroup]
    by_cases h1 : k = o
    · subst h1
      rw [if_pos rfl, OctreeHashMapNode.groupFind, if_pos rfl,
        OctreeHashMapNode.groupFind, if_pos rfl]
      rfl
    · rw [if_neg h1, OctreeHashMapNode.groupFind, if_neg h1,
        OctreeHashMapNode.groupFind, if_neg h1]
      exact OctreeHashMapNode.addToGroup_find_same rest o p

theorem OctreeHashMapNode.addToGroup_find_ne :
    ∀ (acc : List (Nat × List Point)) (o k : Nat) (p : Point), k ≠ o →
      OctreeHashMapNode.groupFind (OctreeHashMapNode.addToGroup acc o p) k =
        OctreeHashMapNode.groupFind acc k
  | [], o, k, p, hk => by
    rw [OctreeHashMapNode.addToGroup, OctreeHashMapNode.groupFind,
      OctreeHashMapNode.groupFind, if_neg (fun h => hk h.symm),
      OctreeHashMapNode.groupFind]
  | (k', l) :: rest, o, k, p, hk => by
    rw [OctreeHashMapNode.addToGroup]
    by_cases h1 : k' = o
    · subst h1
      rw [if_pos rfl, OctreeHashMapNode.groupFind, OctreeHashMapNode.groupFind,
        if_neg (fun h => hk h.symm), if_neg (fun h => hk h.symm)]
    · rw [if_neg h1, OctreeHashMapNode.groupFind, OctreeHashMapNode.groupFind]
      by_cases h2 : k' = k
      · rw [if_pos h2, if_pos h2]
      · rw [if_neg h2, if_neg h2]
        exact OctreeHashMapNode.addToGroup_find_ne rest o k p hk

theorem OctreeHashMapNode.groupByOctant_find (b0 b1 : Point) :
    ∀ (ps : List Point) (acc : List (Nat × List Point)) (k : Nat),
      OctreeHashMapNode.groupFind
        (OctreeHashMapNode.groupByOctant b0 b1 ps acc) k =
        match OctreeHashMapNode.groupFind acc k with
        | none =>
          if octFilter b0 b1 k ps = [] then none
          else some (octFilter b0 b1 k ps)
        | some g => some (g ++ octFilter b0 b1 k ps) := by
  intro ps
  induction ps with
  | nil =>
    intro acc k
    rw [OctreeHashMapNode.groupByOctant]
    cases hacc : OctreeHashMapNode.groupFind acc k with
    | none => simp
    | some g => simp
  | cons p ps ih =>
    intro acc k
    rw [OctreeHashMapNode.groupByOctant, hm_getOctant_eq,
      ih (OctreeHashMapNode.addToGroup acc (OctreeNode.getOctant b0 b1 p) p) k]
    by_cases hko : OctreeNode.getOctant b0 b1 p = k
    · rw [octFilter_cons_pos ps hko, hko,
        OctreeHashMapNode.addToGroup_find_same acc k p]
      cases hacc : OctreeHashMapNode.groupFind acc k with
      | none =>
        dsimp only
        rw [if_neg (by simp)]
        simp
      | some g =>
        dsimp only
        simp
    · rw [OctreeHashMapNode.addToGroup_find_ne acc _ k p
        (fun h => hko h.symm), octFilter_cons_neg ps hko]

theorem OctreeHashMapNode.groupFind_some_mem :
    ∀ {cs : List (Nat × List Point)} {k : Nat} {l : List Point},
      OctreeHashMapNode.groupFind cs k = some l → k ∈ cs.map Prod.fst
  | [], _, _, h => Option.noConfusion h
  | (k', l') :: rest, k, l, h => by
    rw [OctreeHashMapNode.groupFind] at h
    by_cases hk : k' = k
    · rw [List.map_cons, List.mem_cons]
      exact Or.inl hk.symm
    · rw [if_neg hk] at h
      rw [List.map_cons, List.mem_cons]
      exact Or.inr (OctreeHashMapNode.groupFind_some_mem h)

theorem OctreeHashMapNode.mem_keys_addToGroup :
    ∀ (acc : List (Nat × List Point)) (o i : Nat) (p : Point),
      i ∈ (OctreeHashMapNode.addToGroup acc o p).map Prod.fst →
      i ∈ acc.map Prod.fst ∨ i = o
  | [], o, i, p => by
    intro h
    rw [OctreeHashMapNode.addToGroup, List.map_cons, List.map_nil,
      List.mem_singleton] at h
    exact Or.inr h
  | (k, l) :: rest, o, i, p => by
    intro h
    rw [OctreeHashMapNode.addToGroup] at h
    by_cases hk : k = o
    · rw [if_pos hk, List.map_cons, List.mem_cons] at h
      rcases h with h | h
      · exact Or.inl (by rw [List.map_cons, List.mem_cons]; exact Or.inl h)
      · exact Or.inl (by rw [List.map_cons, List.mem_cons]; exact Or.inr h)
    · rw [if_neg hk, List.map_cons, List.mem_cons] at h
      rcases h with h | h
      · exact Or.inl (by rw [List.map_cons, List.mem_cons]; exact Or.inl h)
      · rcases OctreeHashMapNode.mem_keys_addToGroup rest o i p h with h2 | h2
        · exact Or.inl (by rw [List.map_cons, List.mem_cons]; exact Or.inr h2)
        · exact Or.inr h2

theorem OctreeHashMapNode.keys_addToGroup_nodup :
    ∀ (acc : List (Nat × List Point)) (o : Nat) (p : Point),
      (acc.map Prod.fst).Nodup →
      ((OctreeHashMapNode.addToGroup acc o p).map Prod.fst).Nodup
  | [], o, p, _ => by rw [OctreeHashMapNode.addToGroup]; simp
  | (k, l) :: rest, o, p, hnd => by
    rw [List.map_cons, List.nodup_cons] at hnd
    rw [OctreeHashMapNode.addToGroup]
    by_cases hk : k = o
    · rw [if_pos hk, List.map_cons, List.nodup_cons]
      exact hnd
    · rw [if_neg hk, List.map_cons, List.nodup_cons]
      refine ⟨fun hmem => ?_,
        OctreeHashMapNode.keys_addToGroup_nodup rest o p hnd.2⟩
      rcases OctreeHashMapNode.mem_keys_addToGroup rest o k p hmem with h | h
      · exact hnd.1 h
      · exact hk h

theorem OctreeHashMapNode.groupByOctant_keys_lt (b0 b1 : Point) :
    ∀ (ps : List Point) (acc : List (Nat × List Point)),
      (∀ k ∈ acc.map Prod.fst, k < 8) →
      ∀ k ∈ (OctreeHashMapNode.groupByOctant b0 b1 ps acc).map Prod.fst,
        k < 8 := by
  intro ps
  induction ps with
  | nil => intro acc h; exact h
  | cons p ps ih =>
    intro acc h
    rw [OctreeHashMapNode.groupByOctant]
    refine ih _ ?_
    intro k hk
    rcases OctreeHashMapNode.mem_keys_addToGroup acc _ k p hk with h2 | h2
    · exact h k h2
    · rw [h2, hm_getOctant_eq]
      exact OctreeNode.getOctant_lt8 b0 b1 p

theorem OctreeHashMapNode.groupByOctant_keys_nodup (b0 b1 : Point) :
    ∀ (ps : List Point) (acc : List (Nat × List Point)),
      (acc.map Prod.fst).Nodup →
      ((OctreeHashMapNode.groupByOctant b0 b1 ps acc).map Prod.fst).Nodup := by
  intro ps
  induction ps with
  | nil => intro acc h; exact h
  | cons p ps ih =>
    intro acc h
    rw [OctreeHashMapNode.groupByOctant]
    exact ih _ (OctreeHashMapNode.keys_addToGroup_nodup acc _ p h)

theorem OctreeHashMapNode.groupByOctant_ne_nil (b0 b1 : Point)
    (ps : List Point) (acc : List (Nat × List Point)) (hps : ps ≠ []) :
    OctreeHashMapNode.groupByOctant b0 b1 ps acc ≠ [] := by
  intro h
  have hms := OctreeHashMapNode.groupByOctant_flat_ms b0 b1 ps acc
  rw [h] at hms
  simp only [OctreeHashMapNode.groupFlat_nil, Multiset.coe_nil] at hms
  have : (↑ps : Multiset Point) = 0 := by
    have h2 := hms.symm
    rw [add_eq_zero_iff_of_nonneg (Multiset.zero_le _) (Multiset.zero_le _)] at h2
    exact h2.1
  rw [Multiset.coe_eq_zero] at this
  exact hps this

theorem OctreeNode.reinsertWith_slots (ins : OctreeNode → Point → Option OctreeNode) :
    ∀ (ps : List Point) (m : OctreeNode), m.isLeaf = false →
      (OctreeNode.reinsertWith ins ps m = none →
        ∃ i, i < 8 ∧ OctreeNode.chainOpt ins (m.child i)
          (octFilter m.bmin m.bmax i ps) = none) ∧
      (∀ m', OctreeNode.reinsertWith ins ps m = some m' →
        m'.bmin = m.bmin ∧ m'.bmax = m.bmax ∧ m'.pts = m.pts ∧
        m'.isLeaf = false ∧
        ∀ i, i < 8 → OctreeNode.chainOpt ins (m.child i)
          (octFilter m.bmin m.bmax i ps) = some (m'.child i)) := by
  intro ps
  induction ps with
  | nil =>
    intro m hl
    constructor
    · intro h
      rw [OctreeNode.reinsertWith] at h
      exact Option.noConfusion h
    · intro m' h
      rw [OctreeNode.reinsertWith] at h
      injection h with h
      subst h
      refine ⟨rfl, rfl, rfl, hl, ?_⟩
      intro i hi
      rw [octFilter_nil]
      cases hc : m.child i with
      | none => rw [OctreeNode.chainOpt]
      | some c => rw [OctreeNode.chainOpt, OctreeNode.insertManyWith]; rfl
  | cons p rest ih =>
    intro m hl
    rw [OctreeNode.reinsertWith]
    try dsimp only
    cases hc : m.child (OctreeNode.getOctant m.bmin m.bmax p) with
    | none =>
      try dsimp only
      constructor
      · intro _
        refine ⟨OctreeNode.getOctant m.bmin m.bmax p,
          OctreeNode.getOctant_lt8 _ _ _, ?_⟩
        rw [hc, octFilter_cons_pos rest rfl, OctreeNode.chainOpt]
      · intro m' h
        exact Option.noConfusion h
    | some c =>
      try dsimp only
      cases hins : ins c p with
      | none =>
        try dsimp only
        constructor
        · intro _
          refine ⟨OctreeNode.getOctant m.bmin m.bmax p,
            OctreeNode.getOctant_lt8 _ _ _, ?_⟩
          rw [hc, octFilter_cons_pos rest rfl, OctreeNode.chainOpt,
            OctreeNode.insertManyWith, hins]
          rfl
        · intro m' h
          exact Option.noConfusion h
      | some c' =>
        try dsimp only
        have hl2 : (m.setChild (OctreeNode.getOctant m.bmin m.bmax p) c').isLeaf
            = false := OctreeNode.isLeaf_setChild m _ c' hl
        obtain ⟨ihn, ihs⟩ :=
          ih (m.setChild (OctreeNode.getOctant m.bmin m.bmax p) c') hl2
        have hadapt : ∀ i, i < 8 →
            OctreeNode.chainOpt ins
              ((m.setChild (OctreeNode.getOctant m.bmin m.bmax p) c').child i)
              (octFilter
                (m.setChild (OctreeNode.getOctant m.bmin m.bmax p) c').bmin
                (m.setChild (OctreeNode.getOctant m.bmin m.bmax p) c').bmax
                i rest) =
            OctreeNode.chainOpt ins
              (if i = OctreeNode.getOctant m.bmin m.bmax p then some c'
               else m.child i) (octFilter m.bmin m.bmax i rest) := by
          intro i hi8
          simp only [OctreeNode.setChild_bmin, OctreeNode.setChild_bmax]
          by_cases hio : i = OctreeNode.getOctant m.bmin m.bmax p
          · rw [if_pos hio]
            subst hio
            rw [OctreeNode.child_setChild_same m _ c' hi8]
          · rw [if_neg hio,
              OctreeNode.child_setChild_ne m _ i c' (fun h2 => hio h2.symm)]
        constructor
        · intro h
          obtain ⟨i, hi8, hchain⟩ := ihn h
          rw [hadapt i hi8] at hchain
          refine ⟨i, hi8, ?_⟩
          by_cases hio : i = OctreeNode.getOctant m.bmin m.bmax p
          · rw [if_pos hio] at hchain
            subst hio
            rw [hc, octFilter_cons_pos rest rfl, OctreeNode.chainOpt,
              OctreeNode.insertManyWith, hins]
            rw [OctreeNode.chainOpt] at hchain
            try dsimp only
            exact hchain
          · rw [if_neg hio] at hchain
            rw [octFilter_cons_neg rest (fun h2 => hio h2.symm)]
            exact hchain
        · intro m' h
          obtain ⟨e0, e1, e2, e3, hslots⟩ := ihs m' h
          simp only [OctreeNode.setChild_bmin, OctreeNode.setChild_bmax,
            OctreeNode.setChild_pts] at e0 e1 e2
          refine ⟨e0, e1, e2, e3, ?_⟩
          intro i hi8
          have hchain := hslots i hi8
          rw [hadapt i hi8] at hchain
          by_cases hio : i = OctreeNode.getOctant m.bmin m.bmax p
          · rw [if_pos hio] at hchain
            subst hio
            rw [hc, octFilter_cons_pos rest rfl, OctreeNode.chainOpt,
              OctreeNode.insertManyWith, hins]
            rw [OctreeNode.chainOpt] at hchain
            try dsimp only
            exact hchain
          · rw [if_neg hio] at hchain
            rw [octFilter_cons_neg rest (fun h2 => hio h2.symm)]
            exact hchain

theorem OctreeHashMapNode.subdivideGroups_char
    (ins : OctreeHashMapNode → Point → Option OctreeHashMapNode) (b0 b1 : Point) :
    ∀ (groups : List (Nat × List Point)), (groups.map Prod.fst).Nodup →
      (match OctreeHashMapNode.subdivideGroupsWith ins b0 b1 groups with
       | some cs =>
         cs.map Prod.fst = groups.map Prod.fst ∧
         ∀ k,
           (OctreeHashMapNode.groupFind groups k = none →
             OctreeHashMapNode.findChild cs k = none) ∧
           ∀ l, OctreeHashMapNode.groupFind groups k = some l →
             ∃ c, OctreeHashMapNode.insertManyWith ins
                 (OctreeHashMapNode.leaf
                   (OctreeHashMapNode.calculateChildBounds b0 b1 k).1
                   (OctreeHashMapNode.calculateChildBounds b0 b1 k).2) l =
                   some c ∧
               OctreeHashMapNode.findChild cs k = some c
       | none =>
         ∃ k l, OctreeHashMapNode.groupFind groups k = some l ∧
           OctreeHashMapNode.insertManyWith ins
             (OctreeHashMapNode.leaf
               (OctreeHashMapNode.calculateChildBounds b0 b1 k).1
               (OctreeHashMapNode.calculateChildBounds b0 b1 k).2) l = none) := by
  intro groups
  induction groups with
  | nil =>
    intro _
    rw [OctreeHashMapNode.subdivideGroupsWith]
    refine ⟨rfl, ?_⟩
    intro k
    exact ⟨fun _ => rfl, fun l hl => Option.noConfusion hl⟩
  | cons e rest ih =>
    obtain ⟨o, plist⟩ := e
    intro hnd
    rw [List.map_cons, List.nodup_cons] at hnd
    rw [OctreeHashMapNode.subdivideGroupsWith]
    try dsimp only
    cases hchain : OctreeHashMapNode.insertManyWith ins
        (OctreeHashMapNode.leaf
          (OctreeHashMapNode.calculateChildBounds b0 b1 o).1
          (OctreeHashMapNode.calculateChildBounds b0 b1 o).2) plist with
    | none =>
      try dsimp only
      exact ⟨o, plist, by rw [OctreeHashMapNode.groupFind, if_pos rfl], hchain⟩
    | some c =>
      try dsimp only
      have ihh := ih hnd.2
      cases hrest : OctreeHashMapNode.subdivideGroupsWith ins b0 b1 rest with
      | none =>
        rw [hrest] at ihh
        try dsimp only at ihh ⊢
        obtain ⟨k, l, hfind, hfail⟩ := ihh
        refine ⟨k, l, ?_, hfail⟩
        have hk : k ≠ o := by
          intro hko
          subst hko
          exact hnd.1 (OctreeHashMapNode.groupFind_some_mem hfind)
        rw [OctreeHashMapNode.groupFind, if_neg (fun h => hk h.symm)]
        exact hfind
      | some cs' =>
        rw [hrest] at ihh
        try dsimp only at ihh ⊢
        obtain ⟨hkeys, hlook⟩ := ihh
        refine ⟨by rw [List.map_cons, List.map_cons, hkeys], ?_⟩
        intro k
        by_cases hko : k = o
        · subst hko
          constructor
          · intro hnone
            rw [OctreeHashMapNode.groupFind, if_pos rfl] at hnone
            exact Option.noConfusion hnone
          · intro l hl
            rw [OctreeHashMapNode.groupFind, if_pos rfl] at hl
            injection hl with hl
            subst hl
            exact ⟨c, hchain, by rw [OctreeHashMapNode.findChild, if_pos rfl]⟩
        · constructor
          · intro hnone
            rw [OctreeHashMapNode.groupFind,
              if_neg (fun h => hko h.symm)] at hnone
            rw [OctreeHashMapNode.findChild, if_neg (fun h => hko h.symm)]
            exact (hlook k).1 hnone
          · intro l hl
            rw [OctreeHashMapNode.groupFind,
              if_neg (fun h => hko h.symm)] at hl
            obtain ⟨c2, hc2, hfc2⟩ := (hlook k).2 l hl
            refine ⟨c2, hc2, ?_⟩
            rw [OctreeHashMapNode.findChild, if_neg (fun h => hko h.symm)]
            exact hfc2

theorem OctreeNode.child_subdivNode (b0 b1 : Point) (i : Nat) (h : i < 8) :
    (OctreeNode.subdivNode b0 b1).child i =
      some (OctreeNode.leaf (OctreeNode.calculateChildBounds b0 b1 i).1
        (OctreeNode.calculateChildBounds b0 b1 i).2) :=
  OctreeNode.child_subdiv b0 b1 [] i h

theorem OctreeOptRel_insertMany
    (insC : OctreeNode → Point → Option OctreeNode)
    (insH : OctreeHashMapNode → Point → Option OctreeHashMapNode)
    (hrel : ∀ (c : OctreeNode) (hc : OctreeHashMapNode) (q : Point),
      OctreeRel c hc → OctreeOptRel (insC c q) (insH hc q)) :
    ∀ (qs : List Point) (c : OctreeNode) (hc : OctreeHashMapNode),
      OctreeRel c hc →
      OctreeOptRel (OctreeNode.insertManyWith insC c qs)
        (OctreeHashMapNode.insertManyWith insH hc qs) := by
  intro qs
  induction qs with
  | nil =>
    intro c hc h
    rw [OctreeNode.insertManyWith, OctreeHashMapNode.insertManyWith,
      OctreeOptRel]
    exact h
  | cons q qs ih =>
    intro c hc h
    rw [OctreeNode.insertManyWith, OctreeHashMapNode.insertManyWith]
    have hstep := hrel c hc q h
    cases h1 : insC c q with
    | none =>
      cases h2 : insH hc q with
      | none =>
        try dsimp only
        rw [OctreeOptRel]
        trivial
      | some hc' =>
        rw [h1, h2, OctreeOptRel] at hstep
        exact hstep.elim
    | some c' =>
      cases h2 : insH hc q with
      | none =>
        rw [h1, h2, OctreeOptRel] at hstep
        exact hstep.elim
      | some hc' =>
        rw [h1, h2, OctreeOptRel] at hstep
        try dsimp only
        exact ih c' hc' hstep

theorem OctreeOptRel_subdivide
    (insC : OctreeNode → Point → Option OctreeNode)
    (insH : OctreeHashMapNode → Point → Option OctreeHashMapNode)
    (hrel : ∀ (c : OctreeNode) (hc : OctreeHashMapNode) (q : Point),
      OctreeRel c hc → OctreeOptRel (insC c q) (insH hc q))
    (b0 b1 : Point) (qs : List Point) (hqs : qs ≠ []) :
    OctreeOptRel
      (OctreeNode.subdivideWith insC (OctreeNode.mk b0 b1 qs
        none none none none none none none none))
      (OctreeHashMapNode.subdivideWith insH
        (OctreeHashMapNode.mk b0 b1 qs [])) := by
  rw [OctreeNode.subdivideWith_eq]
  simp only [OctreeNode.pts_mk, OctreeNode.bmin_mk, OctreeNode.bmax_mk]
  rw [OctreeHashMapNode.subdivideWith]
  simp only [OctreeHashMapNode.bmin_mkH, OctreeHashMapNode.bmax_mkH,
    OctreeHashMapNode.pts_mkH]
  have hnd : ((OctreeHashMapNode.groupByOctant b0 b1 qs []).map Prod.fst).Nodup :=
    OctreeHashMapNode.groupByOctant_keys_nodup b0 b1 qs [] (by simp)
  have hlt : ∀ k ∈ (OctreeHashMapNode.groupByOctant b0 b1 qs []).map Prod.fst,
      k < 8 :=
    OctreeHashMapNode.groupByOctant_keys_lt b0 b1 qs []
      (by intro k hk; simp at hk)
  have hgne : OctreeHashMapNode.groupByOctant b0 b1 qs [] ≠ [] :=
    OctreeHashMapNode.groupByOctant_ne_nil b0 b1 qs [] hqs
  have hfind : ∀ k,
      OctreeHashMapNode.groupFind
        (OctreeHashMapNode.groupByOctant b0 b1 qs []) k =
        if octFilter b0 b1 k qs = [] then none
        else some (octFilter b0 b1 k qs) := by
    intro k
    have h2 := OctreeHashMapNode.groupByOctant_find b0 b1 qs [] k
    rw [OctreeHashMapNode.groupFind] at h2
    exact h2
  have hchar := OctreeHashMapNode.subdivideGroups_char insH b0 b1
    (OctreeHashMapNode.groupByOctant b0 b1 qs []) hnd
  have hslots := OctreeNode.reinsertWith_slots insC qs
    (OctreeNode.subdivNode b0 b1) rfl
  have hchains : ∀ i, i < 8 →
      OctreeOptRel
        (OctreeNode.insertManyWith insC
          (OctreeNode.leaf (OctreeNode.calculateChildBounds b0 b1 i).1
            (OctreeNode.calculateChildBounds b0 b1 i).2)
          (octFilter b0 b1 i qs))
        (OctreeHashMapNode.insertManyWith insH
          (OctreeHashMapNode.leaf
            (OctreeHashMapNode.calculateChildBounds b0 b1 i).1
            (OctreeHashMapNode.calculateChildBounds b0 b1 i).2)
          (octFilter b0 b1 i qs)) := by
    intro i hi
    exact OctreeOptRel_insertMany insC insH hrel _ _ _ (OctreeRel_leaf _ _)
  cases hC : OctreeNode.reinsertWith insC qs (OctreeNode.subdivNode b0 b1) with
  | none =>
    obtain ⟨i, hi8, hfail⟩ := hslots.1 hC
    rw [show (OctreeNode.subdivNode b0 b1).bmin = b0 from rfl,
      show (OctreeNode.subdivNode b0 b1).bmax = b1 from rfl,
      OctreeNode.child_subdivNode b0 b1 i hi8, OctreeNode.chainOpt,
      Option.map_eq_none'] at hfail
    have hrelslot := hchains i hi8
    rw [hfail] at hrelslot
    cases hHc : OctreeHashMapNode.insertManyWith insH
        (OctreeHashMapNode.leaf
          (OctreeHashMapNode.calculateChildBounds b0 b1 i).1
          (OctreeHashMapNode.calculateChildBounds b0 b1 i).2)
        (octFilter b0 b1 i qs) with
    | some c =>
      rw [hHc, OctreeOptRel] at hrelslot
      exact hrelslot.elim
    | none =>
      have hfne : octFilter b0 b1 i qs ≠ [] := by
        intro he
        rw [he, OctreeNode.insertManyWith] at hfail
        exact Option.noConfusion hfail
      have hfi : OctreeHashMapNode.groupFind
          (OctreeHashMapNode.groupByOctant b0 b1 qs []) i =
          some (octFilter b0 b1 i qs) := by
        rw [hfind i, if_neg hfne]
      cases hg : OctreeHashMapNode.subdivideGroupsWith insH b0 b1
          (OctreeHashMapNode.groupByOctant b0 b1 qs []) with
      | some cs =>
        rw [hg] at hchar
        dsimp only at hchar
        obtain ⟨c2, hc2, -⟩ := (hchar.2 i).2 _ hfi
        rw [hHc] at hc2
        exact Option.noConfusion hc2
      | none =>
        try dsimp only
        rw [OctreeOptRel]
        trivial
  | some m' =>
    obtain ⟨e0, e1, e2, e3, hslot⟩ := hslots.2 m' hC
    rw [show (OctreeNode.subdivNode b0 b1).bmin = b0 from rfl] at e0 hslot
    rw [show (OctreeNode.subdivNode b0 b1).bmax = b1 from rfl] at e1 hslot
    rw [show (OctreeNode.subdivNode b0 b1).pts = ([] : List Point) from rfl] at e2
    cases hg : OctreeHashMapNode.subdivideGroupsWith insH b0 b1
        (OctreeHashMapNode.groupByOctant b0 b1 qs []) with
    | none =>
      rw [hg] at hchar
      dsimp only at hchar
      obtain ⟨k, l, hfindk, hfailk⟩ := hchar
      have hk8 : k < 8 := hlt k (OctreeHashMapNode.groupFind_some_mem hfindk)
      have hlfilt : l = octFilter b0 b1 k qs := by
        rw [hfind k] at hfindk
        by_cases hfe : octFilter b0 b1 k qs = []
        · rw [if_pos hfe] at hfindk
          exact Option.noConfusion hfindk
        · rw [if_neg hfe] at hfindk
          injection hfindk with hfindk
          exact hfindk.symm
      subst hlfilt
      have hch := hslot k hk8
      rw [OctreeNode.child_subdivNode b0 b1 k hk8, OctreeNode.chainOpt,
        Option.map_eq_some'] at hch
      obtain ⟨ck, hck, -⟩ := hch
      have hrelslot := hchains k hk8
      rw [hck, hfailk, OctreeOptRel] at hrelslot
      exact hrelslot.elim
    | some cs =>
      rw [hg] at hchar
      dsimp only at hchar
      try dsimp only
      rw [OctreeOptRel]
      have hslotRel : ∀ i, i < 8 →
          OctreeRelOpt b0 b1 i (m'.child i)
            (OctreeHashMapNode.findChild cs i) := by
        intro i hi8
        have hch := hslot i hi8
        rw [OctreeNode.child_subdivNode b0 b1 i hi8, OctreeNode.chainOpt,
          Option.map_eq_some'] at hch
        obtain ⟨ci, hci, hchild⟩ := hch
        rw [← hchild]
        by_cases hfe : octFilter b0 b1 i qs = []
        · rw [hfe, OctreeNode.insertManyWith] at hci
          injection hci with hci
          subst hci
          have hfi : OctreeHashMapNode.groupFind
              (OctreeHashMapNode.groupByOctant b0 b1 qs []) i = none := by
            rw [hfind i, if_pos hfe]
          rw [(hchar.2 i).1 hfi, OctreeRelOpt]
        · have hfi : OctreeHashMapNode.groupFind
              (OctreeHashMapNode.groupByOctant b0 b1 qs []) i =
              some (octFilter b0 b1 i qs) := by
            rw [hfind i, if_neg hfe]
          obtain ⟨c2, hc2, hfc2⟩ := (hchar.2 i).2 _ hfi
          rw [hfc2, OctreeRelOpt]
          have hrelslot := hchains i hi8
          rw [hci, hc2, OctreeOptRel] at hrelslot
          exact hrelslot
      cases hm : m' with
      | mk mb0 mb1 mps mc0 mc1 mc2 mc3 mc4 mc5 mc6 mc7 =>
        rw [hm] at e0 e1 e2 hslotRel
        simp only [OctreeNode.bmin_mk, OctreeNode.bmax_mk,
          OctreeNode.pts_mk] at e0 e1 e2
        subst e0; subst e1; subst e2
        rw [OctreeRel]
        refine ⟨rfl, rfl, rfl, Or.inr ⟨?_, ?_, ?_, ?_, ?_, ?_, ?_, ?_, ?_,
          ?_, ?_, ?_⟩⟩
        · rw [hm, OctreeNode.isLeaf_mk] at e3
          cases mc0 with
          | none => simp at e3
          | some c => rfl
        · intro hcse
          subst hcse
          rw [List.map_nil] at hchar
          exact hgne (List.map_eq_nil_iff.mp hchar.1.symm)
        · rw [hchar.1]
          exact hlt
        · rw [hchar.1]
          exact hnd
        · exact hslotRel 0 (by norm_num)
        · exact hslotRel 1 (by norm_num)
        · exact hslotRel 2 (by norm_num)
        · exact hslotRel 3 (by norm_num)
        · exact hslotRel 4 (by norm_num)
        · exact hslotRel 5 (by norm_num)
        · exact hslotRel 6 (by norm_num)
        · exact hslotRel 7 (by norm_num)

theorem OctreeRel_update
    {b0 b1 : Point} {ps : List Point}
    {c0 c1 c2 c3 c4 c5 c6 c7 : Option OctreeNode}
    {hcs : List (Nat × OctreeHashMapNode)}
    (hs0 : c0.isSome = true)
    (hklt : ∀ k ∈ hcs.map Prod.fst, k < 8) (hknd : (hcs.map Prod.fst).Nodup)
    (r : ∀ j, j < 8 → OctreeRelOpt b0 b1 j
      ((OctreeNode.mk b0 b1 ps c0 c1 c2 c3 c4 c5 c6 c7).child j)
      (OctreeHashMapNode.findChild hcs j))
    (i : Nat) (hi8 : i < 8) (c' : OctreeNode) (hc' : OctreeHashMapNode)
    (hrel : OctreeRel c' hc') :
    OctreeRel ((OctreeNode.mk b0 b1 ps c0 c1 c2 c3 c4 c5 c6 c7).setChild i c')
      ((OctreeHashMapNode.mk b0 b1 ps hcs).setChildren
        (OctreeHashMapNode.storeChild hcs i hc')) := by
  have hslot : ∀ j, j < 8 → OctreeRelOpt b0 b1 j
      (if j = i then some c'
       else (OctreeNode.mk b0 b1 ps c0 c1 c2 c3 c4 c5 c6 c7).child j)
      (OctreeHashMapNode.findChild
        (OctreeHashMapNode.storeChild hcs i hc') j) := by
    intro j hj8
    by_cases hji : j = i
    · subst hji
      rw [if_pos rfl, OctreeHashMapNode.findChild_storeChild_same,
        OctreeRelOpt]
      exact hrel
    · rw [if_neg hji,
        OctreeHashMapNode.findChild_storeChild_ne hcs i j hc' hji]
      exact r j hj8
  interval_cases i <;>
    refine ⟨rfl, rfl, rfl, Or.inr ⟨?_,
      OctreeHashMapNode.storeChild_ne_nil _ _ _,
      OctreeHashMapNode.keys_storeChild_lt hklt (by norm_num),
      OctreeHashMapNode.keys_storeChild_nodup _ _ _ hknd,
      hslot 0 (by norm_num), hslot 1 (by norm_num), hslot 2 (by norm_num),
      hslot 3 (by norm_num), hslot 4 (by norm_num), hslot 5 (by norm_num),
      hslot 6 (by norm_num), hslot 7 (by norm_num)⟩⟩ <;>
    first | rfl | exact hs0

theorem OctreeOptRel_insert :
    ∀ (fuel : Nat) (n : OctreeNode) (h : OctreeHashMapNode) (p : Point),
      OctreeRel n h →
      OctreeOptRel (OctreeNode.insert fuel n p)
        (OctreeHashMapNode.insert fuel h p) := by
  intro fuel
  induction fuel using Nat.strong_induction_on with
  | _ fuel ih =>
    match fuel with
    | 0 =>
      intro n h p _
      rw [OctreeNode.insert, OctreeHashMapNode.insert, OctreeOptRel]
      trivial
    | fuel + 1 =>
      intro n h p hrel
      have hrelIns : ∀ (c : OctreeNode) (hc : OctreeHashMapNode) (q : Point),
          OctreeRel c hc →
          OctreeOptRel (OctreeNode.insert fuel c q)
            (OctreeHashMapNode.insert fuel hc q) :=
        fun c hc q hr => ih fuel (Nat.lt_succ_self fuel) c hc q hr
      cases n with
      | mk b0 b1 ps c0 c1 c2 c3 c4 c5 c6 c7 =>
      cases h with
      | mk hb0 hb1 hps hcs =>
      rw [OctreeRel] at hrel
      obtain ⟨hb0e, hb1e, hpse, hdich⟩ := hrel
      subst hb0e; subst hb1e; subst hpse
      rw [OctreeNode.insert, OctreeHashMapNode.insert]
      simp only [OctreeNode.bmin_mk, OctreeNode.bmax_mk, OctreeNode.pts_mk,
        OctreeHashMapNode.bmin_mkH, OctreeHashMapNode.bmax_mkH,
        OctreeHashMapNode.pts_mkH, OctreeHashMapNode.children_mk]
      rw [hm_containsB_eq]
      by_cases hcont : OctreeNode.containsB b0 b1 p = true
      · rw [hcont]
        rw [if_neg (show ¬((!true) = true) by simp),
          if_neg (show ¬((!true) = true) by simp)]
        rcases hdich with ⟨h0, h1, h2, h3, h4, h5, h6, h7, hnil⟩ |
          ⟨hs0, hne, hklt, hknd, r0, r1, r2, r3, r4, r5, r6, r7⟩
        · subst h0; subst h1; subst h2; subst h3
          subst h4; subst h5; subst h6; subst h7; subst hnil
          rw [show (OctreeNode.mk b0 b1 ps none none none none none none
            none none).isLeaf = true from rfl]
          rw [show (OctreeHashMapNode.mk b0 b1 ps
            ([] : List (Nat × OctreeHashMapNode))).isLeaf = true from rfl]
          rw [if_pos rfl, if_pos rfl]
          try dsimp only
          rw [OctreeNode.setPts, OctreeHashMapNode.setPts]
          simp only [OctreeNode.pts_mk, OctreeHashMapNode.pts_mkH]
          rw [OctreeHashMapNode.MAX_POINTS_PER_LEAF]
          by_cases hov : (ps ++ [p]).length > 1
          · rw [if_pos hov, if_pos hov]
            exact OctreeOptRel_subdivide _ _ hrelIns b0 b1 (ps ++ [p])
              (by simp)
          · rw [if_neg hov, if_neg hov, OctreeOptRel, OctreeRel]
            exact ⟨rfl, rfl, rfl,
              Or.inl ⟨rfl, rfl, rfl, rfl, rfl, rfl, rfl, rfl, rfl⟩⟩
        · have hlc : (OctreeNode.mk b0 b1 ps c0 c1 c2 c3 c4 c5 c6
              c7).isLeaf = false := by
            rw [OctreeNode.isLeaf_mk]
            rcases Option.isSome_iff_exists.mp hs0 with ⟨v, hv⟩
            rw [hv]
            rfl
          have hlh : (OctreeHashMapNode.mk b0 b1 ps hcs).isLeaf = false := by
            rw [OctreeHashMapNode.isLeaf]
            simp only [OctreeHashMapNode.children_mk]
            cases hcs with
            | nil => exact absurd rfl hne
            | cons e r => rfl
          rw [hlc, hlh]
          rw [if_neg (by simp), if_neg (by simp)]
          try dsimp only
          rw [hm_getOctant_eq]
          have hi8 := OctreeNode.getOctant_lt8 b0 b1 p
          have rAll : ∀ j, j < 8 → OctreeRelOpt b0 b1 j
              ((OctreeNode.mk b0 b1 ps c0 c1 c2 c3 c4 c5 c6 c7).child j)
              (OctreeHashMapNode.findChild hcs j) := by
            intro j hj
            have h8 : j = 0 ∨ j = 1 ∨ j = 2 ∨ j = 3 ∨ j = 4 ∨ j = 5 ∨
              j = 6 ∨ j = 7 := by omega
            rcases h8 with rfl|rfl|rfl|rfl|rfl|rfl|rfl|rfl
            exacts [r0, r1, r2, r3, r4, r5, r6, r7]
          have tail : ∀ (c : OctreeNode) (hc : OctreeHashMapNode),
              OctreeRel c hc →
              OctreeOptRel
                (match OctreeNode.insert fuel c p with
                 | none => none
                 | some c' =>
                   some ((OctreeNode.mk b0 b1 ps c0 c1 c2 c3 c4 c5 c6
                     c7).setChild (OctreeNode.getOctant b0 b1 p) c'))
                (match OctreeHashMapNode.insert fuel hc p with
                 | none => none
                 | some hc' =>
                   some ((OctreeHashMapNode.mk b0 b1 ps hcs).setChildren
                     (OctreeHashMapNode.storeChild hcs
                       (OctreeNode.getOctant b0 b1 p) hc'))) := by
            intro c hc hr
            have hrec := hrelIns c hc p hr
            cases hC1 : OctreeNode.insert fuel c p with
            | none =>
              cases hH1 : OctreeHashMapNode.insert fuel hc p with
              | none =>
                try dsimp only
                rw [OctreeOptRel]
                trivial
              | some hc' =>
                rw [hC1, hH1, OctreeOptRel] at hrec
                exact hrec.elim
            | some c' =>
              cases hH1 : OctreeHashMapNode.insert fuel hc p with
              | none =>
                rw [hC1, hH1, OctreeOptRel] at hrec
                exact hrec.elim
              | some hc' =>
                rw [hC1, hH1, OctreeOptRel] at hrec
                try dsimp only
                rw [OctreeOptRel]
                exact OctreeRel_update hs0 hklt hknd rAll
                  (OctreeNode.getOctant b0 b1 p) hi8 c' hc' hrec
          have hropt := rAll (OctreeNode.getOctant b0 b1 p) hi8
          cases hcC : (OctreeNode.mk b0 b1 ps c0 c1 c2 c3 c4 c5 c6
              c7).child (OctreeNode.getOctant b0 b1 p) with
          | none =>
            cases hfH : OctreeHashMapNode.findChild hcs
                (OctreeNode.getOctant b0 b1 p) with
            | some hc =>
              rw [hcC, hfH, OctreeRelOpt] at hropt
              exact hropt.elim
            | none =>
              try dsimp only
              exact tail _ _ (by
                rw [hm_calculateChildBounds_eq]
                exact OctreeRel_leaf _ _)
          | some c =>
            cases hfH : OctreeHashMapNode.findChild hcs
                (OctreeNode.getOctant b0 b1 p) with
            | none =>
              rw [hcC, hfH, OctreeRelOpt] at hropt
              subst hropt
              try dsimp only
              exact tail _ _ (by
                rw [hm_calculateChildBounds_eq]
                exact OctreeRel_leaf _ _)
            | some hc =>
              rw [hcC, hfH, OctreeRelOpt] at hropt
              try dsimp only
              exact tail _ _ hropt
      · have hcontf : OctreeNode.containsB b0 b1 p = false := by
          simpa using hcont
        rw [hcontf]
        rw [if_pos (show (!false) = true by decide),
          if_pos (show (!false) = true by decide)]
        rw [OctreeOptRel, OctreeRel]
        exact ⟨rfl, rfl, rfl, hdich⟩

theorem OctreeOptRel_insertSeq (fuel : Nat) :
    ∀ (ps : List Point) (n : OctreeNode) (h : OctreeHashMapNode),
      OctreeRel n h →
      OctreeOptRel (OctreeNode.insertSeq fuel n ps)
        (OctreeHashMapNode.insertSeq fuel h ps) := by
  intro ps
  induction ps with
  | nil =>
    intro n h hr
    rw [OctreeNode.insertSeq, OctreeHashMapNode.insertSeq, OctreeOptRel]
    exact hr
  | cons p ps ih =>
    intro n h hr
    rw [OctreeNode.insertSeq, OctreeHashMapNode.insertSeq]
    have hstep := OctreeOptRel_insert fuel n h p hr
    cases h1 : OctreeNode.insert fuel n p with
    | none =>
      cases h2 : OctreeHashMapNode.insert fuel h p with
      | none =>
        try dsimp only
        rw [OctreeOptRel]
        trivial
      | some h' =>
        rw [h1, h2, OctreeOptRel] at hstep
        exact hstep.elim
    | some n' =>
      cases h2 : OctreeHashMapNode.insert fuel h p with
      | none =>
        rw [h1, h2, OctreeOptRel] at hstep
        exact hstep.elim
      | some h' =>
        rw [h1, h2, OctreeOptRel] at hstep
        try dsimp only
        exact ih n' h' hstep

theorem OctreeOptRel_build (bmin bmax : Point) (fuel : Nat) (ps : List Point) :
    OctreeOptRel (OctreeNode.build bmin bmax fuel ps)
      (OctreeHashMapNode.build bmin bmax fuel ps) := by
  rw [OctreeNode.build, OctreeHashMapNode.build]
  exact OctreeOptRel_insertSeq fuel ps _ _ (OctreeRel_leaf bmin bmax)

theorem OctreeHashMapNode.findChild_none_of_not_mem :
    ∀ {cs : List (Nat × OctreeHashMapNode)} {k : Nat},
      k ∉ cs.map Prod.fst → OctreeHashMapNode.findChild cs k = none
  | [], _, _ => rfl
  | (k', c) :: rest, k, h => by
    rw [List.map_cons, List.mem_cons] at h
    push_neg at h
    rw [OctreeHashMapNode.findChild, if_neg (fun h2 => h.1 h2.symm)]
    exact OctreeHashMapNode.findChild_none_of_not_mem h.2

theorem OctreeHashMapNode.collectChildren_sum :
    ∀ (cs : List (Nat × OctreeHashMapNode)),
      (∀ k ∈ cs.map Prod.fst, k < 8) → (cs.map Prod.fst).Nodup →
      (↑(OctreeHashMapNode.collectChildren cs) : Multiset Point) =
        ∑ i in Finset.range 8,
          (↑(OctreeHashMapNode.collectOptH (OctreeHashMapNode.findChild cs i)) :
            Multiset Point) := by
  intro cs
  induction cs with
  | nil =>
    intro _ _
    simp [OctreeHashMapNode.findChild]
  | cons e rest ih =>
    obtain ⟨k, c⟩ := e
    intro hlt hnd
    rw [List.map_cons, List.nodup_cons] at hnd
    have hk8 : k < 8 := hlt k (by rw [List.map_cons]; exact List.mem_cons_self _ _)
    have hrest : ∀ j ∈ rest.map Prod.fst, j < 8 := fun j hj =>
      hlt j (by rw [List.map_cons]; exact List.mem_cons_of_mem _ hj)
    have hgrest := ih hrest hnd.2
    have hfk : OctreeHashMapNode.findChild rest k = none :=
      OctreeHashMapNode.findChild_none_of_not_mem hnd.1
    have hsplit : ∀ i, OctreeHashMapNode.findChild ((k, c) :: rest) i =
        if k = i then some c else OctreeHashMapNode.findChild rest i := by
      intro i
      rw [OctreeHashMapNode.findChild]
    have hsum : (∑ i in Finset.range 8,
        (↑(OctreeHashMapNode.collectOptH
          (OctreeHashMapNode.findChild ((k, c) :: rest) i)) : Multiset Point)) =
        ∑ i in Finset.range 8,
          (if k = i then (↑c.collectAllPoints : Multiset Point)
           else ↑(OctreeHashMapNode.collectOptH
             (OctreeHashMapNode.findChild rest i))) := by
      refine Finset.sum_congr rfl ?_
      intro i _
      rw [hsplit i]
      by_cases hki : k = i
      · rw [if_pos hki, if_pos hki, OctreeHashMapNode.collectOptH_some]
      · rw [if_neg hki, if_neg hki]
    rw [OctreeHashMapNode.collectChildren_cons, hsum]
    have hgk : (↑(OctreeHashMapNode.collectOptH
        (OctreeHashMapNode.findChild rest k)) : Multiset Point) = 0 := by
      rw [hfk]
      rfl
    have hpt : ∀ i ∈ Finset.range 8,
        (if k = i then (↑c.collectAllPoints : Multiset Point)
         else ↑(OctreeHashMapNode.collectOptH
           (OctreeHashMapNode.findChild rest i))) =
        (↑(OctreeHashMapNode.collectOptH
          (OctreeHashMapNode.findChild rest i)) : Multiset Point) +
          (if k = i then (↑c.collectAllPoints : Multiset Point) else 0) := by
      intro i _
      by_cases hki : k = i
      · subst hki
        rw [if_pos rfl, if_pos rfl, hgk, zero_add]
      · rw [if_neg hki, if_neg hki, add_zero]
    rw [Finset.sum_congr rfl hpt, Finset.sum_add_distrib,
      Finset.sum_ite_eq (Finset.range 8) k
        (fun _ => (↑c.collectAllPoints : Multiset Point)),
      if_pos (Finset.mem_range.mpr hk8), ← hgrest]
    simp only [← Multiset.coe_add]
    exact add_comm _ _

mutual

theorem OctreeRel_collect :
    ∀ (n : OctreeNode) (h : OctreeHashMapNode), OctreeRel n h →
      (↑n.collectAllPoints : Multiset Point) = ↑h.collectAllPoints
  | .mk b0 b1 ps c0 c1 c2 c3 c4 c5 c6 c7, .mk hb0 hb1 hps hcs, hrel => by
    rw [OctreeRel] at hrel
    obtain ⟨hb0e, hb1e, hpse, hdich⟩ := hrel
    subst hpse
    rw [OctreeNode.collect_mk, OctreeHashMapNode.collect_mkH]
    rcases hdich with ⟨h0, h1, h2, h3, h4, h5, h6, h7, hnil⟩ |
      ⟨hs0, hne, hklt, hknd, r0, r1, r2, r3, r4, r5, r6, r7⟩
    · subst h0; subst h1; subst h2; subst h3
      subst h4; subst h5; subst h6; subst h7; subst hnil
      simp
    · have hc0 : c0.isNone = false := by
        rcases Option.isSome_iff_exists.mp hs0 with ⟨v, hv⟩
        rw [hv]
        rfl
      rw [hc0, if_neg (by simp)]
      have e0 := OctreeRelOpt_collect b0 b1 0 c0 _ r0
      have e1 := OctreeRelOpt_collect b0 b1 1 c1 _ r1
      have e2 := OctreeRelOpt_collect b0 b1 2 c2 _ r2
      have e3 := OctreeRelOpt_collect b0 b1 3 c3 _ r3
      have e4 := OctreeRelOpt_collect b0 b1 4 c4 _ r4
      have e5 := OctreeRelOpt_collect b0 b1 5 c5 _ r5
      have e6 := OctreeRelOpt_collect b0 b1 6 c6 _ r6
      have e7 := OctreeRelOpt_collect b0 b1 7 c7 _ r7
      simp only [← Multiset.coe_add]
      rw [OctreeHashMapNode.collectChildren_sum hcs hklt hknd]
      simp only [Finset.sum_range_succ, Finset.sum_range_zero, zero_add]
      rw [← e0, ← e1, ← e2, ← e3, ← e4, ← e5, ← e6, ← e7]

theorem OctreeRelOpt_collect :
    ∀ (b0 b1 : Point) (j : Nat) (c : Option OctreeNode)
      (hc : Option OctreeHashMapNode), OctreeRelOpt b0 b1 j c hc →
      (↑(OctreeNode.collectOpt c) : Multiset Point) =
        ↑(OctreeHashMapNode.collectOptH hc)
  | _, _, _, none, none, _ => rfl
  | b0, b1, j, some c, none, hrel => by
    rw [OctreeRelOpt] at hrel
    rw [hrel]
    rfl
  | _, _, _, none, some _, hrel => by
    rw [OctreeRelOpt] at hrel
    exact hrel.elim
  | b0, b1, j, some c, some hc, hrel => by
    rw [OctreeRelOpt] at hrel
    exact OctreeRel_collect c hc hrel

end

@[simp] theorem OctreeHashMapNode.leafEntriesOptH_none :
    OctreeHashMapNode.leafEntriesOptH none = [] := rfl

@[simp] theorem OctreeHashMapNode.leafEntriesOptH_some (c : OctreeHashMapNode) :
    OctreeHashMapNode.leafEntriesOptH (some c) = c.leafEntries := rfl

theorem OctreeHashMapNode.leafEntriesC_sum :
    ∀ (cs : List (Nat × OctreeHashMapNode)),
      (∀ k ∈ cs.map Prod.fst, k < 8) → (cs.map Prod.fst).Nodup →
      (↑(OctreeHashMapNode.leafEntriesC cs) :
          Multiset ((Point × Point) × List Point)) =
        ∑ i in Finset.range 8,
          (↑(OctreeHashMapNode.leafEntriesOptH
            (OctreeHashMapNode.findChild cs i)) :
            Multiset ((Point × Point) × List Point)) := by
  intro cs
  induction cs with
  | nil =>
    intro _ _
    simp [OctreeHashMapNode.findChild, OctreeHashMapNode.leafEntriesC]
  | cons e rest ih =>
    obtain ⟨k, c⟩ := e
    intro hlt hnd
    rw [List.map_cons, List.nodup_cons] at hnd
    have hk8 : k < 8 := hlt k (by rw [List.map_cons]; exact List.mem_cons_self _ _)
    have hrest : ∀ j ∈ rest.map Prod.fst, j < 8 := fun j hj =>
      hlt j (by rw [List.map_cons]; exact List.mem_cons_of_mem _ hj)
    have hgrest := ih hrest hnd.2
    have hfk : OctreeHashMapNode.findChild rest k = none :=
      OctreeHashMapNode.findChild_none_of_not_mem hnd.1
    have hsum : (∑ i in Finset.range 8,
        (↑(OctreeHashMapNode.leafEntriesOptH
          (OctreeHashMapNode.findChild ((k, c) :: rest) i)) :
          Multiset ((Point × Point) × List Point))) =
        ∑ i in Finset.range 8,
          (if k = i then (↑c.leafEntries :
            Multiset ((Point × Point) × List Point))
           else ↑(OctreeHashMapNode.leafEntriesOptH
             (OctreeHashMapNode.findChild rest i))) := by
      refine Finset.sum_congr rfl ?_
      intro i _
      rw [OctreeHashMapNode.findChild]
      by_cases hki : k = i
      · rw [if_pos hki, if_pos hki, OctreeHashMapNode.leafEntriesOptH_some]
      · rw [if_neg hki, if_neg hki]
    rw [OctreeHashMapNode.leafEntriesC, hsum]
    have hgk : (↑(OctreeHashMapNode.leafEntriesOptH
        (OctreeHashMapNode.findChild rest k)) :
        Multiset ((Point × Point) × List Point)) = 0 := by
      rw [hfk]
      rfl
    have hpt : ∀ i ∈ Finset.range 8,
        (if k = i then (↑c.leafEntries :
          Multiset ((Point × Point) × List Point))
         else ↑(OctreeHashMapNode.leafEntriesOptH
           (OctreeHashMapNode.findChild rest i))) =
        (↑(OctreeHashMapNode.leafEntriesOptH
          (OctreeHashMapNode.findChild rest i)) :
          Multiset ((Point × Point) × List Point)) +
          (if k = i then (↑c.leafEntries :
            Multiset ((Point × Point) × List Point)) else 0) := by
      intro i _
      by_cases hki : k = i
      · subst hki
        rw [if_pos rfl, if_pos rfl, hgk, zero_add]
      · rw [if_neg hki, if_neg hki, add_zero]
    rw [Finset.sum_congr rfl hpt, Finset.sum_add_distrib,
      Finset.sum_ite_eq (Finset.range 8) k
        (fun _ => (↑c.leafEntries : Multiset ((Point × Point) × List Point))),
      if_pos (Finset.mem_range.mpr hk8), ← hgrest]
    simp only [← Multiset.coe_add]
    exact add_comm _ _

mutual

theorem OctreeRel_leafEntries :
    ∀ (n : OctreeNode) (h : OctreeHashMapNode), OctreeRel n h →
      (↑n.leafEntries : Multiset ((Point × Point) × List Point)) =
        ↑h.leafEntries
  | .mk b0 b1 ps c0 c1 c2 c3 c4 c5 c6 c7, .mk hb0 hb1 hps hcs, hrel => by
    rw [OctreeRel] at hrel
    obtain ⟨hb0e, hb1e, hpse, hdich⟩ := hrel
    subst hb0e; subst hb1e; subst hpse
    rw [OctreeNode.leafEntries, OctreeHashMapNode.leafEntries]
    rcases hdich with ⟨h0, h1, h2, h3, h4, h5, h6, h7, hnil⟩ |
      ⟨hs0, hne, hklt, hknd, r0, r1, r2, r3, r4, r5, r6, r7⟩
    · subst h0; subst h1; subst h2; subst h3
      subst h4; subst h5; subst h6; subst h7; subst hnil
      simp [OctreeNode.leafEntriesOpt, OctreeHashMapNode.leafEntriesC]
    · have e0 := OctreeRelOpt_leafEntries b0 b1 0 c0 _ r0
      have e1 := OctreeRelOpt_leafEntries b0 b1 1 c1 _ r1
      have e2 := OctreeRelOpt_leafEntries b0 b1 2 c2 _ r2
      have e3 := OctreeRelOpt_leafEntries b0 b1 3 c3 _ r3
      have e4 := OctreeRelOpt_leafEntries b0 b1 4 c4 _ r4
      have e5 := OctreeRelOpt_leafEntries b0 b1 5 c5 _ r5
      have e6 := OctreeRelOpt_leafEntries b0 b1 6 c6 _ r6
      have e7 := OctreeRelOpt_leafEntries b0 b1 7 c7 _ r7
      simp only [← Multiset.coe_add]
      rw [OctreeHashMapNode.leafEntriesC_sum hcs hklt hknd]
      simp only [Finset.sum_range_succ, Finset.sum_range_zero, zero_add]
      rw [← e0, ← e1, ← e2, ← e3, ← e4, ← e5, ← e6, ← e7]
      abel

theorem OctreeRelOpt_leafEntries :
    ∀ (b0 b1 : Point) (j : Nat) (c : Option OctreeNode)
      (hc : Option OctreeHashMapNode), OctreeRelOpt b0 b1 j c hc →
      (↑(OctreeNode.leafEntriesOpt c) :
          Multiset ((Point × Point) × List Point)) =
        ↑(OctreeHashMapNode.leafEntriesOptH hc)
  | _, _, _, none, none, _ => rfl
  | b0, b1, j, some c, none, hrel => by
    rw [OctreeRelOpt] at hrel
    rw [hrel]
    rfl
  | _, _, _, none, some _, hrel => by
    rw [OctreeRelOpt] at hrel
    exact hrel.elim
  | b0, b1, j, some c, some hc, hrel => by
    rw [OctreeRelOpt] at hrel
    exact OctreeRel_leafEntries c hc hrel

end

/-- C3: the same insertion sequence applied to an array-backed root and to a
map-backed root with the same bounding box behaves identically: the two runs
complete at exactly the same fuel, and the resulting trees carry the same
multiset of points per occupied region (`leafEntries` pairs each nonempty
buffer with its node's bounding box), the same `collectAllPoints` multiset
and the same total stored-point count — the trees differ only in which empty
octants are materialised as nodes. -/
theorem claim_C3 (bmin bmax : Point) (fuel : Nat) (ps : List Point) :
    (OctreeNode.build bmin bmax fuel ps).isSome =
      (OctreeHashMapNode.build bmin bmax fuel ps).isSome ∧
    ∀ t h, OctreeNode.build bmin bmax fuel ps = some t →
      OctreeHashMapNode.build bmin bmax fuel ps = some h →
      (↑t.collectAllPoints : Multiset Point) = ↑h.collectAllPoints ∧
      t.collectAllPoints.length = h.collectAllPoints.length ∧
      (↑t.leafEntries : Multiset ((Point × Point) × List Point)) =
        ↑h.leafEntries := by
  have hrel := OctreeOptRel_build bmin bmax fuel ps
  constructor
  · cases hC : OctreeNode.build bmin bmax fuel ps with
    | none =>
      cases hH : OctreeHashMapNode.build bmin bmax fuel ps with
      | none => rfl
      | some h =>
        rw [hC, hH, OctreeOptRel] at hrel
        exact hrel.elim
    | some t =>
      cases hH : OctreeHashMapNode.build bmin bmax fuel ps with
      | none =>
        rw [hC, hH, OctreeOptRel] at hrel
        exact hrel.elim
      | some h => rfl
  · intro t h hC hH
    rw [hC, hH, OctreeOptRel] at hrel
    have hcol := OctreeRel_collect t h hrel
    refine ⟨hcol, ?_, OctreeRel_leafEntries t h hrel⟩
    have hcard := congrArg Multiset.card hcol
    simpa using hcard

/-- Witness for C3: a concrete 3-point insertion sequence (one out of
bounds) run against both variants. -/
theorem claim_C3_witness :
    ((OctreeNode.build ⟨-10, -10, -10⟩ ⟨10, 10, 10⟩ 6
        [⟨1, 1, 1⟩, ⟨100, 100, 100⟩, ⟨-3, 2, -5⟩]).isSome =
      (OctreeHashMapNode.build ⟨-10, -10, -10⟩ ⟨10, 10, 10⟩ 6
        [⟨1, 1, 1⟩, ⟨100, 100, 100⟩, ⟨-3, 2, -5⟩]).isSome) ∧
    ((↑((OctreeNode.build ⟨-10, -10, -10⟩ ⟨10, 10, 10⟩ 6
        [⟨1, 1, 1⟩, ⟨100, 100, 100⟩, ⟨-3, 2, -5⟩]).get
          (by decide)).collectAllPoints : Multiset Point) =
      ↑((OctreeHashMapNode.build ⟨-10, -10, -10⟩ ⟨10, 10, 10⟩ 6
        [⟨1, 1, 1⟩, ⟨100, 100, 100⟩, ⟨-3, 2, -5⟩]).get
          (by decide)).collectAllPoints ∧
     ((OctreeNode.build ⟨-10, -10, -10⟩ ⟨10, 10, 10⟩ 6
        [⟨1, 1, 1⟩, ⟨100, 100, 100⟩, ⟨-3, 2, -5⟩]).get
          (by decide)).collectAllPoints.length =
      ((OctreeHashMapNode.build ⟨-10, -10, -10⟩ ⟨10, 10, 10⟩ 6
        [⟨1, 1, 1⟩, ⟨100, 100, 100⟩, ⟨-3, 2, -5⟩]).get
          (by decide)).collectAllPoints.length ∧
     (↑((OctreeNode.build ⟨-10, -10, -10⟩ ⟨10, 10, 10⟩ 6
        [⟨1, 1, 1⟩, ⟨100, 100, 100⟩, ⟨-3, 2, -5⟩]).get
          (by decide)).leafEntries :
        Multiset ((Point × Point) × List Point)) =
      ↑((OctreeHashMapNode.build ⟨-10, -10, -10⟩ ⟨10, 10, 10⟩ 6
        [⟨1, 1, 1⟩, ⟨100, 100, 100⟩, ⟨-3, 2, -5⟩]).get
          (by decide)).leafEntries) :=
  ⟨(claim_C3 ⟨-10, -10, -10⟩ ⟨10, 10, 10⟩ 6
      [⟨1, 1, 1⟩, ⟨100, 100, 100⟩, ⟨-3, 2, -5⟩]).1,
   (claim_C3 ⟨-10, -10, -10⟩ ⟨10, 10, 10⟩ 6
      [⟨1, 1, 1⟩, ⟨100, 100, 100⟩, ⟨-3, 2, -5⟩]).2 _ _
     (Option.some_get _).symm (Option.some_get _).symm⟩
